import Mathlib

/-!
# Schema provisioning for the TimescaleDB loader (`cmd/tsbs_load_timescaledb/creator.go`)

A shallow embedding of `dbCreator.readDataHeader`, `dbCreator.DBExists`,
`dbCreator.RemoveOldDB`, `dbCreator.CreateDB` and `dbCreator.getCreateIndexOnFieldCmds`.

Modelling conventions

* A Go `string` is a list of Unicode code points (`Str`); the strings handled here are
  valid UTF-8 text, on which the byte-wise `strings.Split` and `ReadString` agree with
  their code-point-wise versions.
* Go `int` is 64 bits wide; the one addition of the source that can overflow
  (`fieldIndexCount+extraCols`) wraps around explicitly.
* `fatal(...)` stops the process; it is an outcome of its own, distinct from a returned
  error and from a run-time panic.
* The database is an oracle that says, for the actions attempted so far and the next
  action, whether that action succeeds; `MustConnect` and `MustExec` panic when it fails.
* `createTagsTable` is declared outside the file: it is one action of the trace, and the
  rule that the table `tags` cannot be created a second time is a property of the
  database (`refusesSecondTagsTable`), assumed where a statement needs it.
-/

set_option maxRecDepth 8000

namespace Tsbs

/-- A Go string. -/
abbrev Str := List Char

/-! ## The parts of the Go standard library the source calls -/

namespace unicode

/-- Go `unicode.IsSpace`: the code points with the Unicode White_Space property. -/
def IsSpace (r : Char) : Bool :=
  let n := r.toNat
  (0x09 ≤ n && n ≤ 0x0D) || n == 0x20 || n == 0x85 || n == 0xA0 || n == 0x1680 ||
  (0x2000 ≤ n && n ≤ 0x200A) || n == 0x2028 || n == 0x2029 || n == 0x202F ||
  n == 0x205F || n == 0x3000

end unicode

namespace strings

/-- Go `strings.Split(s, sep)` for a one-character separator: the substrings between the
separators, in order. The result always has one element more than `s` has separators, so
it is never empty. -/
def Split : Str → Char → List Str
  | [], _ => [[]]
  | c :: cs, sep =>
    if c = sep then [] :: Split cs sep
    else
      match Split cs sep with
      | [] => [[c]]
      | t :: ts => (c :: t) :: ts

/-- Go `strings.TrimSpace`: drops the leading and the trailing white space. -/
def TrimSpace (s : Str) : Str :=
  ((s.dropWhile unicode.IsSpace).reverse.dropWhile unicode.IsSpace).reverse

/-- Go `strings.Join(elems, sep)`. -/
def Join : List Str → Str → Str
  | [], _ => []
  | [a], _ => a
  | a :: b :: rest, sep => a ++ sep ++ Join (b :: rest) sep

end strings

/-! ## Package-level declarations used by `creator.go` and declared elsewhere -/

/-- The package-level constants and flag variables that `creator.go` reads. They are
declared in another file of package `main`, so they are parameters here. -/
structure Globals where
  /-- The constant naming the index on `(time DESC, field)`. -/
  timeValueIdx : Str
  /-- The constant naming the index on `(field, time DESC)`. -/
  valueTimeIdx : Str
  inTableTag : Bool
  fieldIndex : Str
  /-- A Go `int`. -/
  fieldIndexCount : Int
  partitionIndex : Bool
  timePartitionIndex : Bool
  timeIndex : Bool
  useHypertable : Bool
  /-- A Go integer, printed with `%v`. -/
  numberPartitions : Int
  /-- The flag `chunkTime`, a `time.Duration`, as its `Nanoseconds()`. -/
  chunkTimeNanoseconds : Int

/-- How a call can end other than by returning: `fatal` was called and the process
stopped. The payload is the formatted message. -/
abbrev Fatal := Except Str

/-! ## `getCreateIndexOnFieldCmds` -/

/-- The body of the `for _, idx := range strings.Split(idxType, ",")` loop of
`getCreateIndexOnFieldCmds`, over the tokens still to visit, with `ret` so far. -/
def getCreateIndexOnFieldCmds.loop (g : Globals) (hypertable field : Str) :
    List Str → List Str → Fatal (List Str)
  | [], ret => .ok ret
  | idx :: rest, ret =>
    if idx = [] then
      getCreateIndexOnFieldCmds.loop g hypertable field rest ret
    else if idx = g.timeValueIdx then
      let indexDef := "(time DESC, ".toList ++ field ++ ")".toList
      getCreateIndexOnFieldCmds.loop g hypertable field rest
        (ret ++ ["CREATE INDEX ON ".toList ++ hypertable ++ " ".toList ++ indexDef])
    else if idx = g.valueTimeIdx then
      let indexDef := "(".toList ++ field ++ ", time DESC)".toList
      getCreateIndexOnFieldCmds.loop g hypertable field rest
        (ret ++ ["CREATE INDEX ON ".toList ++ hypertable ++ " ".toList ++ indexDef])
    else
      .error ("Unknown index type ".toList ++ idx)

/-- Go `(d *dbCreator) getCreateIndexOnFieldCmds(hypertable, field, idxType)`. -/
def getCreateIndexOnFieldCmds (g : Globals) (hypertable field idxType : Str) :
    Fatal (List Str) :=
  getCreateIndexOnFieldCmds.loop g hypertable field (strings.Split idxType ',') []

/-! ## `readDataHeader` -/

namespace bufio

/-- Go `(*bufio.Reader).ReadString(delim)` on a reader whose unread input is the first
argument: the text up to and including the first `delim`, no error, and the input left
unread; when the input ends before a `delim` is found, the text read so far and the
error `io.EOF`. -/
def ReadString : Str → Char → Str × Option Str × Str
  | [], _ => ([], some "EOF".toList, [])
  | c :: cs, delim =>
    if c = delim then ([c], none, cs)
    else
      let r := ReadString cs delim
      (c :: r.1, r.2.1, r.2.2)

end bufio

/-- Go `type dbCreator struct`. -/
structure dbCreator where
  tags : Str
  cols : Str
  connStr : Str
  deriving DecidableEq

/-- One iteration, for the loop counter `i`, of the `for` loop of `readDataHeader`;
`br` is the unread input of the reader. -/
def readDataHeader.body (i : Nat) (d : dbCreator) (br : Str) : Fatal (dbCreator × Str) :=
  if i = 0 then
    let r := bufio.ReadString br '\n'
    let d := { d with tags := strings.TrimSpace r.1 }
    match r.2.1 with
    | some err => .error ("input has wrong header format: ".toList ++ err)
    | none => .ok (d, r.2.2)
  else if i = 1 then
    let r := bufio.ReadString br '\n'
    let d := { d with cols := strings.TrimSpace r.1 }
    match r.2.1 with
    | some err => .error ("input has wrong header format: ".toList ++ err)
    | none => .ok (d, r.2.2)
  else
    let r := bufio.ReadString br '\n'
    let empty := strings.TrimSpace r.1
    if empty.length > 0 then
      .error "input has wrong header format: third line is not blank".toList
    else
      match r.2.1 with
      | some err => .error ("input has wrong header format: ".toList ++ err)
      | none => .ok (d, r.2.2)

/-- The loop `for i := 0; i < 3; i++` of `readDataHeader` with `n` iterations left. -/
def readDataHeader.loop : Nat → Nat → dbCreator → Str → Fatal (dbCreator × Str)
  | 0, _, d, br => .ok (d, br)
  | n + 1, i, d, br =>
    match readDataHeader.body i d br with
    | .error msg => .error msg
    | .ok r => readDataHeader.loop n (i + 1) r.1 r.2

/-- Go `(d *dbCreator) readDataHeader(br)`: the receiver afterwards and the input the
reader has left unread, or the message of the `fatal` call. -/
def readDataHeader (d : dbCreator) (br : Str) : Fatal (dbCreator × Str) :=
  readDataHeader.loop 3 0 d br

/-! ## The database and the table-column registry -/

/-- The two connections `creator.go` opens: the one of `d.connStr`, without a database
selected, and the one of `getConnectString()`, to the benchmark database. -/
inductive Conn
  | admin
  | bench
  deriving DecidableEq

/-- What `creator.go` does to the outside world. -/
inductive Event
  /-- `sqlx.MustConnect`. -/
  | connect (c : Conn)
  /-- `db.Close()`. -/
  | close (c : Conn)
  /-- `db.MustExec(query)`. -/
  | exec (c : Conn) (query : Str)
  /-- `db.Queryx(query, arg)`. -/
  | query (c : Conn) (query : Str) (arg : Str)
  /-- A call `createTagsTable(dbBench, tags)`; the function is defined in another file
  of package `main`, so a call of it is recorded as one action. -/
  | createTagsTable (tags : List Str)
  deriving DecidableEq

/-- The database: whether the next action succeeds, given the actions so far. -/
abbrev Oracle := List Event → Event → Bool

/-- The package-level `tableCols map[string][]string` and the actions so far, oldest
first. The map is a list of entries with distinct keys; its order means nothing. -/
structure World where
  tableCols : List (Str × List Str)
  trace : List Event
  deriving DecidableEq

/-- Go `m[k] = v`. -/
def mapSet (m : List (Str × List Str)) (k : Str) (v : List Str) : List (Str × List Str) :=
  (k, v) :: m.filter (fun e => e.1 != k)

/-- Go `m[k]`: the nil slice for a key that is absent. -/
def mapGet (m : List (Str × List Str)) (k : Str) : List Str :=
  (m.lookup k).getD []

/-- How a call ends. -/
inductive Outcome (α : Type)
  /-- It returned the value. -/
  | returned (v : α)
  /-- `MustConnect`, `MustExec` or `createTagsTable` failed, or a nil result was used:
  a panic. -/
  | panicked
  /-- The run-time panic of an index out of range. -/
  | indexOutOfRange
  /-- The function `fatal` was called: the process stops. -/
  | fatal (msg : Str)
  deriving DecidableEq

/-- Adds an action to the trace. -/
def record (e : Event) (w : World) : World :=
  { w with trace := w.trace ++ [e] }

/-- An action that panics when the database refuses it; otherwise the run goes on. -/
def must {α : Type} (db : Oracle) (e : Event) (w : World)
    (k : World → Outcome α × World) : Outcome α × World :=
  if db w.trace e then k (record e w) else (.panicked, record e w)

/-- `dbBench.MustExec` of each query of a list in turn, up to the first that fails. -/
def mustExecAll {α : Type} (db : Oracle) (c : Conn) :
    List Str → World → (World → Outcome α × World) → Outcome α × World
  | [], w, k => k w
  | q :: qs, w, k => must db (.exec c q) w fun w => mustExecAll db c qs w k

/-- A `defer db.Close()` around the rest of a function: the connection is closed when
the function returns and when it panics, not when `fatal` stops the process. -/
def deferClose {α : Type} (c : Conn) (r : Outcome α × World) : Outcome α × World :=
  match r.1 with
  | .fatal msg => (.fatal msg, r.2)
  | out => (out, record (.close c) r.2)

/-! ## `DBExists` and `RemoveOldDB` -/

/-- Go `(d *dbCreator) DBExists(dbName)`; `found` is what `r.Next()` answers. When the
query fails `r` is nil and `r.Close` panics. -/
def DBExists (db : Oracle) (found : Bool) (dbName : Str) (w : World) :
    Outcome Bool × World :=
  must db (.connect .admin) w fun w =>
  deferClose .admin
    (must db (.query .admin "SELECT 1 from pg_database WHERE datname = $1".toList dbName) w
      fun w => (.returned found, w))

/-- Go `(d *dbCreator) RemoveOldDB(dbName)`; the returned value is the Go `error`. -/
def RemoveOldDB (db : Oracle) (dbName : Str) (w : World) : Outcome (Option Str) × World :=
  must db (.connect .admin) w fun w =>
  deferClose .admin
    (must db (.exec .admin ("DROP DATABASE IF EXISTS ".toList ++ dbName)) w
      fun w => (.returned none, w))

/-! ## `CreateDB` -/

/-- The value of a Go `int` after an operation: two's complement on 64 bits. -/
def wrapInt (x : Int) : Int :=
  (x + 2 ^ 63) % 2 ^ 64 - 2 ^ 63

/-- The verbs `%v` and `%d` on an integer: its decimal digits. -/
def fmtInt (i : Int) : Str :=
  if i < 0 then '-' :: Nat.toDigits 10 i.natAbs else Nat.toDigits 10 i.toNat

/-- The variables the loop over `psuedoCols` updates. -/
structure LoopState where
  fieldDef : List Str
  indexes : List Str
  extraCols : Int
  deriving DecidableEq

/-- The loop `for idx, field := range psuedoCols` of `CreateDB` (lines 97-113), at
position `idx` with the columns from there on. -/
def CreateDB.loop (g : Globals) (hypertable : Str) :
    Nat → List Str → LoopState → Fatal LoopState
  | _, [], st => .ok st
  | idx, field :: rest, st =>
    if field.length = 0 then
      CreateDB.loop g hypertable (idx + 1) rest st
    else
      let inTable : Bool := g.inTableTag && idx == 0
      let fieldType := if inTable then "TEXT".toList else "DOUBLE PRECISION".toList
      let idxType := if inTable then [] else g.fieldIndex
      let extraCols := if inTable then 1 else st.extraCols
      let fieldDef := st.fieldDef ++ [field ++ " ".toList ++ fieldType]
      if g.fieldIndexCount = -1 ∨ (idx : Int) < wrapInt (g.fieldIndexCount + extraCols) then
        match getCreateIndexOnFieldCmds g hypertable field idxType with
        | .error msg => .error msg
        | .ok cmds =>
          CreateDB.loop g hypertable (idx + 1) rest ⟨fieldDef, st.indexes ++ cmds, extraCols⟩
      else
        CreateDB.loop g hypertable (idx + 1) rest ⟨fieldDef, st.indexes, extraCols⟩

/-- The query of line 114. -/
def createTableStmt (hypertable : Str) (fieldDef : List Str) : Str :=
  "CREATE TABLE ".toList ++ hypertable ++ " (time timestamptz, tags_id integer, ".toList ++
    strings.Join fieldDef ",".toList ++ ")".toList

/-- The queries of lines 115-126, in order. -/
def tableIndexStmts (g : Globals) (hypertable : Str) : List Str :=
  (if g.partitionIndex then
    ["CREATE INDEX ON ".toList ++ hypertable ++ "(tags_id, \"time\" DESC)".toList]
  else []) ++
  (if g.timePartitionIndex then
    ["CREATE INDEX ON ".toList ++ hypertable ++ "(\"time\" DESC, tags_id)".toList]
  else if g.timeIndex then
    ["CREATE INDEX ON ".toList ++ hypertable ++ "(\"time\" DESC)".toList]
  else [])

/-- The second query of lines 132-137. -/
def createHypertableStmt (g : Globals) (hypertable : Str) : Str :=
  "SELECT create_hypertable(\x27".toList ++ hypertable ++
    "\x27::regclass, \x27time\x27::name, partitioning_column => \x27".toList ++
    "tags_id".toList ++ "\x27::name, number_partitions => ".toList ++
    fmtInt g.numberPartitions ++ "::smallint, chunk_time_interval => ".toList ++
    fmtInt (g.chunkTimeNanoseconds.tdiv 1000) ++ ", create_default_indexes=>FALSE)".toList

/-- The queries of lines 132-137, in order. -/
def hypertableStmts (g : Globals) (hypertable : Str) : List Str :=
  if g.useHypertable then
    ["CREATE EXTENSION IF NOT EXISTS timescaledb CASCADE".toList,
      createHypertableStmt g hypertable]
  else []

/-- The error `CreateDB` returns for a tag line that does not start with `tags`. -/
def headerError (got : Str) : Str :=
  "input header in wrong format. got \x27".toList ++ got ++ "\x27, expected \x27tags\x27".toList

/-- Lines 76-139 of `CreateDB`: what runs under `defer dbBench.Close()`. -/
def CreateDB.body (g : Globals) (db : Oracle) (d : dbCreator) (w : World) :
    Outcome (Option Str) × World :=
  match strings.Split (strings.TrimSpace d.tags) ',' with
  | [] => (.indexOutOfRange, w)
  | marker :: tagNames =>
    if marker ≠ "tags".toList then
      (.returned (some (headerError marker)), w)
    else
      must db (.createTagsTable tagNames) w fun w =>
      let w := { w with tableCols := mapSet w.tableCols "tags".toList tagNames }
      match strings.Split (strings.TrimSpace d.cols) ',' with
      | [] => (.indexOutOfRange, w)
      | hypertable :: fields =>
        match mapGet w.tableCols "tags".toList with
        | [] => (.indexOutOfRange, w)
        | partitioningField :: _ =>
          let w := { w with tableCols := mapSet w.tableCols hypertable fields }
          let psuedoCols := (if g.inTableTag then [partitioningField] else []) ++ fields
          match CreateDB.loop g hypertable 0 psuedoCols ⟨[], [], 0⟩ with
          | .error msg => (.fatal msg, w)
          | .ok st =>
            mustExecAll db .bench
              (createTableStmt hypertable st.fieldDef :: tableIndexStmts g hypertable ++
                st.indexes ++ hypertableStmts g hypertable) w
              fun w => (.returned none, w)

/-- Go `(d *dbCreator) CreateDB(dbName)`; the returned value is the Go `error`. -/
def CreateDB (g : Globals) (db : Oracle) (d : dbCreator) (dbName : Str) (w : World) :
    Outcome (Option Str) × World :=
  must db (.connect .admin) w fun w =>
  must db (.exec .admin ("CREATE DATABASE ".toList ++ dbName)) w fun w =>
  let w := record (.close .admin) w
  must db (.connect .bench) w fun w =>
  deferClose .bench (CreateDB.body g db d w)

/-! ## Vocabulary of the statements below -/

/-- The statement the specification gives for one index-type token: the index on
`(time DESC, field)` for the time-major token, the one on `(field, time DESC)` otherwise
(that is, for the value-major token). -/
def indexStmt (g : Globals) (table field token : Str) : Str :=
  if token = g.timeValueIdx then
    "CREATE INDEX ON ".toList ++ table ++ " (time DESC, ".toList ++ field ++ ")".toList
  else
    "CREATE INDEX ON ".toList ++ table ++ " (".toList ++ field ++ ", time DESC)".toList

/-- The statements the specification gives for a field and an index-type list: one for
each non-empty token, in token order. -/
def indexStmts (g : Globals) (table field spec : Str) : List Str :=
  ((strings.Split spec ',').filter (fun t => t ≠ [])).map (indexStmt g table field)

/-- An index-type list is valid when each of its tokens is the time-major token, the
value-major token or empty. -/
def validSpec (g : Globals) (spec : Str) : Prop :=
  ∀ t ∈ strings.Split spec ',', t = g.timeValueIdx ∨ t = g.valueTimeIdx ∨ t = []

/-- The header format of the specification: three lines, each ended by a newline, the
third of white space only. -/
def wellFormedInput (input : Str) : Prop :=
  ∃ l1 l2 l3 rest : Str, '\n' ∉ l1 ∧ '\n' ∉ l2 ∧ '\n' ∉ l3 ∧
    (∀ c ∈ l3, unicode.IsSpace c = true) ∧
    input = l1 ++ ['\n'] ++ l2 ++ ['\n'] ++ l3 ++ ['\n'] ++ rest

/-- A database that accepts every action. -/
def acceptAll : Oracle := fun _ _ => true

/-- A configuration for the examples: both index types on the first field, the first tag
kept in the table, a hypertable of four partitions and chunks of eight hours. -/
def exampleGlobals : Globals :=
  { timeValueIdx := "TIME-VALUE".toList, valueTimeIdx := "VALUE-TIME".toList,
    inTableTag := true, fieldIndex := "TIME-VALUE,VALUE-TIME".toList, fieldIndexCount := 1,
    partitionIndex := true, timePartitionIndex := false, timeIndex := true,
    useHypertable := true, numberPartitions := 4,
    chunkTimeNanoseconds := 28800000000000 }

/-- The configuration of the end-to-end scenario of the specification: no tag in the
table, no limit on the indexed fields, the time-major index, a hypertable. -/
def scenarioGlobals : Globals :=
  { exampleGlobals with
    inTableTag := false, fieldIndex := "TIME-VALUE".toList, fieldIndexCount := -1 }

/-- The largest `int`. -/
def maxInt : Int := 2 ^ 63 - 1

/-- A header for the examples, as `readDataHeader` stores it. -/
def exampleHeader : dbCreator :=
  { tags := "tags,hostname,region".toList, cols := "cpu,usage_user,usage_system".toList,
    connStr := "host=localhost".toList }

/-- The state before anything has run. -/
def emptyWorld : World := ⟨[], []⟩

/-- The state after `CreateDB` has run on the example header and configuration, from the
empty state, against a database that accepts everything. -/
def exampleWorld : World :=
  (CreateDB exampleGlobals acceptAll exampleHeader "benchmark".toList emptyWorld).2

/-- A database that refuses every `MustExec` and accepts everything else. -/
def refuseExec : Oracle := fun _ e =>
  match e with
  | .exec _ _ => false
  | _ => true

/-- A database that accepts the first `n` actions of a run that starts from the empty
state, and refuses every action after them. -/
def refuseAfter (n : Nat) : Oracle := fun h _ => decide (h.length < n)

/-- What `CreateDB` does before it looks at the header: the two connections, with the
`CREATE DATABASE` and the end of the first connection in between. -/
def setupEvents (dbName : Str) : List Event :=
  [.connect .admin, .exec .admin ("CREATE DATABASE ".toList ++ dbName), .close .admin,
    .connect .bench]

/-- The queries of lines 114-137 in the order of the source, for the column definitions
and the index statements the loop has collected. -/
def plannedStmts (g : Globals) (hypertable : Str) (st : LoopState) : List Str :=
  createTableStmt hypertable st.fieldDef :: tableIndexStmts g hypertable ++ st.indexes ++
    hypertableStmts g hypertable

/-- A sequence of actions, attempted after the actions `h`, stops at the first action the
database refuses: nothing but the end of a connection follows it, and `panicked` holds. -/
def failStop (db : Oracle) (panicked : Prop) : List Event → List Event → Prop
  | _, [] => True
  | h, e :: rest =>
    ((∀ c, e ≠ .close c) → db h e = false →
        panicked ∧ ∀ e' ∈ rest, ∃ c, e' = Event.close c) ∧
      failStop db panicked (h ++ [e]) rest

/-- Modelled from the spec: `createTagsTable`, declared outside `creator.go`, creates the
tags table, whose name is the reserved name `tags`, and a database refuses the
`CREATE TABLE` of a table that exists. The rule as far as `CreateDB` meets it: a database
that has accepted `createTagsTable` refuses the `CREATE TABLE tags (...)` of line 114
issued right after it on the same connection. -/
def refusesSecondTagsTable (db : Oracle) : Prop :=
  ∀ (h : List Event) (tagNames fieldDef : List Str),
    db h (.createTagsTable tagNames) = true →
    db (h ++ [.createTagsTable tagNames])
      (.exec .bench (createTableStmt "tags".toList fieldDef)) = false

/-- A database that accepts every action but a `CREATE TABLE tags (...)` on the connection
to the benchmark database once `createTagsTable` has been called. -/
def tagsTableOnce : Oracle := fun h e =>
  match e with
  | .exec .bench q =>
    !(h.any (fun e' => match e' with | .createTagsTable _ => true | _ => false) &&
      List.isPrefixOf "CREATE TABLE tags (".toList q)
  | _ => true

/-! ## `strings.Split` -/

theorem Split_ne_nil (s : Str) (sep : Char) : strings.Split s sep ≠ [] := by
  induction s with
  | nil => simp [strings.Split]
  | cons c cs ih =>
    unfold strings.Split
    split
    · simp
    · split <;> simp

theorem Split_append_sep (a b : Str) (sep : Char) :
    strings.Split (a ++ sep :: b) sep = strings.Split a sep ++ strings.Split b sep := by
  induction a with
  | nil => simp [strings.Split]
  | cons c cs ih =>
    by_cases h : c = sep
    · simp [strings.Split, h, ih]
    · have hne := Split_ne_nil cs sep
      cases hs : strings.Split cs sep with
      | nil => exact absurd hs hne
      | cons t ts =>
        rw [List.cons_append, strings.Split, if_neg h, ih, hs, strings.Split, if_neg h, hs]
        rfl

theorem Split_of_not_mem (a : Str) (sep : Char) (h : sep ∉ a) :
    strings.Split a sep = [a] := by
  induction a with
  | nil => simp [strings.Split]
  | cons c cs ih =>
    have hc : c ≠ sep := fun e => h (by simp [e])
    have hcs : sep ∉ cs := fun e => h (by simp [e])
    simp [strings.Split, hc, ih hcs]

/-! ## `getCreateIndexOnFieldCmds` -/

theorem indexLoop_valid (g : Globals) (table field : Str) (toks ret : List Str)
    (h : ∀ t ∈ toks, t = g.timeValueIdx ∨ t = g.valueTimeIdx ∨ t = []) :
    getCreateIndexOnFieldCmds.loop g table field toks ret =
      .ok (ret ++ (toks.filter (fun t => t ≠ [])).map (indexStmt g table field)) := by
  induction toks generalizing ret with
  | nil => simp [getCreateIndexOnFieldCmds.loop]
  | cons t ts ih =>
    have hts : ∀ t ∈ ts, t = g.timeValueIdx ∨ t = g.valueTimeIdx ∨ t = [] :=
      fun x hx => h x (List.mem_cons_of_mem _ hx)
    have ht := h t (List.mem_cons_self _ _)
    unfold getCreateIndexOnFieldCmds.loop
    by_cases h0 : t = []
    · simp [h0, ih _ hts]
    · by_cases h1 : t = g.timeValueIdx
      · rw [if_neg h0, if_pos h1, ih _ hts]
        have h0' : g.timeValueIdx ≠ [] := h1 ▸ h0
        simp [h0', indexStmt, h1]
      · have h2 : t = g.valueTimeIdx := by
          rcases ht with ht | ht | ht
          · exact absurd ht h1
          · exact ht
          · exact absurd ht h0
        rw [if_neg h0, if_neg h1, if_pos h2, ih _ hts]
        simp [h0, indexStmt, h1]

theorem indexLoop_invalid (g : Globals) (table field : Str) (toks ret : List Str)
    (h : ∃ t ∈ toks, t ≠ [] ∧ t ≠ g.timeValueIdx ∧ t ≠ g.valueTimeIdx) :
    ∃ msg, getCreateIndexOnFieldCmds.loop g table field toks ret = .error msg := by
  induction toks generalizing ret with
  | nil => simp at h
  | cons t ts ih =>
    unfold getCreateIndexOnFieldCmds.loop
    by_cases hbad : t ≠ [] ∧ t ≠ g.timeValueIdx ∧ t ≠ g.valueTimeIdx
    · simp [hbad.1, hbad.2.1, hbad.2.2]
    · have hts : ∃ t ∈ ts, t ≠ [] ∧ t ≠ g.timeValueIdx ∧ t ≠ g.valueTimeIdx := by
        obtain ⟨x, hx, hxb⟩ := h
        rcases List.mem_cons.1 hx with rfl | hx
        · exact absurd hxb hbad
        · exact ⟨x, hx, hxb⟩
      split
      · exact ih _ hts
      · split
        · exact ih _ hts
        · split
          · exact ih _ hts
          · exact ⟨_, rfl⟩

theorem getCreateIndexOnFieldCmds_of_valid (g : Globals) (table field spec : Str)
    (h : validSpec g spec) :
    getCreateIndexOnFieldCmds g table field spec = .ok (indexStmts g table field spec) := by
  simpa [getCreateIndexOnFieldCmds, indexStmts] using
    indexLoop_valid g table field (strings.Split spec ',') [] h

theorem validSpec_or_bad (g : Globals) (spec : Str) :
    validSpec g spec ∨
      ∃ t ∈ strings.Split spec ',', t ≠ [] ∧ t ≠ g.timeValueIdx ∧ t ≠ g.valueTimeIdx := by
  by_cases h : ∃ t ∈ strings.Split spec ',', t ≠ [] ∧ t ≠ g.timeValueIdx ∧ t ≠ g.valueTimeIdx
  · exact Or.inr h
  · left
    intro t ht
    by_contra hc
    push_neg at hc
    exact h ⟨t, ht, hc.2.2, hc.1, hc.2.1⟩

/-- C1: on a table, a field and an index-type list whose comma-separated tokens are all
the time-major token, the value-major token or empty, `getCreateIndexOnFieldCmds` returns
exactly one statement per non-empty token, in token order: `CREATE INDEX ON <table>
(time DESC, <field>)` for a time-major token and `CREATE INDEX ON <table> (<field>,
time DESC)` for a value-major one. The empty list yields no statement, and the list
`<time-major>,,<value-major>` yields exactly the two statements. -/
theorem getCreateIndexOnFieldCmds_spec (g : Globals) (table field spec : Str)
    (hvalid : ∀ t ∈ strings.Split spec ',',
      t = g.timeValueIdx ∨ t = g.valueTimeIdx ∨ t = []) :
    getCreateIndexOnFieldCmds g table field spec =
        .ok (((strings.Split spec ',').filter (fun t => t ≠ [])).map fun t =>
          if t = g.timeValueIdx then
            "CREATE INDEX ON ".toList ++ table ++ " (time DESC, ".toList ++ field ++ ")".toList
          else
            "CREATE INDEX ON ".toList ++ table ++ " (".toList ++ field ++
              ", time DESC)".toList) ∧
      getCreateIndexOnFieldCmds g table field [] = .ok [] ∧
      (g.timeValueIdx ≠ [] → g.valueTimeIdx ≠ [] → g.timeValueIdx ≠ g.valueTimeIdx →
        ',' ∉ g.timeValueIdx → ',' ∉ g.valueTimeIdx →
        getCreateIndexOnFieldCmds g table field
            (g.timeValueIdx ++ ",,".toList ++ g.valueTimeIdx) =
          .ok ["CREATE INDEX ON ".toList ++ table ++ " (time DESC, ".toList ++ field ++
                ")".toList,
              "CREATE INDEX ON ".toList ++ table ++ " (".toList ++ field ++
                ", time DESC)".toList]) := by
  refine ⟨?_, ?_, ?_⟩
  · exact getCreateIndexOnFieldCmds_of_valid g table field spec hvalid
  · simp [getCreateIndexOnFieldCmds, strings.Split, getCreateIndexOnFieldCmds.loop]
  · intro h1 h2 h3 h4 h5
    have hs : strings.Split (g.timeValueIdx ++ ",,".toList ++ g.valueTimeIdx) ',' =
        [g.timeValueIdx, [], g.valueTimeIdx] := by
      have e : g.timeValueIdx ++ ",,".toList ++ g.valueTimeIdx =
          g.timeValueIdx ++ ',' :: ([] ++ ',' :: g.valueTimeIdx) := by simp
      rw [e, Split_append_sep, Split_append_sep, Split_of_not_mem _ _ h4,
        Split_of_not_mem _ _ h5]
      simp [strings.Split]
    rw [getCreateIndexOnFieldCmds, hs]
    simp [getCreateIndexOnFieldCmds.loop, h1, h2, Ne.symm h3]

/-- The witness of C1: the list `TIME-VALUE,,VALUE-TIME` with the constants `TIME-VALUE`
and `VALUE-TIME`. -/
theorem getCreateIndexOnFieldCmds_spec_witness :
    getCreateIndexOnFieldCmds
        ⟨"TIME-VALUE".toList, "VALUE-TIME".toList, false, [], 0, false, false, false, false, 0, 0⟩
        "cpu".toList "usage".toList "TIME-VALUE,,VALUE-TIME".toList =
      .ok ["CREATE INDEX ON cpu (time DESC, usage)".toList,
        "CREATE INDEX ON cpu (usage, time DESC)".toList] :=
  ((getCreateIndexOnFieldCmds_spec
    ⟨"TIME-VALUE".toList, "VALUE-TIME".toList, false, [], 0, false, false, false, false, 0, 0⟩
    "cpu".toList "usage".toList "TIME-VALUE,,VALUE-TIME".toList (by decide)).2.2
      (by decide) (by decide) (by decide) (by decide) (by decide))

/-- C2: `getCreateIndexOnFieldCmds` calls `fatal` if and only if the comma-split of its
index-type list has a non-empty token that is neither the time-major nor the value-major
token, and it returns normally in every other case. -/
theorem getCreateIndexOnFieldCmds_fatal_iff (g : Globals) (table field spec : Str) :
    ((∃ msg, getCreateIndexOnFieldCmds g table field spec = .error msg) ↔
        ∃ t ∈ strings.Split spec ',', t ≠ [] ∧ t ≠ g.timeValueIdx ∧ t ≠ g.valueTimeIdx) ∧
      ((∃ cmds, getCreateIndexOnFieldCmds g table field spec = .ok cmds) ↔
        ¬ ∃ t ∈ strings.Split spec ',', t ≠ [] ∧ t ≠ g.timeValueIdx ∧ t ≠ g.valueTimeIdx) := by
  rcases validSpec_or_bad g spec with hv | hb
  · have hok := getCreateIndexOnFieldCmds_of_valid g table field spec hv
    have hnb : ¬ ∃ t ∈ strings.Split spec ',',
        t ≠ [] ∧ t ≠ g.timeValueIdx ∧ t ≠ g.valueTimeIdx := by
      rintro ⟨t, ht, h0, h1, h2⟩
      rcases hv t ht with h | h | h
      · exact h1 h
      · exact h2 h
      · exact h0 h
    constructor
    · constructor
      · rintro ⟨msg, hm⟩
        rw [hok] at hm
        cases hm
      · intro h
        exact absurd h hnb
    · constructor
      · intro _
        exact hnb
      · intro _
        exact ⟨_, hok⟩
  · obtain ⟨msg, hm⟩ := indexLoop_invalid g table field (strings.Split spec ',') [] hb
    have hm2 : getCreateIndexOnFieldCmds g table field spec = .error msg := hm
    constructor
    · constructor
      · intro _
        exact hb
      · intro _
        exact ⟨msg, hm2⟩
    · constructor
      · rintro ⟨cmds, hc⟩
        rw [hm2] at hc
        cases hc
      · intro h
        exact absurd hb h

/-! ## `strings.TrimSpace` and `ReadString` -/

theorem TrimSpace_eq_rdropWhile (s : Str) :
    strings.TrimSpace s = (s.dropWhile unicode.IsSpace).rdropWhile unicode.IsSpace := rfl

theorem TrimSpace_eq_nil_iff (s : Str) :
    strings.TrimSpace s = [] ↔ ∀ c ∈ s, unicode.IsSpace c = true := by
  induction s with
  | nil => simp [strings.TrimSpace]
  | cons c cs ih =>
    by_cases hc : unicode.IsSpace c = true
    · have e : strings.TrimSpace (c :: cs) = strings.TrimSpace cs := by
        simp [strings.TrimSpace, List.dropWhile_cons, hc]
      rw [e, ih]
      simp [hc]
    · rw [TrimSpace_eq_rdropWhile, List.dropWhile_cons_of_neg hc, List.rdropWhile_eq_nil_iff]

theorem TrimSpace_concat_space (s : Str) (c : Char) (hc : unicode.IsSpace c = true) :
    strings.TrimSpace (s ++ [c]) = strings.TrimSpace s := by
  rw [TrimSpace_eq_rdropWhile, TrimSpace_eq_rdropWhile, List.dropWhile_append]
  by_cases he : (List.dropWhile unicode.IsSpace s).isEmpty = true
  · rw [if_pos he]
    have : List.dropWhile unicode.IsSpace s = [] := List.isEmpty_iff.1 he
    rw [this]
    simp [List.dropWhile_cons, hc, List.rdropWhile_nil]
  · rw [if_neg he, List.rdropWhile_concat_pos _ _ _ hc]

theorem IsSpace_newline : unicode.IsSpace '\n' = true := by decide

theorem ReadString_line (l rest : Str) (delim : Char) (h : delim ∉ l) :
    bufio.ReadString (l ++ delim :: rest) delim = (l ++ [delim], none, rest) := by
  induction l with
  | nil => simp [bufio.ReadString]
  | cons c cs ih =>
    have hc : c ≠ delim := fun e => h (by simp [e])
    have hcs : delim ∉ cs := fun e => h (by simp [e])
    simp [bufio.ReadString, hc, ih hcs]

theorem ReadString_eof (s : Str) (delim : Char) (h : delim ∉ s) :
    bufio.ReadString s delim = (s, some "EOF".toList, []) := by
  induction s with
  | nil => simp [bufio.ReadString]
  | cons c cs ih =>
    have hc : c ≠ delim := fun e => h (by simp [e])
    have hcs : delim ∉ cs := fun e => h (by simp [e])
    simp [bufio.ReadString, hc, ih hcs]

theorem mem_split_sep (s : Str) (delim : Char) (h : delim ∈ s) :
    ∃ l rest, delim ∉ l ∧ s = l ++ delim :: rest := by
  induction s with
  | nil => simp at h
  | cons c cs ih =>
    by_cases hc : c = delim
    · exact ⟨[], cs, by simp, by simp [hc]⟩
    · have hcs : delim ∈ cs := by
        rcases List.mem_cons.1 h with e | e
        · exact absurd e.symm hc
        · exact e
      obtain ⟨l, rest, hl, e⟩ := ih hcs
      refine ⟨c :: l, rest, ?_, by simp [e]⟩
      intro hm
      rcases List.mem_cons.1 hm with e2 | e2
      · exact hc e2.symm
      · exact hl e2

theorem readDataHeader_of_lines (d : dbCreator) (l1 l2 l3 rest : Str)
    (h1 : '\n' ∉ l1) (h2 : '\n' ∉ l2) (h3 : '\n' ∉ l3)
    (hws : ∀ c ∈ l3, unicode.IsSpace c = true) :
    readDataHeader d (l1 ++ ['\n'] ++ l2 ++ ['\n'] ++ l3 ++ ['\n'] ++ rest) =
      .ok ({ d with tags := strings.TrimSpace l1, cols := strings.TrimSpace l2 }, rest) := by
  have e : l1 ++ ['\n'] ++ l2 ++ ['\n'] ++ l3 ++ ['\n'] ++ rest =
      l1 ++ '\n' :: (l2 ++ '\n' :: (l3 ++ '\n' :: rest)) := by simp
  have hnil : strings.TrimSpace l3 = [] := (TrimSpace_eq_nil_iff l3).2 hws
  rw [e]
  simp [readDataHeader, readDataHeader.loop, readDataHeader.body, ReadString_line, h1, h2, h3,
    TrimSpace_concat_space _ _ IsSpace_newline, hnil]

theorem readDataHeader_error_of_not_wellFormed (d : dbCreator) (input : Str)
    (h : ¬ wellFormedInput input) : ∃ msg, readDataHeader d input = .error msg := by
  by_cases m1 : '\n' ∈ input
  · obtain ⟨l1, r1, h1, e1⟩ := mem_split_sep input _ m1
    by_cases m2 : '\n' ∈ r1
    · obtain ⟨l2, r2, h2, e2⟩ := mem_split_sep r1 _ m2
      by_cases m3 : '\n' ∈ r2
      · obtain ⟨l3, r3, h3, e3⟩ := mem_split_sep r2 _ m3
        have hws : ¬ ∀ c ∈ l3, unicode.IsSpace c = true := by
          intro hws
          exact h ⟨l1, l2, l3, r3, h1, h2, h3, hws, by simp [e1, e2, e3]⟩
        have hne : strings.TrimSpace (l3 ++ ['\n']) ≠ [] := by
          rw [TrimSpace_concat_space _ _ IsSpace_newline]
          exact fun hn => hws ((TrimSpace_eq_nil_iff l3).1 hn)
        have hlen : 0 < (strings.TrimSpace (l3 ++ ['\n'])).length :=
          List.length_pos.2 hne
        subst e1 e2 e3
        simp [readDataHeader, readDataHeader.loop, readDataHeader.body, ReadString_line, h1, h2,
          h3, hlen]
      · subst e1 e2
        by_cases hlen : 0 < (strings.TrimSpace r2).length
        · simp [readDataHeader, readDataHeader.loop, readDataHeader.body, ReadString_line, h1,
            h2, ReadString_eof _ _ m3, hlen]
        · simp [readDataHeader, readDataHeader.loop, readDataHeader.body, ReadString_line, h1,
            h2, ReadString_eof _ _ m3, hlen]
    · subst e1
      simp [readDataHeader, readDataHeader.loop, readDataHeader.body, ReadString_line, h1,
        ReadString_eof _ _ m2]
  · simp [readDataHeader, readDataHeader.loop, readDataHeader.body, ReadString_eof _ _ m1]

/-- C8: on an input `L1 ++ "\n" ++ L2 ++ "\n" ++ L3 ++ "\n" ++ rest` whose three lines hold
no newline and whose third line is white space only, `readDataHeader` succeeds, stores
`tags = TrimSpace(L1)` and `cols = TrimSpace(L2)`, and leaves exactly `rest` unread. -/
theorem readDataHeader_success (d : dbCreator) (l1 l2 l3 rest : Str)
    (h1 : '\n' ∉ l1) (h2 : '\n' ∉ l2) (h3 : '\n' ∉ l3)
    (hws : ∀ c ∈ l3, unicode.IsSpace c = true) :
    ∃ d', readDataHeader d (l1 ++ ['\n'] ++ l2 ++ ['\n'] ++ l3 ++ ['\n'] ++ rest) =
        .ok (d', rest) ∧
      d'.tags = strings.TrimSpace l1 ∧ d'.cols = strings.TrimSpace l2 ∧
      d'.connStr = d.connStr :=
  ⟨_, readDataHeader_of_lines d l1 l2 l3 rest h1 h2 h3 hws, rfl, rfl, rfl⟩

/-- The witness of C8: a header with padded lines and a blank third line, before the
first row of data. -/
theorem readDataHeader_success_witness :
    ∃ d', readDataHeader ⟨[], [], []⟩
        (" tags,hostname ".toList ++ ['\n'] ++ "cpu,usage\t".toList ++ ['\n'] ++ " ".toList ++
          ['\n'] ++ "cpu,1,2\n".toList) = .ok (d', "cpu,1,2\n".toList) ∧
      d'.tags = strings.TrimSpace " tags,hostname ".toList ∧
      d'.cols = strings.TrimSpace "cpu,usage\t".toList ∧ d'.connStr = [] :=
  readDataHeader_success ⟨[], [], []⟩ " tags,hostname ".toList "cpu,usage\t".toList
    " ".toList "cpu,1,2\n".toList (by decide) (by decide) (by decide) (by decide)

/-- C9: `readDataHeader` calls `fatal` if and only if the input ends before three
newline-terminated lines are read or the third line has a character that is not white
space; it succeeds exactly when the input has at least three newlines and the text
between the second and the third is white space only. -/
theorem readDataHeader_fatal_iff (d : dbCreator) (input : Str) :
    ((∃ msg, readDataHeader d input = .error msg) ↔
        ¬ ∃ l1 l2 l3 rest : Str, '\n' ∉ l1 ∧ '\n' ∉ l2 ∧ '\n' ∉ l3 ∧
          (∀ c ∈ l3, unicode.IsSpace c = true) ∧
          input = l1 ++ ['\n'] ++ l2 ++ ['\n'] ++ l3 ++ ['\n'] ++ rest) ∧
      ((∃ r, readDataHeader d input = .ok r) ↔
        ∃ l1 l2 l3 rest : Str, '\n' ∉ l1 ∧ '\n' ∉ l2 ∧ '\n' ∉ l3 ∧
          (∀ c ∈ l3, unicode.IsSpace c = true) ∧
          input = l1 ++ ['\n'] ++ l2 ++ ['\n'] ++ l3 ++ ['\n'] ++ rest) := by
  have key : wellFormedInput input → ∃ r, readDataHeader d input = .ok r := by
    rintro ⟨l1, l2, l3, rest, h1, h2, h3, hws, e⟩
    exact ⟨_, e ▸ readDataHeader_of_lines d l1 l2 l3 rest h1 h2 h3 hws⟩
  constructor
  · constructor
    · rintro ⟨msg, hm⟩ hw
      obtain ⟨r, hr⟩ := key hw
      rw [hm] at hr
      cases hr
    · intro hn
      exact readDataHeader_error_of_not_wellFormed d input hn
  · constructor
    · rintro ⟨r, hr⟩
      by_contra hn
      obtain ⟨msg, hm⟩ := readDataHeader_error_of_not_wellFormed d input hn
      rw [hm] at hr
      cases hr
    · exact key

/-! ## Running against the database -/

theorem exec_injective (c : Conn) : Function.Injective (Event.exec c) := by
  intro a b h
  cases h
  rfl

theorem mustExecAll_cases {α : Type} (db : Oracle) (c : Conn) (qs : List Str) (w : World)
    (k : World → Outcome α × World) :
    mustExecAll db c qs w k = k ⟨w.tableCols, w.trace ++ qs.map (Event.exec c)⟩ ∨
      ∃ n, n < qs.length ∧
        mustExecAll db c qs w k =
          (.panicked, ⟨w.tableCols, w.trace ++ (qs.take (n + 1)).map (Event.exec c)⟩) := by
  induction qs generalizing w with
  | nil => left; simp [mustExecAll]
  | cons q qs ih =>
    unfold mustExecAll must
    by_cases hq : db w.trace (Event.exec c q) = true
    · rw [if_pos hq]
      dsimp only
      rcases ih (record (Event.exec c q) w) with h | ⟨n, hn, h⟩
      · left
        rw [h]
        simp [record]
      · right
        refine ⟨n + 1, by simpa using hn, ?_⟩
        rw [h]
        simp [record]
    · rw [if_neg hq]
      right
      exact ⟨0, by simp, by simp [record]⟩

theorem must_returned {α : Type} (db : Oracle) (e : Event) (w : World)
    (k : World → Outcome α × World) (v : α) (w' : World)
    (h : must db e w k = (.returned v, w')) :
    db w.trace e = true ∧ k (record e w) = (.returned v, w') := by
  unfold must at h
  split at h
  · exact ⟨by assumption, h⟩
  · simp at h

theorem deferClose_returned {α : Type} (c : Conn) (r : Outcome α × World) (v : α) (w : World)
    (h : deferClose c r = (.returned v, w)) :
    ∃ w', r = (.returned v, w') ∧ w = record (.close c) w' := by
  obtain ⟨out, w'⟩ := r
  cases out with
  | returned v' =>
    simp only [deferClose, Prod.mk.injEq, Outcome.returned.injEq] at h
    exact ⟨w', by rw [h.1], h.2.symm⟩
  | panicked => simp [deferClose] at h
  | indexOutOfRange => simp [deferClose] at h
  | fatal msg => simp [deferClose] at h

theorem mapGet_mapSet (m : List (Str × List Str)) (k : Str) (v : List Str) :
    mapGet (mapSet m k v) k = v := by
  simp [mapGet, mapSet, List.lookup]

/-- What a run of `CreateDB` that returns nil has read from the header, planned and
done. -/
theorem CreateDB_returned_nil (g : Globals) (db : Oracle) (d : dbCreator) (dbName : Str)
    (w0 w : World) (h : CreateDB g db d dbName w0 = (.returned none, w)) :
    ∃ pf tagRest ht fields st,
      strings.Split (strings.TrimSpace d.tags) ',' = "tags".toList :: pf :: tagRest ∧
      strings.Split (strings.TrimSpace d.cols) ',' = ht :: fields ∧
      CreateDB.loop g ht 0 ((if g.inTableTag then [pf] else []) ++ fields) ⟨[], [], 0⟩ =
        .ok st ∧
      w.tableCols = mapSet (mapSet w0.tableCols "tags".toList (pf :: tagRest)) ht fields ∧
      w.trace = w0.trace ++
        [.connect .admin, .exec .admin ("CREATE DATABASE ".toList ++ dbName), .close .admin,
          .connect .bench, .createTagsTable (pf :: tagRest)] ++
        (createTableStmt ht st.fieldDef :: tableIndexStmts g ht ++ st.indexes ++
          hypertableStmts g ht).map (Event.exec .bench) ++ [.close .bench] := by
  unfold CreateDB at h
  obtain ⟨_, h⟩ := must_returned _ _ _ _ _ _ h
  obtain ⟨_, h⟩ := must_returned _ _ _ _ _ _ h
  obtain ⟨_, h⟩ := must_returned _ _ _ _ _ _ h
  obtain ⟨w1, hb, hw⟩ := deferClose_returned _ _ _ _ h
  unfold CreateDB.body at hb
  split at hb
  · simp at hb
  rename_i marker tagNames hsplit
  split at hb
  · simp at hb
  rename_i hmarker
  obtain ⟨_, hb⟩ := must_returned _ _ _ _ _ _ hb
  dsimp only at hb
  split at hb
  · simp at hb
  rename_i ht fields hcols
  rw [mapGet_mapSet] at hb
  cases tagNames with
  | nil => simp at hb
  | cons pf tagRest =>
  dsimp only at hb
  split at hb
  · simp at hb
  rename_i st hloop
  rcases mustExecAll_cases db .bench
      (createTableStmt ht st.fieldDef :: tableIndexStmts g ht ++ st.indexes ++
        hypertableStmts g ht) _ (fun w => ((Outcome.returned none : Outcome (Option Str)), w))
    with hx | ⟨n, _, hx⟩
  · rw [hx] at hb
    simp only [Prod.mk.injEq, true_and] at hb
    have hm : marker = "tags".toList := by
      by_contra hc
      exact hmarker hc
    refine ⟨pf, tagRest, ht, fields, st, by rw [hsplit, hm], hcols, hloop, ?_, ?_⟩
    · rw [hw, ← hb]
      simp [record]
    · rw [hw, ← hb]
      simp [record]
  · rw [hx] at hb
    simp at hb

/-! ## The loop over the pseudo-columns -/

theorem getCreateIndexOnFieldCmds_ok_eq (g : Globals) (table field spec : Str)
    (cmds : List Str) (h : getCreateIndexOnFieldCmds g table field spec = .ok cmds) :
    cmds = indexStmts g table field spec := by
  rcases validSpec_or_bad g spec with hv | hb
  · rw [getCreateIndexOnFieldCmds_of_valid g table field spec hv] at h
    cases h
    rfl
  · obtain ⟨msg, hm⟩ := indexLoop_invalid g table field (strings.Split spec ',') [] hb
    have hm2 : getCreateIndexOnFieldCmds g table field spec = .error msg := hm
    rw [hm2] at h
    cases h

theorem getCreateIndexOnFieldCmds_nil (g : Globals) (table field : Str) :
    getCreateIndexOnFieldCmds g table field [] = .ok [] := by
  simp [getCreateIndexOnFieldCmds, strings.Split, getCreateIndexOnFieldCmds.loop]

theorem validSpec_nil (g : Globals) : validSpec g [] := by
  intro t ht
  simp [strings.Split] at ht
  simp [ht]

theorem take_filter_cons_nil (rest : List Str) (n : Nat) :
    (([] :: rest).take n).filter (fun f => decide (f ≠ [])) =
      (rest.take (n - 1)).filter (fun f => decide (f ≠ [])) := by
  cases n with
  | zero => simp
  | succ m => simp

theorem fieldDef_double (field : Str) :
    field ++ " ".toList ++ "DOUBLE PRECISION".toList = field ++ " DOUBLE PRECISION".toList := by
  simp

theorem fieldDef_text (field : Str) :
    field ++ " ".toList ++ "TEXT".toList = field ++ " TEXT".toList := by
  simp

/-- The loop from a position where no column is the in-table tag any more: every
non-empty column is declared `DOUBLE PRECISION`, and the columns at the positions below
`fieldIndexCount+extraCols` (all of them when `fieldIndexCount` is -1) are indexed. -/
theorem loop_measured (g : Globals) (ht : Str) (l : List Str) (idx : Nat) (st st' : LoopState)
    (hphase : g.inTableTag = false ∨ 1 ≤ idx)
    (h : CreateDB.loop g ht idx l st = .ok st') :
    st'.fieldDef = st.fieldDef ++
        (l.filter (fun f => f ≠ [])).map (fun f => f ++ " DOUBLE PRECISION".toList) ∧
      st'.indexes = st.indexes ++
        ((if g.fieldIndexCount = -1 then l
          else l.take ((wrapInt (g.fieldIndexCount + st.extraCols)).toNat - idx)).filter
            (fun f => f ≠ [])).flatMap (fun f => indexStmts g ht f g.fieldIndex) ∧
      st'.extraCols = st.extraCols := by
  induction l generalizing idx st with
  | nil =>
    simp only [CreateDB.loop, Except.ok.injEq] at h
    subst h
    simp
  | cons field rest ih =>
    have hin : (g.inTableTag && idx == 0) = false := by
      rcases hphase with hp | hp
      · simp [hp]
      · have : idx ≠ 0 := by omega
        simp [this]
    unfold CreateDB.loop at h
    by_cases hf : field = []
    · subst hf
      simp only [List.length_nil, if_true] at h
      obtain ⟨h1, h2, h3⟩ := ih (idx + 1) st (Or.inr (by omega)) h
      refine ⟨?_, ?_, h3⟩
      · rw [h1]
        simp
      · rw [h2]
        by_cases hk : g.fieldIndexCount = -1
        · simp [hk]
        · simp only [hk, if_false]
          rw [take_filter_cons_nil]
          have e : (wrapInt (g.fieldIndexCount + st.extraCols)).toNat - (idx + 1) =
              (wrapInt (g.fieldIndexCount + st.extraCols)).toNat - idx - 1 := by omega
          rw [e]
    · have hlen : ¬ field.length = 0 := by
        intro hl
        exact hf (List.length_eq_zero.1 hl)
      simp only [hlen, if_false, hin, Bool.false_eq_true] at h
      by_cases hc : g.fieldIndexCount = -1 ∨
          (idx : Int) < wrapInt (g.fieldIndexCount + st.extraCols)
      · rw [if_pos hc] at h
        split at h
        · cases h
        rename_i cmds hcmds
        have hcmds' := getCreateIndexOnFieldCmds_ok_eq _ _ _ _ _ hcmds
        obtain ⟨h1, h2, h3⟩ := ih (idx + 1) _ (Or.inr (by omega)) h
        refine ⟨?_, ?_, h3⟩
        · rw [h1]
          simp [hf]
        · rw [h2, hcmds']
          by_cases hk : g.fieldIndexCount = -1
          · simp [hk, hf]
          · have hlt : (idx : Int) < wrapInt (g.fieldIndexCount + st.extraCols) := by
              rcases hc with hc | hc
              · exact absurd hc hk
              · exact hc
            obtain ⟨m, hm⟩ : ∃ m, (wrapInt (g.fieldIndexCount + st.extraCols)).toNat - idx =
                m + 1 := ⟨(wrapInt (g.fieldIndexCount + st.extraCols)).toNat - idx - 1, by omega⟩
            have e : (wrapInt (g.fieldIndexCount + st.extraCols)).toNat - (idx + 1) = m := by
              omega
            simp [hk, hm, e, hf]
      · rw [if_neg hc] at h
        obtain ⟨h1, h2, h3⟩ := ih (idx + 1) _ (Or.inr (by omega)) h
        refine ⟨?_, ?_, h3⟩
        · rw [h1]
          simp [hf]
        · rw [h2]
          push_neg at hc
          have e0 : (wrapInt (g.fieldIndexCount + st.extraCols)).toNat - idx = 0 := by
            omega
          have e1 : (wrapInt (g.fieldIndexCount + st.extraCols)).toNat - (idx + 1) = 0 := by
            omega
          simp [hc.1, e0, e1]

theorem loop_total (g : Globals) (ht : Str) (l : List Str) (idx : Nat) (st : LoopState)
    (hv : validSpec g g.fieldIndex) : ∃ st', CreateDB.loop g ht idx l st = .ok st' := by
  induction l generalizing idx st with
  | nil => exact ⟨st, rfl⟩
  | cons field rest ih =>
    unfold CreateDB.loop
    by_cases hf : field.length = 0
    · rw [if_pos hf]
      exact ih _ _
    · rw [if_neg hf]
      dsimp only
      have hvalid :
          validSpec g (if (g.inTableTag && idx == 0) = true then [] else g.fieldIndex) := by
        split
        · exact validSpec_nil g
        · exact hv
      rw [getCreateIndexOnFieldCmds_of_valid _ _ _ _ hvalid]
      split <;> (split <;> exact ih _ _)

/-- The whole loop of `CreateDB` over `psuedoCols`, when it ends without `fatal`: the
column definitions and the index statements it has collected. -/
theorem loop_plan (g : Globals) (ht pf : Str) (fields : List Str) (st : LoopState)
    (h : CreateDB.loop g ht 0 ((if g.inTableTag then [pf] else []) ++ fields) ⟨[], [], 0⟩ =
      .ok st) :
    st.fieldDef =
        (if g.inTableTag = true ∧ pf ≠ [] then [pf ++ " TEXT".toList] else []) ++
          (fields.filter (fun f => f ≠ [])).map (fun f => f ++ " DOUBLE PRECISION".toList) ∧
      st.indexes =
        ((if g.fieldIndexCount = -1 then fields
          else fields.take
            ((wrapInt (g.fieldIndexCount +
                (if g.inTableTag = true ∧ pf ≠ [] then 1 else 0))).toNat -
              (if g.inTableTag = true then 1 else 0))).filter
            (fun f => f ≠ [])).flatMap (fun f => indexStmts g ht f g.fieldIndex) := by
  cases hin : g.inTableTag with
  | false =>
    rw [hin] at h
    simp only [Bool.false_eq_true, if_false, List.nil_append] at h
    obtain ⟨h1, h2, _⟩ := loop_measured g ht fields 0 _ st (Or.inl hin) h
    simp only [Bool.false_eq_true, false_and, if_false, List.nil_append]
    exact ⟨by simpa using h1, by simpa using h2⟩
  | true =>
    rw [hin] at h
    simp only [if_true, List.singleton_append] at h
    unfold CreateDB.loop at h
    by_cases hpf : pf = []
    · subst hpf
      simp only [List.length_nil, if_true] at h
      obtain ⟨h1, h2, _⟩ := loop_measured g ht fields 1 _ st (Or.inr (le_refl 1)) h
      simp only [ne_eq, not_true_eq_false, and_false, if_false, List.nil_append, if_true]
      exact ⟨by simpa using h1, by simpa using h2⟩
    · have hlen : ¬ pf.length = 0 := fun hl => hpf (List.length_eq_zero.1 hl)
      simp only [hlen, if_false, hin, Bool.true_and, beq_self_eq_true, if_true,
        getCreateIndexOnFieldCmds_nil, List.append_nil, ite_self] at h
      obtain ⟨h1, h2, _⟩ := loop_measured g ht fields 1 _ st (Or.inr (le_refl 1)) h
      simp only [ne_eq, hpf, not_false_eq_true, and_self, if_true]
      refine ⟨?_, by simpa using h2⟩
      rw [h1]
      simp

theorem wrapInt_of_range (x : Int) (h1 : -2 ^ 63 ≤ x) (h2 : x < 2 ^ 63) : wrapInt x = x := by
  unfold wrapInt
  omega

theorem indexStmts_ne_nil (g : Globals) (ht f spec : Str)
    (h : ∃ t ∈ strings.Split spec ',', t ≠ []) : indexStmts g ht f spec ≠ [] := by
  obtain ⟨t, ht1, ht2⟩ := h
  unfold indexStmts
  intro hn
  have hm : t ∈ (strings.Split spec ',').filter (fun t => decide (t ≠ [])) := by
    simp [List.mem_filter, ht1, ht2]
  rw [List.map_eq_nil_iff] at hn
  rw [hn] at hm
  simp at hm

/-- C3 (as amended): in the loop of `CreateDB` over the pseudo-columns, for a valid
`fieldIndex` and, with `inTableTag`, a non-empty partitioning field: the loop ends
without `fatal`; with `fieldIndexCount = -1` every non-empty measured field gets its index
statements; with `fieldIndexCount = k`, `0 ≤ k` and `k + 1` within the range of `int`,
exactly the non-empty fields among the first `k` entries of the measured-field list get
them, which are the first `k` qualifying fields when no measured field name is empty. With
a non-empty token in `fieldIndex` each such field has at least one statement. -/
theorem CreateDB_index_limit (g : Globals) (ht pf : Str) (fields : List Str)
    (hvalid : ∀ t ∈ strings.Split g.fieldIndex ',',
      t = g.timeValueIdx ∨ t = g.valueTimeIdx ∨ t = [])
    (hpf : g.inTableTag = true → pf ≠ []) :
    ∃ st, CreateDB.loop g ht 0 ((if g.inTableTag then [pf] else []) ++ fields) ⟨[], [], 0⟩ =
        .ok st ∧
      (g.fieldIndexCount = -1 →
        st.indexes = (fields.filter (fun f => f ≠ [])).flatMap
          (fun f => indexStmts g ht f g.fieldIndex)) ∧
      (∀ k : Nat, g.fieldIndexCount = k → (k : Int) + 1 < 2 ^ 63 →
        st.indexes = ((fields.take k).filter (fun f => f ≠ [])).flatMap
            (fun f => indexStmts g ht f g.fieldIndex) ∧
          ((∀ f ∈ fields, f ≠ []) →
            st.indexes = ((fields.filter (fun f => f ≠ [])).take k).flatMap
              (fun f => indexStmts g ht f g.fieldIndex))) ∧
      ((∃ t ∈ strings.Split g.fieldIndex ',', t ≠ []) →
        ∀ f, indexStmts g ht f g.fieldIndex ≠ []) := by
  obtain ⟨st, hst⟩ := loop_total g ht ((if g.inTableTag then [pf] else []) ++ fields) 0
    ⟨[], [], 0⟩ hvalid
  obtain ⟨_, hidx⟩ := loop_plan g ht pf fields st hst
  refine ⟨st, hst, ?_, ?_, ?_⟩
  · intro hk
    rw [hidx]
    simp [hk]
  · intro k hk hrange
    have hne : g.fieldIndexCount ≠ -1 := by omega
    have hcount : (wrapInt (g.fieldIndexCount +
          (if g.inTableTag = true ∧ pf ≠ [] then 1 else 0))).toNat -
        (if g.inTableTag = true then 1 else 0) = k := by
      cases hin : g.inTableTag with
      | false =>
        simp only [Bool.false_eq_true, false_and, if_false, add_zero]
        rw [wrapInt_of_range _ (by omega) (by omega)]
        omega
      | true =>
        have := hpf hin
        simp only [true_and, this, ne_eq, not_false_eq_true, if_true]
        rw [wrapInt_of_range _ (by omega) (by omega)]
        omega
    have h1 : st.indexes = ((fields.take k).filter (fun f => f ≠ [])).flatMap
        (fun f => indexStmts g ht f g.fieldIndex) := by
      rw [hidx, if_neg hne, hcount]
    refine ⟨h1, ?_⟩
    intro hall
    have e1 : fields.filter (fun f => decide (f ≠ [])) = fields :=
      List.filter_eq_self.2 (by simpa using hall)
    have e2 : (fields.take k).filter (fun f => decide (f ≠ [])) = fields.take k :=
      List.filter_eq_self.2 (fun f hf => by simpa using hall f (List.mem_of_mem_take hf))
    rw [h1, e1, e2]
  · intro hex f
    exact indexStmts_ne_nil g ht f g.fieldIndex hex

/-- The witness of C3: the example configuration, limit 1, on the fields `usage_user` and
`usage_system`. -/
theorem CreateDB_index_limit_witness :
    ∃ st, CreateDB.loop exampleGlobals "cpu".toList 0
          ((if exampleGlobals.inTableTag then ["hostname".toList] else []) ++
            ["usage_user".toList, "usage_system".toList]) ⟨[], [], 0⟩ = .ok st ∧
      (exampleGlobals.fieldIndexCount = -1 →
        st.indexes = (["usage_user".toList, "usage_system".toList].filter
            (fun f => f ≠ [])).flatMap
          (fun f => indexStmts exampleGlobals "cpu".toList f exampleGlobals.fieldIndex)) ∧
      (∀ k : Nat, exampleGlobals.fieldIndexCount = k → (k : Int) + 1 < 2 ^ 63 →
        st.indexes = ((["usage_user".toList, "usage_system".toList].take k).filter
              (fun f => f ≠ [])).flatMap
            (fun f => indexStmts exampleGlobals "cpu".toList f exampleGlobals.fieldIndex) ∧
          ((∀ f ∈ ["usage_user".toList, "usage_system".toList], f ≠ []) →
            st.indexes = ((["usage_user".toList, "usage_system".toList].filter
                (fun f => f ≠ [])).take k).flatMap
              (fun f => indexStmts exampleGlobals "cpu".toList f exampleGlobals.fieldIndex))) ∧
      ((∃ t ∈ strings.Split exampleGlobals.fieldIndex ',', t ≠ []) →
        ∀ f, indexStmts exampleGlobals "cpu".toList f exampleGlobals.fieldIndex ≠ []) :=
  CreateDB_index_limit exampleGlobals "cpu".toList "hostname".toList
    ["usage_user".toList, "usage_system".toList] (by decide) (by decide)

/-- The counterexample to C3 as stated: with the column line `cpu,,a` and
`fieldIndexCount = 1`, the first qualifying field is `a`, its index statement is
`CREATE INDEX ON cpu (time DESC, a)`, and the run issues no index statement at all. -/
theorem CreateDB_index_limit_counterexample :
    ((strings.Split (strings.TrimSpace "cpu,,a".toList) ',').tail.filter
        (fun f => f ≠ [])).take 1 = ["a".toList] ∧
      indexStmts { exampleGlobals with inTableTag := false, fieldIndex := "TIME-VALUE".toList }
        "cpu".toList "a".toList "TIME-VALUE".toList =
          ["CREATE INDEX ON cpu (time DESC, a)".toList] ∧
      CreateDB
        { exampleGlobals with
          inTableTag := false, fieldIndex := "TIME-VALUE".toList, fieldIndexCount := 1,
          partitionIndex := false, timeIndex := false, useHypertable := false }
        acceptAll ⟨"tags,host".toList, "cpu,,a".toList, []⟩ "benchmark".toList emptyWorld =
      (.returned none,
        ⟨[("cpu".toList, [[], "a".toList]), ("tags".toList, ["host".toList])],
          [.connect .admin, .exec .admin "CREATE DATABASE benchmark".toList, .close .admin,
            .connect .bench, .createTagsTable ["host".toList],
            .exec .bench
              "CREATE TABLE cpu (time timestamptz, tags_id integer, a DOUBLE PRECISION)".toList,
            .close .bench]⟩) := by
  decide

/-! ## The measurement table -/

theorem enumFrom_defs (g : Globals) (l : List Str) (n : Nat)
    (hn : g.inTableTag = false ∨ 1 ≤ n) :
    ((l.enumFrom n).filter (fun p => p.2 ≠ [])).map
        (fun p => p.2 ++ " ".toList ++
          (if g.inTableTag = true ∧ p.1 = 0 then "TEXT".toList
            else "DOUBLE PRECISION".toList)) =
      (l.filter (fun f => f ≠ [])).map (fun f => f ++ " DOUBLE PRECISION".toList) := by
  induction l generalizing n with
  | nil => simp
  | cons f rest ih =>
    have hcond : ¬ (g.inTableTag = true ∧ n = 0) := by
      rintro ⟨h1, h2⟩
      rcases hn with hn | hn
      · rw [hn] at h1
        cases h1
      · omega
    rw [List.enumFrom_cons]
    by_cases hf : f = []
    · simp only [List.filter_cons, hf, ne_eq, not_true_eq_false, decide_False,
        Bool.false_eq_true, if_false]
      exact ih (n + 1) (Or.inr (by omega))
    · simp only [List.filter_cons, hf, ne_eq, not_false_eq_true, decide_True, if_true,
        List.map_cons, hcond, if_false]
      rw [ih (n + 1) (Or.inr (by omega)), fieldDef_double]

/-- The column definitions of the pseudo-columns, position by position, are the ones the
loop collects. -/
theorem columnDefs_eq (g : Globals) (pf : Str) (fields : List Str) :
    ((((if g.inTableTag then [pf] else []) ++ fields).enum).filter (fun p => p.2 ≠ [])).map
        (fun p => p.2 ++ " ".toList ++
          (if g.inTableTag = true ∧ p.1 = 0 then "TEXT".toList
            else "DOUBLE PRECISION".toList)) =
      (if g.inTableTag = true ∧ pf ≠ [] then [pf ++ " TEXT".toList] else []) ++
        (fields.filter (fun f => f ≠ [])).map (fun f => f ++ " DOUBLE PRECISION".toList) := by
  cases hin : g.inTableTag with
  | false =>
    simp only [Bool.false_eq_true, if_false, List.nil_append, false_and, List.enum]
    have := enumFrom_defs g fields 0 (Or.inl hin)
    rw [hin] at this
    simpa using this
  | true =>
    simp only [if_true, List.singleton_append, true_and, List.enum, List.enumFrom_cons]
    by_cases hpf : pf = []
    · simp only [List.filter_cons, hpf, ne_eq, not_true_eq_false, decide_False,
        Bool.false_eq_true, if_false, List.nil_append]
      have := enumFrom_defs g fields 1 (Or.inr (le_refl 1))
      simpa [hin] using this
    · simp only [List.filter_cons, hpf, ne_eq, not_false_eq_true, decide_True, if_true,
        List.map_cons, List.singleton_append]
      have := enumFrom_defs g fields 1 (Or.inr (le_refl 1))
      rw [hin] at this
      simp only [true_and] at this
      rw [zero_add, this, fieldDef_text]

theorem Join_cons_prefix (a : Str) (l : List Str) (sep : Str) :
    ∃ tail, strings.Join (a :: l) sep = a ++ tail := by
  cases l with
  | nil => exact ⟨[], by simp [strings.Join]⟩
  | cons b rest => exact ⟨sep ++ strings.Join (b :: rest) sep, by simp [strings.Join]⟩

theorem not_createTable_createIndex (x : Str) :
    ¬ ("CREATE TABLE ".toList <+: "CREATE INDEX ON ".toList ++ x) := by
  rintro ⟨t, ht⟩
  simp at ht

theorem not_createTable_indexStmt (g : Globals) (ht f t : Str) :
    ¬ ("CREATE TABLE ".toList <+: indexStmt g ht f t) := by
  unfold indexStmt
  split
  · rw [List.append_assoc, List.append_assoc, List.append_assoc]
    exact not_createTable_createIndex _
  · rw [List.append_assoc, List.append_assoc, List.append_assoc]
    exact not_createTable_createIndex _

theorem not_createTable_tableIndexStmts (g : Globals) (ht q : Str)
    (hq : q ∈ tableIndexStmts g ht) : ¬ ("CREATE TABLE ".toList <+: q) := by
  unfold tableIndexStmts at hq
  rcases List.mem_append.1 hq with h | h
  · split at h
    · rw [List.mem_singleton] at h
      rw [h, List.append_assoc]
      exact not_createTable_createIndex _
    · simp at h
  · split at h
    · rw [List.mem_singleton] at h
      rw [h, List.append_assoc]
      exact not_createTable_createIndex _
    · split at h
      · rw [List.mem_singleton] at h
        rw [h, List.append_assoc]
        exact not_createTable_createIndex _
      · simp at h

theorem not_createTable_hypertableStmts (g : Globals) (ht q : Str)
    (hq : q ∈ hypertableStmts g ht) : ¬ ("CREATE TABLE ".toList <+: q) := by
  unfold hypertableStmts at hq
  split at hq
  · rcases List.mem_cons.1 hq with h | h
    · rw [h]
      decide
    · rw [List.mem_singleton] at h
      rw [h]
      unfold createHypertableStmt
      rintro ⟨t, ht⟩
      simp at ht
  · simp at hq

/-- C4 (as amended): when `CreateDB` returns nil, the tag line is `tags` and at least one
tag name, and the `CREATE TABLE` of the measurement table follows the creation of the
tags table. With `inTableTag` and a non-empty first tag name, what follows `time
timestamptz, tags_id integer, ` begins with that tag name typed `TEXT`, before the
non-empty measured fields typed `DOUBLE PRECISION`; without `inTableTag` the columns are
`time`, `tags_id` and the non-empty measured fields typed `DOUBLE PRECISION`, none typed
`TEXT`. -/
theorem CreateDB_inTableTag_column (g : Globals) (db : Oracle) (d : dbCreator) (dbName : Str)
    (w0 w : World) (h : CreateDB g db d dbName w0 = (.returned none, w)) :
    ∃ pf tagRest ht fields later,
      strings.Split (strings.TrimSpace d.tags) ',' = "tags".toList :: pf :: tagRest ∧
      strings.Split (strings.TrimSpace d.cols) ',' = ht :: fields ∧
      (g.inTableTag = true → pf ≠ [] →
        w.trace = w0.trace ++
            [.connect .admin, .exec .admin ("CREATE DATABASE ".toList ++ dbName),
              .close .admin, .connect .bench, .createTagsTable (pf :: tagRest)] ++
            [.exec .bench ("CREATE TABLE ".toList ++ ht ++
              " (time timestamptz, tags_id integer, ".toList ++
              strings.Join ((pf ++ " TEXT".toList) ::
                (fields.filter (fun f => f ≠ [])).map
                  (fun f => f ++ " DOUBLE PRECISION".toList)) ",".toList ++ ")".toList)] ++
            later ∧
          ∃ tail, strings.Join ((pf ++ " TEXT".toList) ::
              (fields.filter (fun f => f ≠ [])).map
                (fun f => f ++ " DOUBLE PRECISION".toList)) ",".toList =
            pf ++ " TEXT".toList ++ tail) ∧
      (g.inTableTag = false →
        w.trace = w0.trace ++
            [.connect .admin, .exec .admin ("CREATE DATABASE ".toList ++ dbName),
              .close .admin, .connect .bench, .createTagsTable (pf :: tagRest)] ++
            [.exec .bench ("CREATE TABLE ".toList ++ ht ++
              " (time timestamptz, tags_id integer, ".toList ++
              strings.Join ((fields.filter (fun f => f ≠ [])).map
                (fun f => f ++ " DOUBLE PRECISION".toList)) ",".toList ++ ")".toList)] ++
            later) := by
  obtain ⟨pf, tagRest, ht, fields, st, h1, h2, h3, _, h5⟩ :=
    CreateDB_returned_nil g db d dbName w0 w h
  obtain ⟨hdef, _⟩ := loop_plan g ht pf fields st h3
  refine ⟨pf, tagRest, ht, fields,
    (tableIndexStmts g ht ++ st.indexes ++ hypertableStmts g ht).map (Event.exec .bench) ++
      [.close .bench], h1, h2, ?_, ?_⟩
  · intro hin hpf
    refine ⟨?_, Join_cons_prefix _ _ _⟩
    rw [h5, hdef, if_pos ⟨hin, hpf⟩]
    simp [createTableStmt]
  · intro hin
    rw [h5, hdef, hin]
    simp [createTableStmt]

/-- C5: when `CreateDB` returns nil it has issued, right after the creation of the tags
table, the statement `CREATE TABLE <hypertable> (time timestamptz, tags_id integer,
<defs>)`, where `<hypertable>` is the first token of the column line and `<defs>` joins
with commas, in pseudo-column order, `<name> <type>` for each non-empty pseudo-column:
`TEXT` for the in-table tag at position 0 and `DOUBLE PRECISION` for every other column.
No later statement of the run is a `CREATE TABLE`. -/
theorem CreateDB_createTable (g : Globals) (db : Oracle) (d : dbCreator) (dbName : Str)
    (w0 w : World) (h : CreateDB g db d dbName w0 = (.returned none, w)) :
    ∃ pf tagRest ht fields later,
      strings.Split (strings.TrimSpace d.tags) ',' = "tags".toList :: pf :: tagRest ∧
      strings.Split (strings.TrimSpace d.cols) ',' = ht :: fields ∧
      w.trace = w0.trace ++
          [.connect .admin, .exec .admin ("CREATE DATABASE ".toList ++ dbName),
            .close .admin, .connect .bench, .createTagsTable (pf :: tagRest)] ++
          [.exec .bench ("CREATE TABLE ".toList ++ ht ++
            " (time timestamptz, tags_id integer, ".toList ++
            strings.Join
              (((((if g.inTableTag then [pf] else []) ++ fields).enum).filter
                  (fun p => p.2 ≠ [])).map
                (fun p => p.2 ++ " ".toList ++
                  (if g.inTableTag = true ∧ p.1 = 0 then "TEXT".toList
                    else "DOUBLE PRECISION".toList))) ",".toList ++ ")".toList)] ++
          later ∧
      ∀ q, Event.exec .bench q ∈ later → ¬ ("CREATE TABLE ".toList <+: q) := by
  obtain ⟨pf, tagRest, ht, fields, st, h1, h2, h3, _, h5⟩ :=
    CreateDB_returned_nil g db d dbName w0 w h
  obtain ⟨hdef, hidx⟩ := loop_plan g ht pf fields st h3
  refine ⟨pf, tagRest, ht, fields,
    (tableIndexStmts g ht ++ st.indexes ++ hypertableStmts g ht).map (Event.exec .bench) ++
      [.close .bench], h1, h2, ?_, ?_⟩
  · rw [h5, columnDefs_eq, ← hdef]
    simp [createTableStmt]
  · intro q hq
    rcases List.mem_append.1 hq with hq | hq
    · obtain ⟨q', hq', e⟩ := List.mem_map.1 hq
      cases e
      rcases List.mem_append.1 hq' with hq' | hq'
      · rcases List.mem_append.1 hq' with hq' | hq'
        · exact not_createTable_tableIndexStmts g ht q hq'
        · rw [hidx] at hq'
          obtain ⟨f, _, hf⟩ := List.mem_flatMap.1 hq'
          obtain ⟨t, _, e⟩ := List.mem_map.1 hf
          rw [← e]
          exact not_createTable_indexStmt g ht f t
      · exact not_createTable_hypertableStmts g ht q hq'
    · simp at hq

/-- The first steps of `CreateDB`, up to the second connection: either one of them
panics, or the function goes on to its body under `defer dbBench.Close()`. -/
theorem CreateDB_cases (g : Globals) (db : Oracle) (d : dbCreator) (dbName : Str)
    (w0 : World) :
    (db w0.trace (.connect .admin) = false ∧
      CreateDB g db d dbName w0 =
        (.panicked, ⟨w0.tableCols, w0.trace ++ [.connect .admin]⟩)) ∨
    (db w0.trace (.connect .admin) = true ∧
      db (w0.trace ++ [.connect .admin])
        (.exec .admin ("CREATE DATABASE ".toList ++ dbName)) = false ∧
      CreateDB g db d dbName w0 =
        (.panicked, ⟨w0.tableCols, w0.trace ++ [.connect .admin,
          .exec .admin ("CREATE DATABASE ".toList ++ dbName)]⟩)) ∨
    (db w0.trace (.connect .admin) = true ∧
      db (w0.trace ++ [.connect .admin])
        (.exec .admin ("CREATE DATABASE ".toList ++ dbName)) = true ∧
      db (w0.trace ++ [.connect .admin,
          .exec .admin ("CREATE DATABASE ".toList ++ dbName), .close .admin])
        (.connect .bench) = false ∧
      CreateDB g db d dbName w0 =
        (.panicked, ⟨w0.tableCols, w0.trace ++ [.connect .admin,
          .exec .admin ("CREATE DATABASE ".toList ++ dbName), .close .admin,
          .connect .bench]⟩)) ∨
    (db w0.trace (.connect .admin) = true ∧
      db (w0.trace ++ [.connect .admin])
        (.exec .admin ("CREATE DATABASE ".toList ++ dbName)) = true ∧
      db (w0.trace ++ [.connect .admin,
          .exec .admin ("CREATE DATABASE ".toList ++ dbName), .close .admin])
        (.connect .bench) = true ∧
      CreateDB g db d dbName w0 =
        deferClose .bench (CreateDB.body g db d ⟨w0.tableCols, w0.trace ++ [.connect .admin,
          .exec .admin ("CREATE DATABASE ".toList ++ dbName), .close .admin,
          .connect .bench]⟩)) := by
  cases h1 : db w0.trace (.connect .admin) with
  | false =>
    left
    simp [CreateDB, must, record, h1]
  | true =>
    right
    cases h2 : db (w0.trace ++ [.connect .admin])
        (.exec .admin ("CREATE DATABASE ".toList ++ dbName)) with
    | false =>
      left
      simp at h2
      simp [CreateDB, must, record, h1, h2]
    | true =>
      right
      cases h3 : db (w0.trace ++ [.connect .admin,
          .exec .admin ("CREATE DATABASE ".toList ++ dbName), .close .admin])
        (.connect .bench) with
      | false =>
        left
        simp at h2 h3
        simp [CreateDB, must, record, h1, h2, h3]
      | true =>
        right
        simp at h2 h3
        simp [CreateDB, must, record, h1, h2, h3]

/-- C6: for a tag line whose first comma-separated token is not `tags`, `CreateDB` leaves
`tableCols` as it was and does nothing but connect, create the database and close: no
table, index or hypertable statement. It panics when the database refuses a connection
or the `CREATE DATABASE`, and otherwise returns the error `input header in wrong format.
got '<token>', expected 'tags'`. -/
theorem CreateDB_wrong_marker (g : Globals) (db : Oracle) (d : dbCreator) (dbName : Str)
    (w0 : World)
    (hm : (strings.Split (strings.TrimSpace d.tags) ',').head? ≠ some "tags".toList) :
    ∃ marker, (strings.Split (strings.TrimSpace d.tags) ',').head? = some marker ∧
      (CreateDB g db d dbName w0).2.tableCols = w0.tableCols ∧
      (∃ evs, (CreateDB g db d dbName w0).2.trace = w0.trace ++ evs ∧
        ∀ e ∈ evs, e = .connect .admin ∨
          e = .exec .admin ("CREATE DATABASE ".toList ++ dbName) ∨ e = .close .admin ∨
          e = .connect .bench ∨ e = .close .bench) ∧
      ((CreateDB g db d dbName w0).1 = .panicked ∨
        (CreateDB g db d dbName w0).1 = .returned (some
          ("input header in wrong format. got \x27".toList ++ marker ++
            "\x27, expected \x27tags\x27".toList))) ∧
      (db w0.trace (.connect .admin) = true →
        db (w0.trace ++ [.connect .admin])
          (.exec .admin ("CREATE DATABASE ".toList ++ dbName)) = true →
        db (w0.trace ++ [.connect .admin,
            .exec .admin ("CREATE DATABASE ".toList ++ dbName), .close .admin])
          (.connect .bench) = true →
        CreateDB g db d dbName w0 =
          (.returned (some ("input header in wrong format. got \x27".toList ++ marker ++
              "\x27, expected \x27tags\x27".toList)),
            ⟨w0.tableCols, w0.trace ++ [.connect .admin,
              .exec .admin ("CREATE DATABASE ".toList ++ dbName), .close .admin,
              .connect .bench, .close .bench]⟩)) := by
  cases hs : strings.Split (strings.TrimSpace d.tags) ',' with
  | nil => exact absurd hs (Split_ne_nil _ _)
  | cons marker rest =>
    have hne : marker ≠ "tags".toList := by
      intro e
      apply hm
      rw [hs, e]
      rfl
    have hbody : ∀ w1, CreateDB.body g db d w1 =
        (.returned (some (headerError marker)), w1) := by
      intro w1
      unfold CreateDB.body
      rw [hs]
      simp only [hne, ne_eq, not_false_eq_true, if_true]
    refine ⟨marker, rfl, ?_⟩
    rcases CreateDB_cases g db d dbName w0 with ⟨h1, e⟩ | ⟨h1, h2, e⟩ | ⟨h1, h2, h3, e⟩ |
      ⟨h1, h2, h3, e⟩
    · rw [e]
      simp [h1]
    · rw [e]
      simp at h2
      simp [h1, h2]
    · rw [e]
      simp at h2 h3
      simp [h1, h2, h3]
    · rw [e, hbody]
      simp [deferClose, record, headerError]

/-- When `CreateDB`, started with an empty `tableCols`, returns nil on a header whose
table name is not `tags`, the tag line is `tags` and at least one tag name, and
`tableCols` has exactly two entries: `tags` with the comma-split of the trimmed tag line
without its first token, and the table name with the comma-split of the trimmed column
line without its first token. -/
theorem tableCols_two_entries (g : Globals) (db : Oracle) (d : dbCreator) (dbName : Str)
    (trace0 : List Event) (w : World)
    (h : CreateDB g db d dbName ⟨[], trace0⟩ = (.returned none, w))
    (hne : (strings.Split (strings.TrimSpace d.cols) ',').head? ≠ some "tags".toList) :
    ∃ pf tagRest ht fields,
      strings.Split (strings.TrimSpace d.tags) ',' = "tags".toList :: pf :: tagRest ∧
      strings.Split (strings.TrimSpace d.cols) ',' = ht :: fields ∧
      w.tableCols.length = 2 ∧
      w.tableCols.Perm
        [("tags".toList, (strings.Split (strings.TrimSpace d.tags) ',').tail),
          (ht, (strings.Split (strings.TrimSpace d.cols) ',').tail)] ∧
      mapGet w.tableCols "tags".toList = pf :: tagRest ∧
      mapGet w.tableCols ht = fields := by
  obtain ⟨pf, tagRest, ht, fields, st, h1, h2, _, h4, _⟩ :=
    CreateDB_returned_nil g db d dbName ⟨[], trace0⟩ w h
  have hht : ht ≠ "tags".toList := by
    intro e
    apply hne
    rw [h2, e]
    rfl
  have hreg : w.tableCols = [(ht, fields), ("tags".toList, pf :: tagRest)] := by
    rw [h4]
    simp only [mapSet, List.filter_nil, List.filter_cons]
    have : ("tags".toList != ht) = true := by
      simp only [bne_iff_ne, ne_eq]
      exact fun e => hht e.symm
    rw [this]
    simp
  refine ⟨pf, tagRest, ht, fields, h1, h2, ?_, ?_, ?_, ?_⟩
  · rw [hreg]
    rfl
  · rw [hreg, h1, h2]
    exact List.Perm.swap _ _ _
  · rw [hreg]
    have : (ht == "tags".toList) = false := by
      simp only [beq_eq_false_iff_ne, ne_eq]
      exact hht
    simp only [mapGet, List.lookup, beq_iff_eq]
    have e2 : ("tags".toList == ht) = false := by
      simp only [beq_eq_false_iff_ne, ne_eq]
      exact fun e => hht e.symm
    rw [e2]
    simp
  · rw [hreg]
    simp [mapGet, List.lookup]

/-- C10: when `CreateDB` returns nil, its actions are, in this order: the two
connections with the `CREATE DATABASE` in between, `createTagsTable` on the tag names,
the `CREATE TABLE` of the measurement table, the partition index and the time index of
the table (as the flags ask), the index statements of the measured fields, field by field
in header order and token by token within a field, and with `useHypertable` the
`CREATE EXTENSION` statement followed by the `create_hypertable` call. -/
theorem CreateDB_statement_order (g : Globals) (db : Oracle) (d : dbCreator) (dbName : Str)
    (w0 w : World) (h : CreateDB g db d dbName w0 = (.returned none, w)) :
    ∃ (pf : Str) (tagRest : List Str) (ht : Str) (fields defs sel : List Str),
      strings.Split (strings.TrimSpace d.tags) ',' = "tags".toList :: pf :: tagRest ∧
      strings.Split (strings.TrimSpace d.cols) ',' = ht :: fields ∧
      sel.Sublist fields ∧
      w.trace = w0.trace ++
        [.connect .admin, .exec .admin ("CREATE DATABASE ".toList ++ dbName), .close .admin,
          .connect .bench] ++
        [.createTagsTable (pf :: tagRest)] ++
        [.exec .bench ("CREATE TABLE ".toList ++ ht ++
          " (time timestamptz, tags_id integer, ".toList ++ strings.Join defs ",".toList ++
          ")".toList)] ++
        ((if g.partitionIndex then
            ["CREATE INDEX ON ".toList ++ ht ++ "(tags_id, \"time\" DESC)".toList]
          else []) ++
          (if g.timePartitionIndex then
            ["CREATE INDEX ON ".toList ++ ht ++ "(\"time\" DESC, tags_id)".toList]
          else if g.timeIndex then
            ["CREATE INDEX ON ".toList ++ ht ++ "(\"time\" DESC)".toList]
          else [])).map (Event.exec .bench) ++
        (sel.flatMap (fun f => indexStmts g ht f g.fieldIndex)).map (Event.exec .bench) ++
        (if g.useHypertable then
          [.exec .bench "CREATE EXTENSION IF NOT EXISTS timescaledb CASCADE".toList,
            .exec .bench (createHypertableStmt g ht)]
        else []) ++
        [.close .bench] := by
  obtain ⟨pf, tagRest, ht, fields, st, h1, h2, h3, _, h5⟩ :=
    CreateDB_returned_nil g db d dbName w0 w h
  obtain ⟨_, hidx⟩ := loop_plan g ht pf fields st h3
  refine ⟨pf, tagRest, ht, fields, st.fieldDef,
    (if g.fieldIndexCount = -1 then fields
      else fields.take
        ((wrapInt (g.fieldIndexCount +
            (if g.inTableTag = true ∧ pf ≠ [] then 1 else 0))).toNat -
          (if g.inTableTag = true then 1 else 0))).filter (fun f => f ≠ []),
    h1, h2, ?_, ?_⟩
  · split
    · exact List.filter_sublist _
    · exact (List.filter_sublist _).trans (List.take_sublist _ _)
  · rw [h5, hidx]
    simp only [createTableStmt, tableIndexStmts, hypertableStmts, List.map_cons,
      List.map_append, List.append_assoc, List.cons_append, List.nil_append]
    congr 1
    congr 6
    congr 3
    split <;> rfl

/-- The witness of C4: the example run, with the tag `hostname` kept in the table. -/
theorem CreateDB_inTableTag_column_witness :
    (CreateDB exampleGlobals acceptAll exampleHeader "benchmark".toList emptyWorld).1 =
        .returned none ∧
    ∃ pf tagRest ht fields later,
      strings.Split (strings.TrimSpace exampleHeader.tags) ',' = "tags".toList :: pf :: tagRest ∧
      strings.Split (strings.TrimSpace exampleHeader.cols) ',' = ht :: fields ∧
      (exampleGlobals.inTableTag = true → pf ≠ [] →
        exampleWorld.trace = emptyWorld.trace ++
            [.connect .admin, .exec .admin ("CREATE DATABASE ".toList ++ "benchmark".toList),
              .close .admin, .connect .bench, .createTagsTable (pf :: tagRest)] ++
            [.exec .bench ("CREATE TABLE ".toList ++ ht ++
              " (time timestamptz, tags_id integer, ".toList ++
              strings.Join ((pf ++ " TEXT".toList) ::
                (fields.filter (fun f => f ≠ [])).map
                  (fun f => f ++ " DOUBLE PRECISION".toList)) ",".toList ++ ")".toList)] ++
            later ∧
          ∃ tail, strings.Join ((pf ++ " TEXT".toList) ::
              (fields.filter (fun f => f ≠ [])).map
                (fun f => f ++ " DOUBLE PRECISION".toList)) ",".toList =
            pf ++ " TEXT".toList ++ tail) ∧
      (exampleGlobals.inTableTag = false →
        exampleWorld.trace = emptyWorld.trace ++
            [.connect .admin, .exec .admin ("CREATE DATABASE ".toList ++ "benchmark".toList),
              .close .admin, .connect .bench, .createTagsTable (pf :: tagRest)] ++
            [.exec .bench ("CREATE TABLE ".toList ++ ht ++
              " (time timestamptz, tags_id integer, ".toList ++
              strings.Join ((fields.filter (fun f => f ≠ [])).map
                (fun f => f ++ " DOUBLE PRECISION".toList)) ",".toList ++ ")".toList)] ++
            later) :=
  ⟨by decide,
    CreateDB_inTableTag_column exampleGlobals acceptAll exampleHeader "benchmark".toList emptyWorld
      exampleWorld (Prod.ext (by decide) rfl)⟩

/-- The witness of C5: the example run. -/
theorem CreateDB_createTable_witness :
    (CreateDB exampleGlobals acceptAll exampleHeader "benchmark".toList emptyWorld).1 =
        .returned none ∧
    ∃ pf tagRest ht fields later,
      strings.Split (strings.TrimSpace exampleHeader.tags) ',' = "tags".toList :: pf :: tagRest ∧
      strings.Split (strings.TrimSpace exampleHeader.cols) ',' = ht :: fields ∧
      exampleWorld.trace = emptyWorld.trace ++
          [.connect .admin, .exec .admin ("CREATE DATABASE ".toList ++ "benchmark".toList),
            .close .admin, .connect .bench, .createTagsTable (pf :: tagRest)] ++
          [.exec .bench ("CREATE TABLE ".toList ++ ht ++
            " (time timestamptz, tags_id integer, ".toList ++
            strings.Join
              (((((if exampleGlobals.inTableTag then [pf] else []) ++ fields).enum).filter
                  (fun p => p.2 ≠ [])).map
                (fun p => p.2 ++ " ".toList ++
                  (if exampleGlobals.inTableTag = true ∧ p.1 = 0 then "TEXT".toList
                    else "DOUBLE PRECISION".toList))) ",".toList ++ ")".toList)] ++
          later ∧
      ∀ q, Event.exec .bench q ∈ later → ¬ ("CREATE TABLE ".toList <+: q) :=
  ⟨by decide,
    CreateDB_createTable exampleGlobals acceptAll exampleHeader "benchmark".toList emptyWorld
      exampleWorld (Prod.ext (by decide) rfl)⟩

/-- The witness of C10: the example run. -/
theorem CreateDB_statement_order_witness :
    (CreateDB exampleGlobals acceptAll exampleHeader "benchmark".toList emptyWorld).1 =
        .returned none ∧
    ∃ (pf : Str) (tagRest : List Str) (ht : Str) (fields defs sel : List Str),
      strings.Split (strings.TrimSpace exampleHeader.tags) ',' = "tags".toList :: pf :: tagRest ∧
      strings.Split (strings.TrimSpace exampleHeader.cols) ',' = ht :: fields ∧
      sel.Sublist fields ∧
      exampleWorld.trace = emptyWorld.trace ++
        [.connect .admin, .exec .admin ("CREATE DATABASE ".toList ++ "benchmark".toList), .close .admin,
          .connect .bench] ++
        [.createTagsTable (pf :: tagRest)] ++
        [.exec .bench ("CREATE TABLE ".toList ++ ht ++
          " (time timestamptz, tags_id integer, ".toList ++ strings.Join defs ",".toList ++
          ")".toList)] ++
        ((if exampleGlobals.partitionIndex then
            ["CREATE INDEX ON ".toList ++ ht ++ "(tags_id, \"time\" DESC)".toList]
          else []) ++
          (if exampleGlobals.timePartitionIndex then
            ["CREATE INDEX ON ".toList ++ ht ++ "(\"time\" DESC, tags_id)".toList]
          else if exampleGlobals.timeIndex then
            ["CREATE INDEX ON ".toList ++ ht ++ "(\"time\" DESC)".toList]
          else [])).map (Event.exec .bench) ++
        (sel.flatMap (fun f => indexStmts exampleGlobals ht f exampleGlobals.fieldIndex)).map (Event.exec .bench) ++
        (if exampleGlobals.useHypertable then
          [.exec .bench "CREATE EXTENSION IF NOT EXISTS timescaledb CASCADE".toList,
            .exec .bench (createHypertableStmt exampleGlobals ht)]
        else []) ++
        [.close .bench] :=
  ⟨by decide,
    CreateDB_statement_order exampleGlobals acceptAll exampleHeader "benchmark".toList emptyWorld
      exampleWorld (Prod.ext (by decide) rfl)⟩

/-- The witness of C6: a tag line that starts with `tag`. -/
theorem CreateDB_wrong_marker_witness :
    (strings.Split (strings.TrimSpace "tag,hostname".toList) ',').head? ≠
        some "tags".toList ∧
    ∃ marker, (strings.Split (strings.TrimSpace ("tag,hostname".toList)) ',').head? = some marker ∧
      (CreateDB exampleGlobals acceptAll ⟨"tag,hostname".toList, "cpu,usage".toList, []⟩ "benchmark".toList emptyWorld).2.tableCols = emptyWorld.tableCols ∧
      (∃ evs, (CreateDB exampleGlobals acceptAll ⟨"tag,hostname".toList, "cpu,usage".toList, []⟩ "benchmark".toList emptyWorld).2.trace = emptyWorld.trace ++ evs ∧
        ∀ e ∈ evs, e = .connect .admin ∨
          e = .exec .admin ("CREATE DATABASE ".toList ++ "benchmark".toList) ∨ e = .close .admin ∨
          e = .connect .bench ∨ e = .close .bench) ∧
      ((CreateDB exampleGlobals acceptAll ⟨"tag,hostname".toList, "cpu,usage".toList, []⟩ "benchmark".toList emptyWorld).1 = .panicked ∨
        (CreateDB exampleGlobals acceptAll ⟨"tag,hostname".toList, "cpu,usage".toList, []⟩ "benchmark".toList emptyWorld).1 = .returned (some
          ("input header in wrong format. got \x27".toList ++ marker ++
            "\x27, expected \x27tags\x27".toList))) ∧
      (acceptAll emptyWorld.trace (.connect .admin) = true →
        acceptAll (emptyWorld.trace ++ [.connect .admin])
          (.exec .admin ("CREATE DATABASE ".toList ++ "benchmark".toList)) = true →
        acceptAll (emptyWorld.trace ++ [.connect .admin,
            .exec .admin ("CREATE DATABASE ".toList ++ "benchmark".toList), .close .admin])
          (.connect .bench) = true →
        CreateDB exampleGlobals acceptAll ⟨"tag,hostname".toList, "cpu,usage".toList, []⟩ "benchmark".toList emptyWorld =
          (.returned (some ("input header in wrong format. got \x27".toList ++ marker ++
              "\x27, expected \x27tags\x27".toList)),
            ⟨emptyWorld.tableCols, emptyWorld.trace ++ [.connect .admin,
              .exec .admin ("CREATE DATABASE ".toList ++ "benchmark".toList), .close .admin,
              .connect .bench, .close .bench]⟩)) :=
  ⟨by decide,
    CreateDB_wrong_marker exampleGlobals acceptAll
      ⟨"tag,hostname".toList, "cpu,usage".toList, []⟩ "benchmark".toList emptyWorld
      (by decide)⟩

/-- The counterexample to C4 as stated: the tag line `tags,` has the empty string as its
first tag name; with `inTableTag` the run returns nil, and what follows `time timestamptz,
tags_id integer, ` in its `CREATE TABLE` is `a DOUBLE PRECISION)`, which does not begin
with the partitioning field typed `TEXT`. -/
theorem CreateDB_inTableTag_column_counterexample :
    strings.Split (strings.TrimSpace "tags,".toList) ',' = ["tags".toList, []] ∧
      CreateDB
        { exampleGlobals with
          inTableTag := true, fieldIndex := [], fieldIndexCount := 0,
          partitionIndex := false, timeIndex := false, useHypertable := false }
        acceptAll ⟨"tags,".toList, "cpu,a".toList, []⟩ "benchmark".toList emptyWorld =
      (.returned none,
        ⟨[("cpu".toList, ["a".toList]), ("tags".toList, [[]])],
          [.connect .admin, .exec .admin "CREATE DATABASE benchmark".toList, .close .admin,
            .connect .bench, .createTagsTable [[]],
            .exec .bench
              "CREATE TABLE cpu (time timestamptz, tags_id integer, a DOUBLE PRECISION)".toList,
            .close .bench]⟩) ∧
      ¬ ("CREATE TABLE cpu (time timestamptz, tags_id integer, ".toList ++ [] ++
            " TEXT".toList <+:
          "CREATE TABLE cpu (time timestamptz, tags_id integer, a DOUBLE PRECISION)".toList) := by
  decide

/-! ## Every run of `CreateDB` -/

/-- The body of `CreateDB`, case by case: the header error, a refused `createTagsTable`,
no tag name, `fatal` in the loop, or the queries of lines 114-137. -/
theorem CreateDB_body_cases (g : Globals) (db : Oracle) (d : dbCreator) (w1 : World) :
    (∃ marker rest, strings.Split (strings.TrimSpace d.tags) ',' = marker :: rest ∧
      marker ≠ "tags".toList ∧
      CreateDB.body g db d w1 = (.returned (some (headerError marker)), w1)) ∨
    (∃ tagNames, strings.Split (strings.TrimSpace d.tags) ',' = "tags".toList :: tagNames ∧
      db w1.trace (.createTagsTable tagNames) = false ∧
      CreateDB.body g db d w1 =
        (.panicked, ⟨w1.tableCols, w1.trace ++ [.createTagsTable tagNames]⟩)) ∨
    (strings.Split (strings.TrimSpace d.tags) ',' = ["tags".toList] ∧
      db w1.trace (.createTagsTable []) = true ∧
      CreateDB.body g db d w1 =
        (.indexOutOfRange,
          ⟨mapSet w1.tableCols "tags".toList [], w1.trace ++ [.createTagsTable []]⟩)) ∨
    (∃ pf tagRest ht fields msg,
      strings.Split (strings.TrimSpace d.tags) ',' = "tags".toList :: pf :: tagRest ∧
      strings.Split (strings.TrimSpace d.cols) ',' = ht :: fields ∧
      db w1.trace (.createTagsTable (pf :: tagRest)) = true ∧
      CreateDB.loop g ht 0 ((if g.inTableTag then [pf] else []) ++ fields) ⟨[], [], 0⟩ =
        .error msg ∧
      CreateDB.body g db d w1 =
        (.fatal msg,
          ⟨mapSet (mapSet w1.tableCols "tags".toList (pf :: tagRest)) ht fields,
            w1.trace ++ [.createTagsTable (pf :: tagRest)]⟩)) ∨
    (∃ pf tagRest ht fields st,
      strings.Split (strings.TrimSpace d.tags) ',' = "tags".toList :: pf :: tagRest ∧
      strings.Split (strings.TrimSpace d.cols) ',' = ht :: fields ∧
      db w1.trace (.createTagsTable (pf :: tagRest)) = true ∧
      CreateDB.loop g ht 0 ((if g.inTableTag then [pf] else []) ++ fields) ⟨[], [], 0⟩ =
        .ok st ∧
      CreateDB.body g db d w1 =
        mustExecAll db .bench (plannedStmts g ht st)
          ⟨mapSet (mapSet w1.tableCols "tags".toList (pf :: tagRest)) ht fields,
            w1.trace ++ [.createTagsTable (pf :: tagRest)]⟩
          (fun w => (.returned none, w))) := by
  unfold CreateDB.body
  cases hs : strings.Split (strings.TrimSpace d.tags) ',' with
  | nil => exact absurd hs (Split_ne_nil _ _)
  | cons marker tagNames =>
    by_cases hm : marker = "tags".toList
    · subst hm
      right
      cases hdb : db w1.trace (.createTagsTable tagNames) with
      | false =>
        left
        exact ⟨tagNames, rfl, hdb, by simp [must, hdb, record]⟩
      | true =>
        right
        cases hc : strings.Split (strings.TrimSpace d.cols) ',' with
        | nil => exact absurd hc (Split_ne_nil _ _)
        | cons ht fields =>
          cases tagNames with
          | nil =>
            left
            refine ⟨rfl, hdb, ?_⟩
            simp [must, hdb, record, mapGet, mapSet]
          | cons pf tagRest =>
            right
            cases hl : CreateDB.loop g ht 0 ((if g.inTableTag then [pf] else []) ++ fields)
                ⟨[], [], 0⟩ with
            | error msg =>
              left
              refine ⟨pf, tagRest, ht, fields, msg, rfl, rfl, hdb, hl, ?_⟩
              simp only [must, hdb, if_true, ne_eq, not_true_eq_false, if_false, record,
                mapGet_mapSet, hl]
            | ok st =>
              right
              refine ⟨pf, tagRest, ht, fields, st, rfl, rfl, hdb, hl, ?_⟩
              simp only [must, hdb, if_true, ne_eq, not_true_eq_false, if_false, record,
                mapGet_mapSet, hl, plannedStmts]
    · left
      exact ⟨marker, tagNames, rfl, hm, by simp only [hm, ne_eq, not_false_eq_true, if_true]⟩

theorem deferClose_eq {α : Type} (c : Conn) (out : Outcome α) (w : World)
    (h : ∀ msg, out ≠ .fatal msg) :
    deferClose c (out, w) = (out, ⟨w.tableCols, w.trace ++ [.close c]⟩) := by
  cases out with
  | fatal msg => exact absurd rfl (h msg)
  | returned v => rfl
  | panicked => rfl
  | indexOutOfRange => rfl

theorem deferClose_fatal {α : Type} (c : Conn) (msg : Str) (w : World) :
    deferClose c ((.fatal msg : Outcome α), w) = (.fatal msg, w) := rfl

/-- Every run of `CreateDB`, case by case: a panic before the header is read, the header
error, a refused `createTagsTable`, no tag name, `fatal` in the loop, and the queries of
lines 114-137, all of them or up to the first that the database refuses. -/
theorem CreateDB_run_cases (g : Globals) (db : Oracle) (d : dbCreator) (dbName : Str)
    (w0 : World) :
    (∃ evs, CreateDB g db d dbName w0 = (.panicked, ⟨w0.tableCols, w0.trace ++ evs⟩) ∧
      (evs = [.connect .admin] ∨
        evs = [.connect .admin, .exec .admin ("CREATE DATABASE ".toList ++ dbName)] ∨
        evs = setupEvents dbName)) ∨
    (∃ marker rest, strings.Split (strings.TrimSpace d.tags) ',' = marker :: rest ∧
      marker ≠ "tags".toList ∧
      CreateDB g db d dbName w0 =
        (.returned (some (headerError marker)),
          ⟨w0.tableCols, w0.trace ++ setupEvents dbName ++ [.close .bench]⟩)) ∨
    (∃ tagNames, strings.Split (strings.TrimSpace d.tags) ',' = "tags".toList :: tagNames ∧
      CreateDB g db d dbName w0 =
        (.panicked, ⟨w0.tableCols,
          w0.trace ++ setupEvents dbName ++ [.createTagsTable tagNames, .close .bench]⟩)) ∨
    (strings.Split (strings.TrimSpace d.tags) ',' = ["tags".toList] ∧
      CreateDB g db d dbName w0 =
        (.indexOutOfRange, ⟨mapSet w0.tableCols "tags".toList [],
          w0.trace ++ setupEvents dbName ++ [.createTagsTable [], .close .bench]⟩)) ∨
    (∃ pf tagRest ht fields msg,
      strings.Split (strings.TrimSpace d.tags) ',' = "tags".toList :: pf :: tagRest ∧
      strings.Split (strings.TrimSpace d.cols) ',' = ht :: fields ∧
      CreateDB.loop g ht 0 ((if g.inTableTag then [pf] else []) ++ fields) ⟨[], [], 0⟩ =
        .error msg ∧
      CreateDB g db d dbName w0 =
        (.fatal msg,
          ⟨mapSet (mapSet w0.tableCols "tags".toList (pf :: tagRest)) ht fields,
            w0.trace ++ setupEvents dbName ++ [.createTagsTable (pf :: tagRest)]⟩)) ∨
    (∃ pf tagRest ht fields st,
      strings.Split (strings.TrimSpace d.tags) ',' = "tags".toList :: pf :: tagRest ∧
      strings.Split (strings.TrimSpace d.cols) ',' = ht :: fields ∧
      CreateDB.loop g ht 0 ((if g.inTableTag then [pf] else []) ++ fields) ⟨[], [], 0⟩ =
        .ok st ∧
      (CreateDB g db d dbName w0 =
          (.returned none,
            ⟨mapSet (mapSet w0.tableCols "tags".toList (pf :: tagRest)) ht fields,
              w0.trace ++ setupEvents dbName ++ [.createTagsTable (pf :: tagRest)] ++
                (plannedStmts g ht st).map (Event.exec .bench) ++ [.close .bench]⟩) ∨
        ∃ n, n < (plannedStmts g ht st).length ∧
          CreateDB g db d dbName w0 =
            (.panicked,
              ⟨mapSet (mapSet w0.tableCols "tags".toList (pf :: tagRest)) ht fields,
                w0.trace ++ setupEvents dbName ++ [.createTagsTable (pf :: tagRest)] ++
                  ((plannedStmts g ht st).take (n + 1)).map (Event.exec .bench) ++
                  [.close .bench]⟩))) := by
  rcases CreateDB_cases g db d dbName w0 with ⟨_, e⟩ | ⟨_, _, e⟩ | ⟨_, _, _, e⟩ | ⟨_, _, _, e⟩
  · exact Or.inl ⟨_, e, Or.inl rfl⟩
  · exact Or.inl ⟨_, e, Or.inr (Or.inl rfl)⟩
  · exact Or.inl ⟨_, e, Or.inr (Or.inr rfl)⟩
  · right
    rw [e]
    rcases CreateDB_body_cases g db d ⟨w0.tableCols, w0.trace ++ [.connect .admin,
        .exec .admin ("CREATE DATABASE ".toList ++ dbName), .close .admin, .connect .bench]⟩
      with ⟨marker, rest, h1, h2, hb⟩ | ⟨tn, h1, _, hb⟩ | ⟨h1, _, hb⟩ |
        ⟨pf, tagRest, ht, fields, msg, h1, h2, _, h3, hb⟩ |
        ⟨pf, tagRest, ht, fields, st, h1, h2, _, h3, hb⟩
    · left
      refine ⟨marker, rest, h1, h2, ?_⟩
      rw [hb, deferClose_eq _ _ _ (by simp)]
      simp [setupEvents]
    · right; left
      refine ⟨tn, h1, ?_⟩
      rw [hb, deferClose_eq _ _ _ (by simp)]
      simp [setupEvents]
    · right; right; left
      refine ⟨h1, ?_⟩
      rw [hb, deferClose_eq _ _ _ (by simp)]
      simp [setupEvents]
    · right; right; right; left
      refine ⟨pf, tagRest, ht, fields, msg, h1, h2, h3, ?_⟩
      rw [hb, deferClose_fatal]
      simp [setupEvents]
    · right; right; right; right
      refine ⟨pf, tagRest, ht, fields, st, h1, h2, h3, ?_⟩
      rw [hb]
      rcases mustExecAll_cases db .bench (plannedStmts g ht st) _
          (fun w => ((Outcome.returned none : Outcome (Option Str)), w)) with hx | ⟨n, hn, hx⟩
      · left
        rw [hx, deferClose_eq _ _ _ (by simp)]
        simp [setupEvents]
      · right
        refine ⟨n, hn, ?_⟩
        rw [hx, deferClose_eq _ _ _ (by simp)]
        simp [setupEvents]

theorem Split_singleton (s t : Str) (sep : Char) (h : strings.Split s sep = [t]) : s = t := by
  induction s generalizing t with
  | nil =>
    simp only [strings.Split, List.cons.injEq, and_true] at h
    exact h
  | cons c cs ih =>
    unfold strings.Split at h
    by_cases hc : c = sep
    · rw [if_pos hc] at h
      simp only [List.cons.injEq] at h
      exact absurd h.2 (Split_ne_nil _ _)
    · rw [if_neg hc] at h
      cases hs : strings.Split cs sep with
      | nil => exact absurd hs (Split_ne_nil _ _)
      | cons t' ts =>
        rw [hs] at h
        simp only [List.cons.injEq] at h
        obtain ⟨h1, h2⟩ := h
        subst h2
        rw [← h1, ih t' hs]

/-- C20: in `CreateDB`, `parts[0]` is in bounds for every tag line and every column
line; the run ends in an index out of range only if the trimmed tag line is exactly
`tags`, so never when the tag line is `tags` followed by a comma; and on the tag line
`tags` it does end so, once the database has accepted the two connections, the `CREATE
DATABASE` and the call of `createTagsTable` that come before the lookup. -/
theorem CreateDB_index_safety (g : Globals) (db : Oracle) (d : dbCreator) (dbName : Str)
    (w0 : World) :
    strings.Split (strings.TrimSpace d.tags) ',' ≠ [] ∧
      strings.Split (strings.TrimSpace d.cols) ',' ≠ [] ∧
      ((CreateDB g db d dbName w0).1 = .indexOutOfRange →
        strings.TrimSpace d.tags = "tags".toList) ∧
      ((∃ rest, strings.TrimSpace d.tags = "tags,".toList ++ rest) →
        (CreateDB g db d dbName w0).1 ≠ .indexOutOfRange) ∧
      (strings.TrimSpace d.tags = "tags".toList →
        db w0.trace (.connect .admin) = true →
        db (w0.trace ++ [.connect .admin])
          (.exec .admin ("CREATE DATABASE ".toList ++ dbName)) = true →
        db (w0.trace ++ [.connect .admin,
            .exec .admin ("CREATE DATABASE ".toList ++ dbName), .close .admin])
          (.connect .bench) = true →
        db (w0.trace ++ [.connect .admin,
            .exec .admin ("CREATE DATABASE ".toList ++ dbName), .close .admin,
            .connect .bench]) (.createTagsTable []) = true →
        (CreateDB g db d dbName w0).1 = .indexOutOfRange) := by
  have key : (CreateDB g db d dbName w0).1 = .indexOutOfRange →
      strings.TrimSpace d.tags = "tags".toList := by
    intro h
    rcases CreateDB_run_cases g db d dbName w0 with ⟨evs, e, _⟩ | ⟨m, r, _, _, e⟩ |
      ⟨tn, _, e⟩ | ⟨h1, _⟩ | ⟨pf, tr, ht, fs, msg, _, _, _, e⟩ |
      ⟨pf, tr, ht, fs, st, _, _, _, e | ⟨n, _, e⟩⟩
    · rw [e] at h; cases h
    · rw [e] at h; cases h
    · rw [e] at h; cases h
    · exact Split_singleton _ _ _ h1
    · rw [e] at h; cases h
    · rw [e] at h; cases h
    · rw [e] at h; cases h
  refine ⟨Split_ne_nil _ _, Split_ne_nil _ _, key, ?_, ?_⟩
  · rintro ⟨rest, hr⟩ h
    have := key h
    rw [hr] at this
    simp at this
  · intro ht h1 h2 h3 h4
    rcases CreateDB_cases g db d dbName w0 with ⟨h1', _⟩ | ⟨_, h2', _⟩ | ⟨_, _, h3', _⟩ |
      ⟨_, _, _, e⟩
    · rw [h1] at h1'; cases h1'
    · rw [h2] at h2'; cases h2'
    · rw [h3] at h3'; cases h3'
    · rw [e]
      have hsplit : strings.Split (strings.TrimSpace d.tags) ',' = ["tags".toList] := by
        rw [ht]
        decide
      rcases CreateDB_body_cases g db d ⟨w0.tableCols, w0.trace ++ [.connect .admin,
          .exec .admin ("CREATE DATABASE ".toList ++ dbName), .close .admin, .connect .bench]⟩
        with ⟨marker, rest, s1, s2, _⟩ | ⟨tn, s1, hdb, _⟩ | ⟨_, _, hb⟩ |
          ⟨pf, tagRest, _, _, _, s1, _⟩ | ⟨pf, tagRest, _, _, _, s1, _⟩
      · rw [hsplit] at s1
        simp only [List.cons.injEq] at s1
        exact absurd s1.1.symm s2
      · rw [hsplit] at s1
        simp only [List.cons.injEq, true_and] at s1
        subst s1
        rw [h4] at hdb
        cases hdb
      · rw [hb]
        rfl
      · rw [hsplit] at s1
        simp at s1
      · rw [hsplit] at s1
        simp at s1

/-- The witness of C20: the tag line `tags` against a database that accepts everything,
and the tag line `tags,` of one empty tag name. -/
theorem CreateDB_index_safety_witness :
    (CreateDB exampleGlobals acceptAll ⟨"tags".toList, "cpu,a".toList, []⟩
        "benchmark".toList emptyWorld).1 = .indexOutOfRange ∧
      (CreateDB exampleGlobals acceptAll ⟨"tags,".toList, "cpu,a".toList, []⟩
        "benchmark".toList emptyWorld).1 ≠ .indexOutOfRange :=
  ⟨(CreateDB_index_safety exampleGlobals acceptAll ⟨"tags".toList, "cpu,a".toList, []⟩
      "benchmark".toList emptyWorld).2.2.2.2 (by decide) rfl rfl rfl rfl,
    (CreateDB_index_safety exampleGlobals acceptAll ⟨"tags,".toList, "cpu,a".toList, []⟩
      "benchmark".toList emptyWorld).2.2.2.1 ⟨[], by decide⟩⟩

/-! ## An unknown index type -/

theorem loop_measured_fatal (g : Globals) (ht : Str) (l : List Str) (idx : Nat)
    (st : LoopState) (hphase : g.inTableTag = false ∨ 1 ≤ idx)
    (hbad : ∃ t ∈ strings.Split g.fieldIndex ',',
      t ≠ [] ∧ t ≠ g.timeValueIdx ∧ t ≠ g.valueTimeIdx)
    (hsel : (if g.fieldIndexCount = -1 then l
        else l.take ((wrapInt (g.fieldIndexCount + st.extraCols)).toNat - idx)).filter
          (fun f => f ≠ []) ≠ []) :
    ∃ msg, CreateDB.loop g ht idx l st = .error msg := by
  induction l generalizing idx st with
  | nil =>
    exfalso
    apply hsel
    split <;> simp
  | cons field rest ih =>
    have hin : (g.inTableTag && idx == 0) = false := by
      rcases hphase with hp | hp
      · simp [hp]
      · have : idx ≠ 0 := by omega
        simp [this]
    unfold CreateDB.loop
    by_cases hf : field = []
    · subst hf
      simp only [List.length_nil, if_true]
      apply ih (idx + 1) st (Or.inr (by omega))
      by_cases hk : g.fieldIndexCount = -1
      · simpa [hk] using hsel
      · simp only [hk, if_false] at hsel ⊢
        rw [take_filter_cons_nil] at hsel
        have e : (wrapInt (g.fieldIndexCount + st.extraCols)).toNat - (idx + 1) =
            (wrapInt (g.fieldIndexCount + st.extraCols)).toNat - idx - 1 := by omega
        rw [e]
        exact hsel
    · have hlen : ¬ field.length = 0 := fun hl => hf (List.length_eq_zero.1 hl)
      simp only [hlen, if_false, hin, Bool.false_eq_true]
      by_cases hc : g.fieldIndexCount = -1 ∨
          (idx : Int) < wrapInt (g.fieldIndexCount + st.extraCols)
      · rw [if_pos hc]
        obtain ⟨msg, hm⟩ := indexLoop_invalid g ht field
          (strings.Split g.fieldIndex ',') [] hbad
        have hm2 : getCreateIndexOnFieldCmds g ht field g.fieldIndex = .error msg := hm
        rw [hm2]
        exact ⟨msg, rfl⟩
      · exfalso
        apply hsel
        push_neg at hc
        have e0 : (wrapInt (g.fieldIndexCount + st.extraCols)).toNat - idx = 0 := by omega
        simp [hc.1, e0]

/-- With an unknown index type, the loop of `CreateDB` ends in `fatal` when it finds a
non-empty measured field at a position below `fieldIndexCount+extraCols`, or any
non-empty measured field with `fieldIndexCount = -1`. -/
theorem loop_fatal (g : Globals) (ht pf : Str) (fields : List Str)
    (hbad : ∃ t ∈ strings.Split g.fieldIndex ',',
      t ≠ [] ∧ t ≠ g.timeValueIdx ∧ t ≠ g.valueTimeIdx)
    (hsel : (if g.fieldIndexCount = -1 then fields
        else fields.take
          ((wrapInt (g.fieldIndexCount +
              (if g.inTableTag = true ∧ pf ≠ [] then 1 else 0))).toNat -
            (if g.inTableTag = true then 1 else 0))).filter (fun f => f ≠ []) ≠ []) :
    ∃ msg, CreateDB.loop g ht 0 ((if g.inTableTag then [pf] else []) ++ fields)
      ⟨[], [], 0⟩ = .error msg := by
  cases hin : g.inTableTag with
  | false =>
    rw [hin] at hsel
    simp only [Bool.false_eq_true, if_false, List.nil_append, false_and] at hsel ⊢
    exact loop_measured_fatal g ht fields 0 _ (Or.inl hin) hbad (by simpa using hsel)
  | true =>
    rw [hin] at hsel
    simp only [if_true, List.singleton_append, true_and] at hsel ⊢
    unfold CreateDB.loop
    by_cases hpf : pf = []
    · subst hpf
      simp only [List.length_nil, if_true]
      simp only [ne_eq, not_true_eq_false, if_false] at hsel
      exact loop_measured_fatal g ht fields 1 _ (Or.inr (le_refl 1)) hbad
        (by simpa using hsel)
    · have hlen : ¬ pf.length = 0 := fun hl => hpf (List.length_eq_zero.1 hl)
      simp only [ne_eq, hpf, not_false_eq_true, if_true] at hsel
      simp only [hlen, if_false, hin, Bool.true_and, beq_self_eq_true, if_true,
        getCreateIndexOnFieldCmds_nil, List.append_nil, ite_self]
      exact loop_measured_fatal g ht fields 1 _ (Or.inr (le_refl 1)) hbad
        (by simpa using hsel)

/-- With a non-empty first tag name when the tag is in the table, and a limit that stays
in the range of `int` with the offset added, a non-empty name among the first
`fieldIndexCount` measured fields (among all of them with `fieldIndexCount = -1`) is a
field the loop of `CreateDB` finds below `fieldIndexCount+extraCols`. -/
theorem selection_ne_nil (g : Globals) (pf : Str) (fields : List Str)
    (hpf : g.inTableTag = true → pf ≠ [])
    (hsel : (g.fieldIndexCount = -1 ∧ ∃ f ∈ fields, f ≠ []) ∨
      ∃ k : Nat, g.fieldIndexCount = k ∧
        (k : Int) + (if g.inTableTag = true then 1 else 0) < 2 ^ 63 ∧
        ∃ f ∈ fields.take k, f ≠ []) :
    (if g.fieldIndexCount = -1 then fields
        else fields.take
          ((wrapInt (g.fieldIndexCount +
              (if g.inTableTag = true ∧ pf ≠ [] then 1 else 0))).toNat -
            (if g.inTableTag = true then 1 else 0))).filter (fun f => f ≠ []) ≠ [] := by
  rcases hsel with ⟨hk, f, hf, hne⟩ | ⟨k, hk, hrange, f, hf, hne⟩
  · rw [if_pos hk]
    intro h
    have hm : f ∈ fields.filter (fun f => decide (f ≠ [])) :=
      List.mem_filter.2 ⟨hf, by simpa using hne⟩
    rw [h] at hm
    cases hm
  · have hk1 : g.fieldIndexCount ≠ -1 := by omega
    have hcount : (wrapInt (g.fieldIndexCount +
          (if g.inTableTag = true ∧ pf ≠ [] then 1 else 0))).toNat -
        (if g.inTableTag = true then 1 else 0) = k := by
      cases hin : g.inTableTag with
      | false =>
        simp only [hin, Bool.false_eq_true, if_false, add_zero] at hrange
        simp only [Bool.false_eq_true, false_and, if_false, add_zero]
        rw [wrapInt_of_range _ (by omega) (by omega)]
        omega
      | true =>
        have := hpf hin
        simp only [hin, if_true] at hrange
        simp only [true_and, this, ne_eq, not_false_eq_true, if_true]
        rw [wrapInt_of_range _ (by omega) (by omega)]
        omega
    rw [if_neg hk1, hcount]
    intro h
    have hm : f ∈ (fields.take k).filter (fun f => decide (f ≠ [])) :=
      List.mem_filter.2 ⟨hf, by simpa using hne⟩
    rw [h] at hm
    cases hm

/-- C15 (as amended): on a header that gets as far as the loop (the tag line is `tags`
and at least one tag name, a non-empty first tag name when `inTableTag` is set) with a
non-empty measured field within the `fieldIndexCount` limit (any non-empty measured field
when `fieldIndexCount = -1`; a non-empty name among the first `k` measured fields when
`fieldIndexCount = k ≥ 0`, with `k` plus the in-table offset in the range of `int`), a
`fieldIndex` with a token that is neither the time-major token, the value-major token nor
empty makes `CreateDB` end in `fatal`, unless the database has refused one of the actions
before the loop and the run has panicked there; in both cases no statement is issued on
the connection to the benchmark database: no `CREATE TABLE` and no index statement. -/
theorem CreateDB_unknown_token (g : Globals) (db : Oracle) (d : dbCreator) (dbName : Str)
    (w0 : World) (pf : Str) (tagRest : List Str) (ht : Str) (fields : List Str)
    (hbad : ∃ t ∈ strings.Split g.fieldIndex ',',
      t ≠ [] ∧ t ≠ g.timeValueIdx ∧ t ≠ g.valueTimeIdx)
    (htags : strings.Split (strings.TrimSpace d.tags) ',' = "tags".toList :: pf :: tagRest)
    (hcols : strings.Split (strings.TrimSpace d.cols) ',' = ht :: fields)
    (hpf : g.inTableTag = true → pf ≠ [])
    (hsel : (g.fieldIndexCount = -1 ∧ ∃ f ∈ fields, f ≠ []) ∨
      ∃ k : Nat, g.fieldIndexCount = k ∧
        (k : Int) + (if g.inTableTag = true then 1 else 0) < 2 ^ 63 ∧
        ∃ f ∈ fields.take k, f ≠ []) :
    (∃ evs, (CreateDB g db d dbName w0).2.trace = w0.trace ++ evs ∧
        ∀ q, Event.exec .bench q ∉ evs) ∧
      ((CreateDB g db d dbName w0).1 = .panicked ∨
        ∃ msg, (CreateDB g db d dbName w0).1 = .fatal msg) ∧
      (db w0.trace (.connect .admin) = true →
        db (w0.trace ++ [.connect .admin])
          (.exec .admin ("CREATE DATABASE ".toList ++ dbName)) = true →
        db (w0.trace ++ [.connect .admin,
            .exec .admin ("CREATE DATABASE ".toList ++ dbName), .close .admin])
          (.connect .bench) = true →
        db (w0.trace ++ [.connect .admin,
            .exec .admin ("CREATE DATABASE ".toList ++ dbName), .close .admin,
            .connect .bench]) (.createTagsTable (pf :: tagRest)) = true →
        ∃ msg, (CreateDB g db d dbName w0).1 = .fatal msg) := by
  obtain ⟨msg0, hfatal⟩ := loop_fatal g ht pf fields hbad
    (selection_ne_nil g pf fields hpf hsel)
  have hloop : ∀ pf' tagRest' ht' fields' st,
      strings.Split (strings.TrimSpace d.tags) ',' = "tags".toList :: pf' :: tagRest' →
      strings.Split (strings.TrimSpace d.cols) ',' = ht' :: fields' →
      CreateDB.loop g ht' 0 ((if g.inTableTag then [pf'] else []) ++ fields') ⟨[], [], 0⟩ =
        .ok st → False := by
    intro pf' tagRest' ht' fields' st s1 s2 hl
    rw [htags] at s1
    rw [hcols] at s2
    simp only [List.cons.injEq, true_and] at s1 s2
    obtain ⟨rfl, _⟩ := s1
    obtain ⟨rfl, rfl⟩ := s2
    rw [hfatal] at hl
    cases hl
  refine ⟨?_, ?_, ?_⟩
  · rcases CreateDB_run_cases g db d dbName w0 with ⟨evs, e, he⟩ | ⟨m, r, _, _, e⟩ |
      ⟨tn, _, e⟩ | ⟨_, e⟩ | ⟨pf', tr', ht', fs', msg, _, _, _, e⟩ |
      ⟨pf', tr', ht', fs', st, s1, s2, hl, _⟩
    · refine ⟨evs, by rw [e], ?_⟩
      rcases he with rfl | rfl | rfl <;> simp [setupEvents]
    · exact ⟨_, by rw [e, List.append_assoc], by simp [setupEvents]⟩
    · exact ⟨_, by rw [e, List.append_assoc], by simp [setupEvents]⟩
    · exact ⟨_, by rw [e, List.append_assoc], by simp [setupEvents]⟩
    · exact ⟨_, by rw [e, List.append_assoc], by simp [setupEvents]⟩
    · exact absurd hl (fun hl => hloop _ _ _ _ _ s1 s2 hl)
  · rcases CreateDB_run_cases g db d dbName w0 with ⟨evs, e, _⟩ | ⟨m, r, s1, s2, _⟩ |
      ⟨tn, _, e⟩ | ⟨s1, _⟩ | ⟨pf', tr', ht', fs', msg, _, _, _, e⟩ |
      ⟨pf', tr', ht', fs', st, s1, s2, hl, _⟩
    · left; rw [e]
    · rw [htags] at s1
      simp only [List.cons.injEq] at s1
      exact absurd s1.1.symm s2
    · left; rw [e]
    · rw [htags] at s1
      simp at s1
    · right; exact ⟨msg, by rw [e]⟩
    · exact absurd hl (fun hl => hloop _ _ _ _ _ s1 s2 hl)
  · intro h1 h2 h3 h4
    rcases CreateDB_cases g db d dbName w0 with ⟨h1', _⟩ | ⟨_, h2', _⟩ | ⟨_, _, h3', _⟩ |
      ⟨_, _, _, e⟩
    · rw [h1] at h1'; cases h1'
    · rw [h2] at h2'; cases h2'
    · rw [h3] at h3'; cases h3'
    · rw [e]
      rcases CreateDB_body_cases g db d ⟨w0.tableCols, w0.trace ++ [.connect .admin,
          .exec .admin ("CREATE DATABASE ".toList ++ dbName), .close .admin, .connect .bench]⟩
        with ⟨marker, rest, s1, s2, _⟩ | ⟨tn, s1, hdb, _⟩ | ⟨s1, _, _⟩ |
          ⟨pf', tagRest', _, _, msg, _, _, _, _, hb⟩ | ⟨pf', tagRest', _, _, st, s1, s2, _, hl, _⟩
      · rw [htags] at s1
        simp only [List.cons.injEq] at s1
        exact absurd s1.1.symm s2
      · rw [htags] at s1
        simp only [List.cons.injEq, true_and] at s1
        rw [← s1, h4] at hdb
        cases hdb
      · rw [htags] at s1
        simp at s1
      · exact ⟨msg, by rw [hb]; rfl⟩
      · exact absurd hl (fun hl => hloop _ _ _ _ _ s1 s2 hl)

/-- The witness of C15: the example header with the index type `BOGUS`. -/
theorem CreateDB_unknown_token_witness :
    (∃ evs, (CreateDB { exampleGlobals with fieldIndex := "BOGUS".toList } acceptAll
          exampleHeader "benchmark".toList emptyWorld).2.trace = emptyWorld.trace ++ evs ∧
        ∀ q, Event.exec .bench q ∉ evs) ∧
      ∃ msg, (CreateDB { exampleGlobals with fieldIndex := "BOGUS".toList } acceptAll
        exampleHeader "benchmark".toList emptyWorld).1 = .fatal msg :=
  ⟨(CreateDB_unknown_token { exampleGlobals with fieldIndex := "BOGUS".toList } acceptAll
      exampleHeader "benchmark".toList emptyWorld "hostname".toList ["region".toList]
      "cpu".toList ["usage_user".toList, "usage_system".toList]
      (by decide) (by decide) (by decide) (by decide)
      (Or.inr ⟨1, rfl, by decide, "usage_user".toList, by decide, by decide⟩)).1,
    (CreateDB_unknown_token { exampleGlobals with fieldIndex := "BOGUS".toList } acceptAll
      exampleHeader "benchmark".toList emptyWorld "hostname".toList ["region".toList]
      "cpu".toList ["usage_user".toList, "usage_system".toList]
      (by decide) (by decide) (by decide) (by decide)
      (Or.inr ⟨1, rfl, by decide, "usage_user".toList, by decide, by decide⟩)).2.2
      rfl rfl rfl rfl⟩

/-- The counterexample to C15 as stated: with the index type `BOGUS` and
`fieldIndexCount = 0` no field is within the limit, the token is never looked at, and the run
returns nil after the `CREATE TABLE` of the measurement table. -/
theorem CreateDB_unknown_token_counterexample :
    (∃ t ∈ strings.Split "BOGUS".toList ',',
        t ≠ [] ∧ t ≠ exampleGlobals.timeValueIdx ∧ t ≠ exampleGlobals.valueTimeIdx) ∧
      CreateDB
        { exampleGlobals with
          inTableTag := false, fieldIndex := "BOGUS".toList, fieldIndexCount := 0,
          partitionIndex := false, timeIndex := false, useHypertable := false }
        acceptAll ⟨"tags,host".toList, "cpu,a".toList, []⟩ "benchmark".toList emptyWorld =
      (.returned none,
        ⟨[("cpu".toList, ["a".toList]), ("tags".toList, ["host".toList])],
          [.connect .admin, .exec .admin "CREATE DATABASE benchmark".toList, .close .admin,
            .connect .bench, .createTagsTable ["host".toList],
            .exec .bench
              "CREATE TABLE cpu (time timestamptz, tags_id integer, a DOUBLE PRECISION)".toList,
            .close .bench]⟩) := by
  decide

/-! ## A statement that fails -/

theorem failStop_append_close (db : Oracle) (P : Prop) (h evs : List Event) (c : Conn)
    (hf : failStop db P h evs) : failStop db P h (evs ++ [.close c]) := by
  induction evs generalizing h with
  | nil =>
    refine ⟨?_, trivial⟩
    intro hne
    exact absurd rfl (hne c)
  | cons e rest ih =>
    obtain ⟨h1, h2⟩ := hf
    refine ⟨?_, ih _ h2⟩
    intro hne hdb
    obtain ⟨hp, hall⟩ := h1 hne hdb
    refine ⟨hp, ?_⟩
    intro e' he'
    rcases List.mem_append.1 he' with he' | he'
    · exact hall e' he'
    · exact ⟨c, by simpa using he'⟩

theorem failStop_decompose (db : Oracle) (P : Prop) (h evs : List Event)
    (hf : failStop db P h evs) (pre : List Event) (e : Event) (post : List Event)
    (he : evs = pre ++ e :: post) (hne : ∀ c, e ≠ .close c)
    (hdb : db (h ++ pre) e = false) :
    P ∧ ∀ e' ∈ post, ∃ c, e' = Event.close c := by
  induction pre generalizing h evs with
  | nil =>
    subst he
    rw [List.append_nil] at hdb
    exact hf.1 hne hdb
  | cons a pre ih =>
    subst he
    apply ih (h ++ [a]) (pre ++ e :: post) hf.2 rfl
    rw [List.append_assoc]
    exact hdb

/-- An action that must succeed keeps the property of stopping at the first refused
action: the run panics when the action is refused, and goes on as `k` does otherwise. -/
theorem must_failStop {α : Type} (db : Oracle) (e : Event) (w : World)
    (k : World → Outcome α × World)
    (hk : db w.trace e = true →
      ∃ evs, (k (record e w)).2.trace = (w.trace ++ [e]) ++ evs ∧
        failStop db ((k (record e w)).1 = .panicked) (w.trace ++ [e]) evs) :
    ∃ evs, (must db e w k).2.trace = w.trace ++ evs ∧
      failStop db ((must db e w k).1 = .panicked) w.trace evs := by
  unfold must
  by_cases hdb : db w.trace e = true
  · rw [if_pos hdb]
    obtain ⟨evs, ht, hf⟩ := hk hdb
    refine ⟨e :: evs, by rw [ht]; simp, ?_, hf⟩
    intro _ hfalse
    rw [hdb] at hfalse
    cases hfalse
  · rw [if_neg hdb]
    refine ⟨[e], rfl, ?_, trivial⟩
    intro _ _
    exact ⟨rfl, by simp⟩

theorem deferClose_failStop {α : Type} (db : Oracle) (c : Conn) (h : List Event)
    (r : Outcome α × World)
    (hr : ∃ evs, r.2.trace = h ++ evs ∧ failStop db (r.1 = .panicked) h evs) :
    ∃ evs, (deferClose c r).2.trace = h ++ evs ∧
      failStop db ((deferClose c r).1 = .panicked) h evs := by
  obtain ⟨evs, ht, hf⟩ := hr
  obtain ⟨out, w⟩ := r
  cases out with
  | fatal msg => exact ⟨evs, ht, hf⟩
  | returned v =>
    have hf' := failStop_append_close db _ h evs c hf
    refine ⟨evs ++ [Event.close c], ?_, hf'⟩
    show w.trace ++ [Event.close c] = h ++ (evs ++ [Event.close c])
    rw [show w.trace = h ++ evs from ht, List.append_assoc]
  | panicked =>
    have hf' := failStop_append_close db _ h evs c hf
    refine ⟨evs ++ [Event.close c], ?_, hf'⟩
    show w.trace ++ [Event.close c] = h ++ (evs ++ [Event.close c])
    rw [show w.trace = h ++ evs from ht, List.append_assoc]
  | indexOutOfRange =>
    have hf' := failStop_append_close db _ h evs c hf
    refine ⟨evs ++ [Event.close c], ?_, hf'⟩
    show w.trace ++ [Event.close c] = h ++ (evs ++ [Event.close c])
    rw [show w.trace = h ++ evs from ht, List.append_assoc]

theorem mustExecAll_failStop {α : Type} (db : Oracle) (c : Conn) (qs : List Str) (w : World)
    (k : World → Outcome α × World)
    (hk : ∀ w', ∃ evs, (k w').2.trace = w'.trace ++ evs ∧
      failStop db ((k w').1 = .panicked) w'.trace evs) :
    ∃ evs, (mustExecAll db c qs w k).2.trace = w.trace ++ evs ∧
      failStop db ((mustExecAll db c qs w k).1 = .panicked) w.trace evs := by
  induction qs generalizing w with
  | nil => exact hk w
  | cons q qs ih =>
    unfold mustExecAll
    apply must_failStop
    intro _
    exact ih (record (.exec c q) w)

theorem CreateDB_body_failStop (g : Globals) (db : Oracle) (d : dbCreator) (w1 : World) :
    ∃ evs, (CreateDB.body g db d w1).2.trace = w1.trace ++ evs ∧
      failStop db ((CreateDB.body g db d w1).1 = .panicked) w1.trace evs := by
  rcases CreateDB_body_cases g db d w1 with ⟨marker, rest, _, _, hb⟩ | ⟨tn, _, hdb, hb⟩ |
    ⟨_, hdb, hb⟩ | ⟨pf, tagRest, ht, fields, msg, _, _, hdb, _, hb⟩ |
    ⟨pf, tagRest, ht, fields, st, _, _, hdb, _, hb⟩
  · rw [hb]
    exact ⟨[], by simp, trivial⟩
  · rw [hb]
    refine ⟨[.createTagsTable tn], rfl, ?_, trivial⟩
    intro _ _
    exact ⟨rfl, by simp⟩
  · rw [hb]
    refine ⟨[.createTagsTable []], rfl, ?_, trivial⟩
    intro _ hfalse
    rw [hdb] at hfalse
    cases hfalse
  · rw [hb]
    refine ⟨[.createTagsTable (pf :: tagRest)], rfl, ?_, trivial⟩
    intro _ hfalse
    rw [hdb] at hfalse
    cases hfalse
  · rw [hb]
    obtain ⟨evs, ht', hf⟩ := mustExecAll_failStop db .bench (plannedStmts g ht st)
      ⟨mapSet (mapSet w1.tableCols "tags".toList (pf :: tagRest)) ht fields,
        w1.trace ++ [.createTagsTable (pf :: tagRest)]⟩
      (fun w => ((Outcome.returned none : Outcome (Option Str)), w))
      (fun w' => ⟨[], by simp, trivial⟩)
    refine ⟨.createTagsTable (pf :: tagRest) :: evs, ?_, ?_, hf⟩
    · rw [ht']
      simp
    · intro _ hfalse
      rw [hdb] at hfalse
      cases hfalse

/-- Every run of `CreateDB` stops at the first action the database refuses, and panics
there. -/
theorem CreateDB_failStop (g : Globals) (db : Oracle) (d : dbCreator) (dbName : Str)
    (w0 : World) :
    ∃ evs, (CreateDB g db d dbName w0).2.trace = w0.trace ++ evs ∧
      failStop db ((CreateDB g db d dbName w0).1 = .panicked) w0.trace evs := by
  unfold CreateDB
  apply must_failStop
  intro _
  apply must_failStop
  intro _
  have key : ∀ w : World,
      ∃ evs, (must db (.connect .bench) (record (.close .admin) w)
          fun w => deferClose .bench (CreateDB.body g db d w)).2.trace =
          (record (.close .admin) w).trace ++ evs ∧
        failStop db ((must db (.connect .bench) (record (.close .admin) w)
          fun w => deferClose .bench (CreateDB.body g db d w)).1 = .panicked)
          (record (.close .admin) w).trace evs := by
    intro w
    apply must_failStop
    intro _
    exact deferClose_failStop db .bench _ _ (CreateDB_body_failStop g db d _)
  obtain ⟨evs, ht, hf⟩ := key (record (.exec .admin ("CREATE DATABASE ".toList ++ dbName))
    (record (.connect .admin) w0))
  refine ⟨.close .admin :: evs, ?_, ?_, hf⟩
  · rw [ht]
    simp [record]
  · intro hne
    exact absurd rfl (hne .admin)

/-- Every run of `RemoveOldDB` stops at the first action the database refuses, and panics
there. -/
theorem RemoveOldDB_failStop (db : Oracle) (dbName : Str) (w0 : World) :
    ∃ evs, (RemoveOldDB db dbName w0).2.trace = w0.trace ++ evs ∧
      failStop db ((RemoveOldDB db dbName w0).1 = .panicked) w0.trace evs := by
  unfold RemoveOldDB
  apply must_failStop
  intro _
  apply deferClose_failStop
  apply must_failStop
  intro _
  exact ⟨[], by simp [record], trivial⟩

/-- C16: in `CreateDB`, when the database refuses an action (a statement, a connection
or the call of `createTagsTable`), nothing is attempted after it: the only actions that
follow it in the run are the ends of connections. -/
theorem CreateDB_stops_at_failure (g : Globals) (db : Oracle) (d : dbCreator) (dbName : Str)
    (w0 : World) (pre : List Event) (e : Event) (post : List Event)
    (ht : (CreateDB g db d dbName w0).2.trace = w0.trace ++ pre ++ e :: post)
    (hne : ∀ c, e ≠ .close c) (hdb : db (w0.trace ++ pre) e = false) :
    ∀ e' ∈ post, ∃ c, e' = Event.close c := by
  obtain ⟨evs, ht', hf⟩ := CreateDB_failStop g db d dbName w0
  rw [ht', List.append_assoc] at ht
  have he : evs = pre ++ e :: post := List.append_cancel_left ht
  exact (failStop_decompose db _ w0.trace evs hf pre e post he hne hdb).2

/-- The witness of C16: the example run against a database that refuses the seventh
action, the first index statement; the end of the connection is all that follows. -/
theorem CreateDB_stops_at_failure_witness :
    (CreateDB exampleGlobals (refuseAfter 6) exampleHeader "benchmark".toList
        emptyWorld).2.trace = emptyWorld.trace ++
        [.connect .admin, .exec .admin "CREATE DATABASE benchmark".toList, .close .admin,
          .connect .bench, .createTagsTable ["hostname".toList, "region".toList],
          .exec .bench ("CREATE TABLE cpu (time timestamptz, tags_id integer, " ++
            "hostname TEXT,usage_user DOUBLE PRECISION,usage_system DOUBLE PRECISION)").toList] ++
        .exec .bench "CREATE INDEX ON cpu(tags_id, \"time\" DESC)".toList ::
          [.close .bench] ∧
      ∀ e' ∈ [Event.close Conn.bench], ∃ c, e' = Event.close c :=
  ⟨by decide,
    CreateDB_stops_at_failure exampleGlobals (refuseAfter 6) exampleHeader
      "benchmark".toList emptyWorld
      [.connect .admin, .exec .admin "CREATE DATABASE benchmark".toList, .close .admin,
        .connect .bench, .createTagsTable ["hostname".toList, "region".toList],
        .exec .bench ("CREATE TABLE cpu (time timestamptz, tags_id integer, " ++
          "hostname TEXT,usage_user DOUBLE PRECISION,usage_system DOUBLE PRECISION)").toList]
      (.exec .bench "CREATE INDEX ON cpu(tags_id, \"time\" DESC)".toList)
      [.close .bench] (by decide) (fun _ hc => Event.noConfusion hc) (by decide)⟩

/-- C17 (as amended): when the database refuses a statement inside `RemoveOldDB` or
`CreateDB`, the function panics and returns nothing to its caller. `RemoveOldDB` returns
nil whenever it returns, and the one error `CreateDB` returns is that of a tag line that
does not begin with `tags`. -/
theorem statement_failure_panics (g : Globals) (db : Oracle) (d : dbCreator)
    (dbName : Str) (w0 : World) :
    (∀ pre e post, (CreateDB g db d dbName w0).2.trace = w0.trace ++ pre ++ e :: post →
        (∀ c, e ≠ .close c) → db (w0.trace ++ pre) e = false →
        (CreateDB g db d dbName w0).1 = .panicked) ∧
      (∀ pre e post, (RemoveOldDB db dbName w0).2.trace = w0.trace ++ pre ++ e :: post →
        (∀ c, e ≠ .close c) → db (w0.trace ++ pre) e = false →
        (RemoveOldDB db dbName w0).1 = .panicked) ∧
      (∀ v, (RemoveOldDB db dbName w0).1 = .returned v → v = none) ∧
      (∀ err, (CreateDB g db d dbName w0).1 = .returned (some err) →
        ∃ marker rest, strings.Split (strings.TrimSpace d.tags) ',' = marker :: rest ∧
          marker ≠ "tags".toList ∧
          err = "input header in wrong format. got \x27".toList ++ marker ++
            "\x27, expected \x27tags\x27".toList) := by
  refine ⟨?_, ?_, ?_, ?_⟩
  · intro pre e post ht hne hdb
    obtain ⟨evs, ht', hf⟩ := CreateDB_failStop g db d dbName w0
    rw [ht', List.append_assoc] at ht
    have he : evs = pre ++ e :: post := List.append_cancel_left ht
    exact (failStop_decompose db _ w0.trace evs hf pre e post he hne hdb).1
  · intro pre e post ht hne hdb
    obtain ⟨evs, ht', hf⟩ := RemoveOldDB_failStop db dbName w0
    rw [ht', List.append_assoc] at ht
    have he : evs = pre ++ e :: post := List.append_cancel_left ht
    exact (failStop_decompose db _ w0.trace evs hf pre e post he hne hdb).1
  · intro v hv
    unfold RemoveOldDB must at hv
    split at hv
    · beta_reduce at hv
      split at hv
      · simp only [deferClose, Outcome.returned.injEq] at hv
        exact hv.symm
      · simp [deferClose] at hv
    · cases hv
  · intro err herr
    rcases CreateDB_run_cases g db d dbName w0 with ⟨evs, e, _⟩ | ⟨m, r, s1, s2, e⟩ |
      ⟨tn, _, e⟩ | ⟨_, e⟩ | ⟨pf, tr, ht, fs, msg, _, _, _, e⟩ |
      ⟨pf, tr, ht, fs, st, _, _, _, e | ⟨n, _, e⟩⟩
    · rw [e] at herr; cases herr
    · rw [e] at herr
      simp only [Outcome.returned.injEq, Option.some.injEq] at herr
      exact ⟨m, r, s1, s2, herr.symm⟩
    · rw [e] at herr; cases herr
    · rw [e] at herr; cases herr
    · rw [e] at herr; cases herr
    · rw [e] at herr; cases herr
    · rw [e] at herr; cases herr

/-- The witness of C17: the refused `CREATE DATABASE` of the example run against a
database that refuses every statement. -/
theorem statement_failure_panics_witness :
    (CreateDB exampleGlobals refuseExec exampleHeader "benchmark".toList emptyWorld).2.trace =
        emptyWorld.trace ++ [.connect .admin] ++
          .exec .admin "CREATE DATABASE benchmark".toList :: [] ∧
      (CreateDB exampleGlobals refuseExec exampleHeader "benchmark".toList emptyWorld).1 =
        .panicked :=
  ⟨by decide,
    (statement_failure_panics exampleGlobals refuseExec exampleHeader "benchmark".toList
      emptyWorld).1 [.connect .admin] (.exec .admin "CREATE DATABASE benchmark".toList) []
      (by decide) (fun _ hc => Event.noConfusion hc) (by decide)⟩

/-- The counterexample to C17 as stated: against a database that refuses every statement,
`RemoveOldDB` and `CreateDB` both panic at their first statement; neither returns an
error. -/
theorem statement_failure_panics_counterexample :
    RemoveOldDB refuseExec "benchmark".toList emptyWorld =
        (.panicked,
          ⟨[], [.connect .admin, .exec .admin "DROP DATABASE IF EXISTS benchmark".toList,
            .close .admin]⟩) ∧
      CreateDB exampleGlobals refuseExec exampleHeader "benchmark".toList emptyWorld =
        (.panicked,
          ⟨[], [.connect .admin, .exec .admin "CREATE DATABASE benchmark".toList]⟩) := by
  decide

/-! ## Connections -/

/-- C18 (as amended): the connection that `DBExists` and `RemoveOldDB` open is closed
whatever becomes of the query or statement; the first connection of `CreateDB` is closed
once the `CREATE DATABASE` has succeeded; and the connection of `CreateDB` to the
benchmark database is closed at the end of every run that returns or panics, which are
all the runs that do not end in `fatal`. -/
theorem connections_closed (g : Globals) (db : Oracle) (d : dbCreator) (dbName : Str)
    (w0 : World) (found : Bool) :
    (db w0.trace (.connect .admin) = true →
        ∃ out, DBExists db found dbName w0 =
          (out, ⟨w0.tableCols, w0.trace ++ [.connect .admin,
            .query .admin "SELECT 1 from pg_database WHERE datname = $1".toList dbName,
            .close .admin]⟩)) ∧
      (db w0.trace (.connect .admin) = true →
        ∃ out, RemoveOldDB db dbName w0 =
          (out, ⟨w0.tableCols, w0.trace ++ [.connect .admin,
            .exec .admin ("DROP DATABASE IF EXISTS ".toList ++ dbName), .close .admin]⟩)) ∧
      (db w0.trace (.connect .admin) = true →
        db (w0.trace ++ [.connect .admin])
          (.exec .admin ("CREATE DATABASE ".toList ++ dbName)) = true →
        ∃ rest, (CreateDB g db d dbName w0).2.trace = w0.trace ++ [.connect .admin,
          .exec .admin ("CREATE DATABASE ".toList ++ dbName), .close .admin] ++ rest) ∧
      (db w0.trace (.connect .admin) = true →
        db (w0.trace ++ [.connect .admin])
          (.exec .admin ("CREATE DATABASE ".toList ++ dbName)) = true →
        db (w0.trace ++ [.connect .admin,
            .exec .admin ("CREATE DATABASE ".toList ++ dbName), .close .admin])
          (.connect .bench) = true →
        (∃ msg, (CreateDB g db d dbName w0).1 = .fatal msg) ∨
          ∃ mid, (CreateDB g db d dbName w0).2.trace = w0.trace ++ [.connect .admin,
              .exec .admin ("CREATE DATABASE ".toList ++ dbName), .close .admin,
              .connect .bench] ++ mid ++ [.close .bench] ∧
            ∀ e ∈ mid, ∀ c, e ≠ Event.connect c) := by
  refine ⟨?_, ?_, ?_, ?_⟩
  · intro h1
    unfold DBExists must
    rw [if_pos h1]
    beta_reduce
    split
    · exact ⟨.returned found, by simp [deferClose, record]⟩
    · exact ⟨.panicked, by simp [deferClose, record]⟩
  · intro h1
    unfold RemoveOldDB must
    rw [if_pos h1]
    beta_reduce
    split
    · exact ⟨.returned none, by simp [deferClose, record]⟩
    · exact ⟨.panicked, by simp [deferClose, record]⟩
  · intro h1 h2
    rcases CreateDB_cases g db d dbName w0 with ⟨h1', _⟩ | ⟨_, h2', _⟩ | ⟨_, _, _, e⟩ |
      ⟨_, _, _, e⟩
    · rw [h1] at h1'; cases h1'
    · rw [h2] at h2'; cases h2'
    · exact ⟨[.connect .bench], by rw [e]; simp⟩
    · obtain ⟨evs, ht, _⟩ := deferClose_failStop db .bench _ _
        (CreateDB_body_failStop g db d ⟨w0.tableCols, w0.trace ++ [.connect .admin,
          .exec .admin ("CREATE DATABASE ".toList ++ dbName), .close .admin,
          .connect .bench]⟩)
      refine ⟨.connect .bench :: evs, ?_⟩
      rw [e, ht]
      simp
  · intro h1 h2 h3
    rcases CreateDB_cases g db d dbName w0 with ⟨h1', _⟩ | ⟨_, h2', _⟩ | ⟨_, _, h3', _⟩ |
      ⟨_, _, _, e⟩
    · rw [h1] at h1'; cases h1'
    · rw [h2] at h2'; cases h2'
    · rw [h3] at h3'; cases h3'
    · rw [e]
      rcases CreateDB_body_cases g db d ⟨w0.tableCols, w0.trace ++ [.connect .admin,
          .exec .admin ("CREATE DATABASE ".toList ++ dbName), .close .admin, .connect .bench]⟩
        with ⟨marker, rest, _, _, hb⟩ | ⟨tn, _, _, hb⟩ | ⟨_, _, hb⟩ |
          ⟨pf, tagRest, ht, fields, msg, _, _, _, _, hb⟩ |
          ⟨pf, tagRest, ht, fields, st, _, _, _, _, hb⟩
      · right
        rw [hb, deferClose_eq _ _ _ (by simp)]
        exact ⟨[], by simp, by simp⟩
      · right
        rw [hb, deferClose_eq _ _ _ (by simp)]
        exact ⟨[.createTagsTable tn], by simp, by simp⟩
      · right
        rw [hb, deferClose_eq _ _ _ (by simp)]
        exact ⟨[.createTagsTable []], by simp, by simp⟩
      · left
        rw [hb]
        exact ⟨msg, rfl⟩
      · right
        rw [hb]
        rcases mustExecAll_cases db .bench (plannedStmts g ht st) _
            (fun w => ((Outcome.returned none : Outcome (Option Str)), w)) with
          hx | ⟨n, _, hx⟩
        · rw [hx, deferClose_eq _ _ _ (by simp)]
          exact ⟨.createTagsTable (pf :: tagRest) ::
            (plannedStmts g ht st).map (Event.exec .bench), by simp, by simp⟩
        · rw [hx, deferClose_eq _ _ _ (by simp)]
          refine ⟨.createTagsTable (pf :: tagRest) ::
            ((plannedStmts g ht st).take (n + 1)).map (Event.exec .bench), by simp, ?_⟩
          intro a ha c hc
          rcases List.mem_cons.1 ha with rfl | ha
          · cases hc
          · obtain ⟨q, _, rfl⟩ := List.mem_map.1 ha
            cases hc

/-- The witness of C18: the example header, against a database that accepts
everything. -/
theorem connections_closed_witness :
    (∃ out, DBExists acceptAll true "benchmark".toList emptyWorld =
        (out, ⟨emptyWorld.tableCols, emptyWorld.trace ++ [.connect .admin,
          .query .admin "SELECT 1 from pg_database WHERE datname = $1".toList
            "benchmark".toList,
          .close .admin]⟩)) ∧
      (∃ out, RemoveOldDB acceptAll "benchmark".toList emptyWorld =
        (out, ⟨emptyWorld.tableCols, emptyWorld.trace ++ [.connect .admin,
          .exec .admin ("DROP DATABASE IF EXISTS ".toList ++ "benchmark".toList),
          .close .admin]⟩)) ∧
      (∃ rest, (CreateDB exampleGlobals acceptAll exampleHeader "benchmark".toList
          emptyWorld).2.trace = emptyWorld.trace ++ [.connect .admin,
        .exec .admin ("CREATE DATABASE ".toList ++ "benchmark".toList), .close .admin] ++
          rest) ∧
      ((∃ msg, (CreateDB exampleGlobals acceptAll exampleHeader "benchmark".toList
          emptyWorld).1 = .fatal msg) ∨
        ∃ mid, (CreateDB exampleGlobals acceptAll exampleHeader "benchmark".toList
            emptyWorld).2.trace = emptyWorld.trace ++ [.connect .admin,
              .exec .admin ("CREATE DATABASE ".toList ++ "benchmark".toList), .close .admin,
              .connect .bench] ++ mid ++ [.close .bench] ∧
            ∀ e ∈ mid, ∀ c, e ≠ Event.connect c) :=
  ⟨(connections_closed exampleGlobals acceptAll exampleHeader "benchmark".toList emptyWorld
      true).1 rfl,
    (connections_closed exampleGlobals acceptAll exampleHeader "benchmark".toList emptyWorld
      true).2.1 rfl,
    (connections_closed exampleGlobals acceptAll exampleHeader "benchmark".toList emptyWorld
      true).2.2.1 rfl rfl,
    (connections_closed exampleGlobals acceptAll exampleHeader "benchmark".toList emptyWorld
      true).2.2.2 rfl rfl rfl⟩

/-- The counterexample to C18 as stated: with the index type `BOGUS` the example run
ends in `fatal` with the connection to the benchmark database open, the deferred `Close`
not run; and against a database that refuses every statement the run panics at the
`CREATE DATABASE` with the first connection open, its `Close` not being deferred. -/
theorem connections_closed_counterexample :
    CreateDB { exampleGlobals with fieldIndex := "BOGUS".toList } acceptAll exampleHeader
        "benchmark".toList emptyWorld =
        (.fatal "Unknown index type BOGUS".toList,
          ⟨[("cpu".toList, ["usage_user".toList, "usage_system".toList]),
              ("tags".toList, ["hostname".toList, "region".toList])],
            [.connect .admin, .exec .admin "CREATE DATABASE benchmark".toList,
              .close .admin, .connect .bench,
              .createTagsTable ["hostname".toList, "region".toList]]⟩) ∧
      CreateDB exampleGlobals refuseExec exampleHeader "benchmark".toList emptyWorld =
        (.panicked,
          ⟨[], [.connect .admin, .exec .admin "CREATE DATABASE benchmark".toList]⟩) := by
  decide

/-! ## The statements issued on the connection to the benchmark database -/

/-- Every run of `CreateDB` issues, on the connection to the benchmark database, a
beginning of the queries of lines 114-137: none of them when the run ends before line
114, all of them when it returns nil. -/
theorem CreateDB_issued (g : Globals) (db : Oracle) (d : dbCreator) (dbName : Str)
    (w0 : World) :
    ∃ evs issued, (CreateDB g db d dbName w0).2.trace = w0.trace ++ evs ∧
      (∀ q, Event.exec .bench q ∈ evs ↔ q ∈ issued) ∧
      ((issued = [] ∧ (CreateDB g db d dbName w0).1 ≠ .returned none) ∨
        ∃ pf tagRest ht fields st,
          strings.Split (strings.TrimSpace d.tags) ',' = "tags".toList :: pf :: tagRest ∧
          strings.Split (strings.TrimSpace d.cols) ',' = ht :: fields ∧
          CreateDB.loop g ht 0 ((if g.inTableTag then [pf] else []) ++ fields)
            ⟨[], [], 0⟩ = .ok st ∧
          issued <+: plannedStmts g ht st ∧ issued ≠ [] ∧
          ((CreateDB g db d dbName w0).1 = .returned none →
            issued = plannedStmts g ht st)) := by
  rcases CreateDB_run_cases g db d dbName w0 with ⟨evs, e, he⟩ | ⟨m, r, _, _, e⟩ |
    ⟨tn, _, e⟩ | ⟨_, e⟩ | ⟨pf, tr, ht, fs, msg, _, _, _, e⟩ |
    ⟨pf, tr, ht, fs, st, s1, s2, hl, e | ⟨n, hn, e⟩⟩
  · refine ⟨evs, [], by rw [e], ?_, Or.inl ⟨rfl, by rw [e]; simp⟩⟩
    rcases he with rfl | rfl | rfl <;> simp [setupEvents]
  · exact ⟨_, [], by rw [e, List.append_assoc], by simp [setupEvents],
      Or.inl ⟨rfl, by rw [e]; simp⟩⟩
  · exact ⟨_, [], by rw [e, List.append_assoc], by simp [setupEvents],
      Or.inl ⟨rfl, by rw [e]; simp⟩⟩
  · exact ⟨_, [], by rw [e, List.append_assoc], by simp [setupEvents],
      Or.inl ⟨rfl, by rw [e]; simp⟩⟩
  · exact ⟨_, [], by rw [e, List.append_assoc], by simp [setupEvents],
      Or.inl ⟨rfl, by rw [e]; simp⟩⟩
  · refine ⟨setupEvents dbName ++ [.createTagsTable (pf :: tr)] ++
        (plannedStmts g ht st).map (Event.exec .bench) ++ [.close .bench],
      plannedStmts g ht st, by rw [e]; simp, ?_, Or.inr ⟨pf, tr, ht, fs, st, s1, s2, hl,
        List.prefix_refl _, by simp [plannedStmts], fun _ => rfl⟩⟩
    intro q
    simp [setupEvents]
  · refine ⟨setupEvents dbName ++ [.createTagsTable (pf :: tr)] ++
        ((plannedStmts g ht st).take (n + 1)).map (Event.exec .bench) ++ [.close .bench],
      (plannedStmts g ht st).take (n + 1), by rw [e]; simp, ?_,
      Or.inr ⟨pf, tr, ht, fs, st, s1, s2, hl, List.take_prefix _ _, ?_, ?_⟩⟩
    · intro q
      simp [setupEvents]
      rw [← List.map_take]
      exact List.mem_map_of_injective (exec_injective .bench)
    · simp [plannedStmts]
    · intro h
      rw [e] at h
      cases h

/-- The index statements the loop has collected name measured fields that are declared. -/
theorem loop_indexes_declared (g : Globals) (ht pf : Str) (fields : List Str)
    (st : LoopState)
    (h : CreateDB.loop g ht 0 ((if g.inTableTag then [pf] else []) ++ fields) ⟨[], [], 0⟩ =
      .ok st) :
    ∀ q ∈ st.indexes, ∃ f t, f ∈ fields ∧ f ≠ [] ∧ q = indexStmt g ht f t ∧
      f ++ " DOUBLE PRECISION".toList ∈ st.fieldDef := by
  obtain ⟨hdef, hidx⟩ := loop_plan g ht pf fields st h
  intro q hq
  rw [hidx] at hq
  obtain ⟨f, hf, hq⟩ := List.mem_flatMap.1 hq
  obtain ⟨t, _, e⟩ := List.mem_map.1 hq
  have hf' : f ∈ fields ∧ f ≠ [] := by
    rw [List.mem_filter] at hf
    refine ⟨?_, by simpa using hf.2⟩
    have := hf.1
    split at this
    · exact this
    · exact List.mem_of_mem_take this
  refine ⟨f, t, hf'.1, hf'.2, e.symm, ?_⟩
  rw [hdef]
  apply List.mem_append_right
  exact List.mem_map.2 ⟨f, List.mem_filter.2 ⟨hf'.1, by simpa using hf'.2⟩, rfl⟩

theorem indexStmt_ne_paren (g : Globals) (ht f t x : Str) :
    indexStmt g ht f t ≠ "CREATE INDEX ON ".toList ++ ht ++ '(' :: x := by
  unfold indexStmt
  split <;> simp

theorem createTableStmt_ne_index (ht ht' : Str) (defs : List Str) (x : Str) :
    createTableStmt ht defs ≠ "CREATE INDEX ON ".toList ++ ht' ++ x := by
  unfold createTableStmt
  simp

theorem hypertableStmts_ne_index (g : Globals) (ht ht' x q : Str)
    (hq : q ∈ hypertableStmts g ht) : q ≠ "CREATE INDEX ON ".toList ++ ht' ++ x := by
  unfold hypertableStmts at hq
  split at hq
  · rcases List.mem_cons.1 hq with h | h
    · rw [h]
      simp
    · rw [List.mem_singleton] at h
      rw [h]
      unfold createHypertableStmt
      simp
  · simp at hq

/-- A statement `CREATE INDEX ON <table>(...)`, with no blank before the parenthesis, is
among the queries of lines 114-137 only as one of the indexes of lines 115-126. -/
theorem mem_plannedStmts_paren (g : Globals) (ht pf : Str) (fields : List Str)
    (st : LoopState)
    (h : CreateDB.loop g ht 0 ((if g.inTableTag then [pf] else []) ++ fields) ⟨[], [], 0⟩ =
      .ok st) (x : Str) :
    "CREATE INDEX ON ".toList ++ ht ++ '(' :: x ∈ plannedStmts g ht st ↔
      "CREATE INDEX ON ".toList ++ ht ++ '(' :: x ∈ tableIndexStmts g ht := by
  unfold plannedStmts
  constructor
  · intro hm
    rcases List.mem_cons.1 hm with hm | hm
    · exact absurd hm.symm (createTableStmt_ne_index _ _ _ _)
    · rcases List.mem_append.1 hm with hm | hm
      · rcases List.mem_append.1 hm with hm | hm
        · exact hm
        · obtain ⟨f, t, _, _, e, _⟩ := loop_indexes_declared g ht pf fields st h _ hm
          exact absurd e.symm (indexStmt_ne_paren _ _ _ _ _)
      · exact absurd rfl (hypertableStmts_ne_index g ht ht _ _ hm)
  · intro hm
    exact List.mem_cons_of_mem _ (List.mem_append_left _ (List.mem_append_left _ hm))

theorem mem_tableIndexStmts (g : Globals) (ht : Str) :
    ("CREATE INDEX ON ".toList ++ ht ++ "(\"time\" DESC)".toList ∈ tableIndexStmts g ht ↔
        g.timeIndex = true ∧ g.timePartitionIndex = false) ∧
      ("CREATE INDEX ON ".toList ++ ht ++ "(\"time\" DESC, tags_id)".toList ∈
          tableIndexStmts g ht ↔ g.timePartitionIndex = true) ∧
      ("CREATE INDEX ON ".toList ++ ht ++ "(tags_id, \"time\" DESC)".toList ∈
          tableIndexStmts g ht ↔ g.partitionIndex = true) := by
  unfold tableIndexStmts
  cases g.partitionIndex <;> cases g.timePartitionIndex <;> cases g.timeIndex <;> simp

/-- C11 (as amended): in every run of `CreateDB` the index on `("time" DESC)` alone is
issued only with `timeIndex` set and `timePartitionIndex` not set, so never in a run that
issues the index on `("time" DESC, tags_id)`; and in a run that returns nil it is issued
exactly then, the index on `("time" DESC, tags_id)` exactly with `timePartitionIndex`,
and the index on `(tags_id, "time" DESC)` exactly with `partitionIndex`, whatever the
other two flags are. -/
theorem CreateDB_time_index (g : Globals) (db : Oracle) (d : dbCreator) (dbName : Str)
    (w0 : World) (ht : Str) (fields : List Str)
    (hcols : strings.Split (strings.TrimSpace d.cols) ',' = ht :: fields) :
    ∃ evs, (CreateDB g db d dbName w0).2.trace = w0.trace ++ evs ∧
      (Event.exec .bench ("CREATE INDEX ON ".toList ++ ht ++ "(\"time\" DESC)".toList) ∈ evs →
        g.timeIndex = true ∧ g.timePartitionIndex = false ∧
          Event.exec .bench
            ("CREATE INDEX ON ".toList ++ ht ++ "(\"time\" DESC, tags_id)".toList) ∉ evs) ∧
      ((CreateDB g db d dbName w0).1 = .returned none →
        (Event.exec .bench
            ("CREATE INDEX ON ".toList ++ ht ++ "(\"time\" DESC)".toList) ∈ evs ↔
          g.timeIndex = true ∧ g.timePartitionIndex = false) ∧
        (Event.exec .bench
            ("CREATE INDEX ON ".toList ++ ht ++ "(\"time\" DESC, tags_id)".toList) ∈ evs ↔
          g.timePartitionIndex = true) ∧
        (Event.exec .bench
            ("CREATE INDEX ON ".toList ++ ht ++ "(tags_id, \"time\" DESC)".toList) ∈ evs ↔
          g.partitionIndex = true)) := by
  obtain ⟨evs, issued, ht', hmem, hcase⟩ := CreateDB_issued g db d dbName w0
  refine ⟨evs, ht', ?_, ?_⟩
  · intro h
    rw [hmem] at h
    rcases hcase with ⟨hnil, _⟩ | ⟨pf, tr, ht2, fs, st, _, s2, hl, hpre, _, _⟩
    · rw [hnil] at h
      cases h
    · rw [hcols] at s2
      simp only [List.cons.injEq] at s2
      obtain ⟨rfl, rfl⟩ := s2
      have h1 := (mem_plannedStmts_paren g ht pf fields st hl "\"time\" DESC)".toList).1
        (hpre.subset h)
      obtain ⟨ha, hb⟩ := (mem_tableIndexStmts g ht).1.1 h1
      refine ⟨ha, hb, ?_⟩
      intro h2
      rw [hmem] at h2
      have h3 := (mem_plannedStmts_paren g ht pf fields st hl
        "\"time\" DESC, tags_id)".toList).1 (hpre.subset h2)
      have := (mem_tableIndexStmts g ht).2.1.1 h3
      rw [hb] at this
      cases this
  · intro hret
    rcases hcase with ⟨_, hne⟩ | ⟨pf, tr, ht2, fs, st, _, s2, hl, _, _, hall⟩
    · exact absurd hret hne
    · rw [hcols] at s2
      simp only [List.cons.injEq] at s2
      obtain ⟨rfl, rfl⟩ := s2
      have hi := hall hret
      subst hi
      refine ⟨?_, ?_, ?_⟩
      · rw [hmem]
        exact (mem_plannedStmts_paren g ht pf fields st hl "\"time\" DESC)".toList).trans
          (mem_tableIndexStmts g ht).1
      · rw [hmem]
        exact (mem_plannedStmts_paren g ht pf fields st hl
          "\"time\" DESC, tags_id)".toList).trans (mem_tableIndexStmts g ht).2.1
      · rw [hmem]
        exact (mem_plannedStmts_paren g ht pf fields st hl
          "tags_id, \"time\" DESC)".toList).trans (mem_tableIndexStmts g ht).2.2

/-- The witness of C11: the example run, with `partitionIndex` and `timeIndex` set. -/
theorem CreateDB_time_index_witness :
    ∃ evs, (CreateDB exampleGlobals acceptAll exampleHeader "benchmark".toList
          emptyWorld).2.trace = emptyWorld.trace ++ evs ∧
      (Event.exec .bench ("CREATE INDEX ON ".toList ++ "cpu".toList ++
            "(\"time\" DESC)".toList) ∈ evs →
        exampleGlobals.timeIndex = true ∧ exampleGlobals.timePartitionIndex = false ∧
          Event.exec .bench ("CREATE INDEX ON ".toList ++ "cpu".toList ++
            "(\"time\" DESC, tags_id)".toList) ∉ evs) ∧
      ((CreateDB exampleGlobals acceptAll exampleHeader "benchmark".toList emptyWorld).1 =
          .returned none →
        (Event.exec .bench ("CREATE INDEX ON ".toList ++ "cpu".toList ++
            "(\"time\" DESC)".toList) ∈ evs ↔
          exampleGlobals.timeIndex = true ∧ exampleGlobals.timePartitionIndex = false) ∧
        (Event.exec .bench ("CREATE INDEX ON ".toList ++ "cpu".toList ++
            "(\"time\" DESC, tags_id)".toList) ∈ evs ↔
          exampleGlobals.timePartitionIndex = true) ∧
        (Event.exec .bench ("CREATE INDEX ON ".toList ++ "cpu".toList ++
            "(tags_id, \"time\" DESC)".toList) ∈ evs ↔
          exampleGlobals.partitionIndex = true)) :=
  CreateDB_time_index exampleGlobals acceptAll exampleHeader "benchmark".toList emptyWorld
    "cpu".toList ["usage_user".toList, "usage_system".toList] (by decide)

/-- The counterexample to C11 as stated: with `partitionIndex` and `timeIndex` set and
`timePartitionIndex` not set, one run issues the index on `(tags_id, "time" DESC)` and
the index on `("time" DESC)` alone. -/
theorem CreateDB_time_index_counterexample :
    CreateDB
        { exampleGlobals with
          inTableTag := false, fieldIndex := [], fieldIndexCount := 0,
          partitionIndex := true, timePartitionIndex := false, timeIndex := true,
          useHypertable := false }
        acceptAll ⟨"tags,host".toList, "cpu,a".toList, []⟩ "benchmark".toList emptyWorld =
      (.returned none,
        ⟨[("cpu".toList, ["a".toList]), ("tags".toList, ["host".toList])],
          [.connect .admin, .exec .admin "CREATE DATABASE benchmark".toList, .close .admin,
            .connect .bench, .createTagsTable ["host".toList],
            .exec .bench
              "CREATE TABLE cpu (time timestamptz, tags_id integer, a DOUBLE PRECISION)".toList,
            .exec .bench "CREATE INDEX ON cpu(tags_id, \"time\" DESC)".toList,
            .exec .bench "CREATE INDEX ON cpu(\"time\" DESC)".toList,
            .close .bench]⟩) := by
  decide

/-- C14: in every run of `CreateDB`, the statements issued on the connection to the
benchmark database are a beginning of: the `CREATE TABLE` of the table named in the
column line, the table-level indexes, the per-field index statements and the hypertable
statements. Each per-field index statement is on that table and on a non-empty measured
field of the column line whose definition is in that `CREATE TABLE`, which, being the
first of them, has been issued when any of them has. -/
theorem CreateDB_index_columns (g : Globals) (db : Oracle) (d : dbCreator) (dbName : Str)
    (w0 : World) :
    ∃ evs issued, (CreateDB g db d dbName w0).2.trace = w0.trace ++ evs ∧
      (∀ q, Event.exec .bench q ∈ evs ↔ q ∈ issued) ∧
      (issued = [] ∨
        ∃ (ht : Str) (fields defs idxs : List Str),
          strings.Split (strings.TrimSpace d.cols) ',' = ht :: fields ∧
          issued <+: ("CREATE TABLE ".toList ++ ht ++
              " (time timestamptz, tags_id integer, ".toList ++ strings.Join defs ",".toList ++
              ")".toList) :: (tableIndexStmts g ht ++ idxs ++ hypertableStmts g ht) ∧
          "CREATE TABLE ".toList ++ ht ++ " (time timestamptz, tags_id integer, ".toList ++
            strings.Join defs ",".toList ++ ")".toList ∈ issued ∧
          ∀ q ∈ idxs, ∃ f, f ∈ fields ∧ f ≠ [] ∧
            (q = "CREATE INDEX ON ".toList ++ ht ++ " (time DESC, ".toList ++ f ++
                ")".toList ∨
              q = "CREATE INDEX ON ".toList ++ ht ++ " (".toList ++ f ++
                ", time DESC)".toList) ∧
            f ++ " DOUBLE PRECISION".toList ∈ defs) := by
  obtain ⟨evs, issued, ht', hmem, hcase⟩ := CreateDB_issued g db d dbName w0
  refine ⟨evs, issued, ht', hmem, ?_⟩
  rcases hcase with ⟨hnil, _⟩ | ⟨pf, tr, ht, fs, st, _, s2, hl, hpre, hne, _⟩
  · exact Or.inl hnil
  · right
    refine ⟨ht, fs, st.fieldDef, st.indexes, s2, hpre, ?_, ?_⟩
    · cases issued with
      | nil => exact absurd rfl hne
      | cons a l =>
        have := (List.cons_prefix_cons.1 hpre).1
        rw [this]
        exact List.mem_cons_self _ _
    · intro q hq
      obtain ⟨f, t, h1, h2, h3, h4⟩ := loop_indexes_declared g ht pf fs st hl q hq
      refine ⟨f, h1, h2, ?_, h4⟩
      rw [h3]
      unfold indexStmt
      split
      · exact Or.inl rfl
      · exact Or.inr rfl

/-- The witness of C14: the example run. -/
theorem CreateDB_index_columns_witness :
    ∃ evs issued, (CreateDB exampleGlobals acceptAll exampleHeader "benchmark".toList
          emptyWorld).2.trace = emptyWorld.trace ++ evs ∧
      (∀ q, Event.exec .bench q ∈ evs ↔ q ∈ issued) ∧
      (issued = [] ∨
        ∃ (ht : Str) (fields defs idxs : List Str),
          strings.Split (strings.TrimSpace exampleHeader.cols) ',' = ht :: fields ∧
          issued <+: ("CREATE TABLE ".toList ++ ht ++
              " (time timestamptz, tags_id integer, ".toList ++ strings.Join defs ",".toList ++
              ")".toList) ::
            (tableIndexStmts exampleGlobals ht ++ idxs ++ hypertableStmts exampleGlobals ht) ∧
          "CREATE TABLE ".toList ++ ht ++ " (time timestamptz, tags_id integer, ".toList ++
            strings.Join defs ",".toList ++ ")".toList ∈ issued ∧
          ∀ q ∈ idxs, ∃ f, f ∈ fields ∧ f ≠ [] ∧
            (q = "CREATE INDEX ON ".toList ++ ht ++ " (time DESC, ".toList ++ f ++
                ")".toList ∨
              q = "CREATE INDEX ON ".toList ++ ht ++ " (".toList ++ f ++
                ", time DESC)".toList) ∧
            f ++ " DOUBLE PRECISION".toList ∈ defs) :=
  CreateDB_index_columns exampleGlobals acceptAll exampleHeader "benchmark".toList emptyWorld

/-! ## The hypertable -/

theorem not_hypertable_stmt (q : Str)
    (h : (∃ x, q = "CREATE TABLE ".toList ++ x) ∨ (∃ x, q = "CREATE INDEX ON ".toList ++ x) ∨
      ∃ x, q = "CREATE DATABASE ".toList ++ x) :
    q ≠ "CREATE EXTENSION IF NOT EXISTS timescaledb CASCADE".toList ∧
      ¬ ("SELECT create_hypertable(".toList <+: q) := by
  rcases h with ⟨x, rfl⟩ | ⟨x, rfl⟩ | ⟨x, rfl⟩
  · refine ⟨by simp, ?_⟩
    rintro ⟨t, ht⟩
    simp at ht
  · refine ⟨by simp, ?_⟩
    rintro ⟨t, ht⟩
    simp at ht
  · refine ⟨by simp, ?_⟩
    rintro ⟨t, ht⟩
    simp at ht

theorem tableIndexStmts_form (g : Globals) (ht q : Str) (hq : q ∈ tableIndexStmts g ht) :
    ∃ x, q = "CREATE INDEX ON ".toList ++ x := by
  unfold tableIndexStmts at hq
  rcases List.mem_append.1 hq with h | h
  · split at h
    · rw [List.mem_singleton] at h
      exact ⟨_, by rw [h, List.append_assoc]⟩
    · simp at h
  · split at h
    · rw [List.mem_singleton] at h
      exact ⟨_, by rw [h, List.append_assoc]⟩
    · split at h
      · rw [List.mem_singleton] at h
        exact ⟨_, by rw [h, List.append_assoc]⟩
      · simp at h

theorem indexStmt_form (g : Globals) (ht f t : Str) :
    ∃ x, indexStmt g ht f t = "CREATE INDEX ON ".toList ++ x := by
  unfold indexStmt
  split
  · exact ⟨_, by rw [List.append_assoc, List.append_assoc, List.append_assoc]⟩
  · exact ⟨_, by rw [List.append_assoc, List.append_assoc, List.append_assoc]⟩

/-- C12: when `CreateDB` returns nil with `useHypertable` set, the last two statements
of the run are `CREATE EXTENSION IF NOT EXISTS timescaledb CASCADE` and the call of
`create_hypertable` on the table named in the column line, with the time column `time`,
the partitioning column `tags_id`, `numberPartitions` partitions and a chunk interval of
the nanoseconds of `chunkTime` divided by 1000, truncated; no statement before them is
one of the two, and without `useHypertable` the run ends after those earlier
statements. -/
theorem CreateDB_hypertable (g : Globals) (db : Oracle) (d : dbCreator) (dbName : Str)
    (w0 w : World) (h : CreateDB g db d dbName w0 = (.returned none, w)) :
    ∃ (pf : Str) (tagRest : List Str) (ht : Str) (fields : List Str) (earlier : List Event),
      strings.Split (strings.TrimSpace d.tags) ',' = "tags".toList :: pf :: tagRest ∧
      strings.Split (strings.TrimSpace d.cols) ',' = ht :: fields ∧
      (∀ c q, Event.exec c q ∈ earlier →
        q ≠ "CREATE EXTENSION IF NOT EXISTS timescaledb CASCADE".toList ∧
          ¬ ("SELECT create_hypertable(".toList <+: q)) ∧
      (g.useHypertable = true →
        w.trace = w0.trace ++ earlier ++
          [.exec .bench "CREATE EXTENSION IF NOT EXISTS timescaledb CASCADE".toList,
            .exec .bench ("SELECT create_hypertable(\x27".toList ++ ht ++
              ("\x27::regclass, \x27time\x27::name, partitioning_column => " ++
                "\x27tags_id\x27::name, number_partitions => ").toList ++
              fmtInt g.numberPartitions ++
              "::smallint, chunk_time_interval => ".toList ++
              fmtInt (g.chunkTimeNanoseconds.tdiv 1000) ++
              ", create_default_indexes=>FALSE)".toList),
            .close .bench]) ∧
      (g.useHypertable = false → w.trace = w0.trace ++ earlier ++ [.close .bench]) := by
  obtain ⟨pf, tagRest, ht, fields, st, h1, h2, h3, _, h5⟩ :=
    CreateDB_returned_nil g db d dbName w0 w h
  refine ⟨pf, tagRest, ht, fields,
    [.connect .admin, .exec .admin ("CREATE DATABASE ".toList ++ dbName), .close .admin,
      .connect .bench, .createTagsTable (pf :: tagRest)] ++
      (createTableStmt ht st.fieldDef :: tableIndexStmts g ht ++ st.indexes).map
        (Event.exec .bench), h1, h2, ?_, ?_, ?_⟩
  · intro c q hq
    apply not_hypertable_stmt
    rcases List.mem_append.1 hq with hq | hq
    · right; right
      simp only [List.mem_cons, Event.exec.injEq, List.mem_singleton, reduceCtorEq,
        false_or, or_false, List.not_mem_nil] at hq
      exact ⟨dbName, hq.2⟩
    · obtain ⟨q', hq', e⟩ := List.mem_map.1 hq
      cases e
      rcases List.mem_cons.1 hq' with hq' | hq'
      · left
        exact ⟨_, by rw [hq', createTableStmt, List.append_assoc, List.append_assoc,
          List.append_assoc]⟩
      · right; left
        rcases List.mem_append.1 hq' with hq' | hq'
        · exact tableIndexStmts_form g ht q hq'
        · obtain ⟨f, t, _, _, e, _⟩ := loop_indexes_declared g ht pf fields st h3 q hq'
          rw [e]
          exact indexStmt_form g ht f t
  · intro hu
    rw [h5]
    simp [hypertableStmts, hu, createHypertableStmt]
  · intro hu
    rw [h5]
    simp [hypertableStmts, hu]

/-- The witness of C12: the example run, with four partitions and chunks of eight hours,
that is 28800000000 microseconds; and the truncation of 1999 and of -1999 nanoseconds. -/
theorem CreateDB_hypertable_witness :
    ((CreateDB exampleGlobals acceptAll exampleHeader "benchmark".toList emptyWorld).1 =
        .returned none ∧
      createHypertableStmt exampleGlobals "cpu".toList =
        ("SELECT create_hypertable(\x27cpu\x27::regclass, \x27time\x27::name, " ++
          "partitioning_column => \x27tags_id\x27::name, number_partitions => 4::smallint, " ++
          "chunk_time_interval => 28800000000, create_default_indexes=>FALSE)").toList ∧
      fmtInt ((1999 : Int).tdiv 1000) = "1".toList ∧
      fmtInt ((-1999 : Int).tdiv 1000) = "-1".toList) ∧
    ∃ (pf : Str) (tagRest : List Str) (ht : Str) (fields : List Str) (earlier : List Event),
      strings.Split (strings.TrimSpace exampleHeader.tags) ',' =
        "tags".toList :: pf :: tagRest ∧
      strings.Split (strings.TrimSpace exampleHeader.cols) ',' = ht :: fields ∧
      (∀ c q, Event.exec c q ∈ earlier →
        q ≠ "CREATE EXTENSION IF NOT EXISTS timescaledb CASCADE".toList ∧
          ¬ ("SELECT create_hypertable(".toList <+: q)) ∧
      (exampleGlobals.useHypertable = true →
        exampleWorld.trace = emptyWorld.trace ++ earlier ++
          [.exec .bench "CREATE EXTENSION IF NOT EXISTS timescaledb CASCADE".toList,
            .exec .bench ("SELECT create_hypertable(\x27".toList ++ ht ++
              ("\x27::regclass, \x27time\x27::name, partitioning_column => " ++
                "\x27tags_id\x27::name, number_partitions => ").toList ++
              fmtInt exampleGlobals.numberPartitions ++
              "::smallint, chunk_time_interval => ".toList ++
              fmtInt (exampleGlobals.chunkTimeNanoseconds.tdiv 1000) ++
              ", create_default_indexes=>FALSE)".toList),
            .close .bench]) ∧
      (exampleGlobals.useHypertable = false →
        exampleWorld.trace = emptyWorld.trace ++ earlier ++ [.close .bench]) :=
  ⟨by decide,
    CreateDB_hypertable exampleGlobals acceptAll exampleHeader "benchmark".toList emptyWorld
      exampleWorld (Prod.ext (by decide) rfl)⟩

/-! ## The scenario of the specification -/

theorem mustExecAll_acceptAll {α : Type} (c : Conn) (qs : List Str) (w : World)
    (k : World → Outcome α × World) :
    mustExecAll acceptAll c qs w k = k ⟨w.tableCols, w.trace ++ qs.map (Event.exec c)⟩ := by
  induction qs generalizing w with
  | nil => simp [mustExecAll]
  | cons q qs ih =>
    unfold mustExecAll must
    simp only [acceptAll, if_true]
    rw [ih]
    simp [record]

theorem indexStmts_single (g : Globals) (ht f : Str) (htv : g.timeValueIdx ≠ [])
    (hc : ',' ∉ g.timeValueIdx) :
    indexStmts g ht f g.timeValueIdx =
      ["CREATE INDEX ON ".toList ++ ht ++ " (time DESC, ".toList ++ f ++ ")".toList] := by
  unfold indexStmts
  rw [Split_of_not_mem _ _ hc]
  simp [htv, indexStmt]

/-- C13: `readDataHeader` on the header `tags,hostname,region`, `cpu,usage_user,
usage_system` and a blank line stores the two lines and leaves nothing unread; and
`CreateDB` on them, with `inTableTag` off, `fieldIndexCount = -1`, the time-major token
as `fieldIndex` and `useHypertable` on, against a database that accepts everything,
returns nil with `tags` and `cpu` registered, after the tags table of `hostname` and
`region`, the `CREATE TABLE` of `cpu` with the two fields as `DOUBLE PRECISION`, the
table-level indexes the other flags ask for, the two time-major index statements, and
the `create_hypertable` call on `cpu` partitioned on `tags_id`. -/
theorem endToEnd_scenario (g : Globals) (d0 : dbCreator) (dbName : Str)
    (hin : g.inTableTag = false) (hk : g.fieldIndexCount = -1)
    (hf : g.fieldIndex = g.timeValueIdx) (hu : g.useHypertable = true)
    (htv : g.timeValueIdx ≠ []) (hc : ',' ∉ g.timeValueIdx) :
    readDataHeader d0 "tags,hostname,region\ncpu,usage_user,usage_system\n\n".toList =
        .ok ({ d0 with tags := "tags,hostname,region".toList,
                       cols := "cpu,usage_user,usage_system".toList }, []) ∧
      CreateDB g acceptAll
          { d0 with tags := "tags,hostname,region".toList,
                    cols := "cpu,usage_user,usage_system".toList } dbName emptyWorld =
        (.returned none,
          ⟨[("cpu".toList, ["usage_user".toList, "usage_system".toList]),
              ("tags".toList, ["hostname".toList, "region".toList])],
            [.connect .admin, .exec .admin ("CREATE DATABASE ".toList ++ dbName),
              .close .admin, .connect .bench,
              .createTagsTable ["hostname".toList, "region".toList],
              .exec .bench ("CREATE TABLE cpu (time timestamptz, tags_id integer, " ++
                "usage_user DOUBLE PRECISION,usage_system DOUBLE PRECISION)").toList] ++
            (tableIndexStmts g "cpu".toList).map (Event.exec .bench) ++
            [.exec .bench "CREATE INDEX ON cpu (time DESC, usage_user)".toList,
              .exec .bench "CREATE INDEX ON cpu (time DESC, usage_system)".toList,
              .exec .bench "CREATE EXTENSION IF NOT EXISTS timescaledb CASCADE".toList,
              .exec .bench ("SELECT create_hypertable(\x27cpu\x27::regclass, ".toList ++
                ("\x27time\x27::name, partitioning_column => \x27tags_id\x27::name, " ++
                  "number_partitions => ").toList ++ fmtInt g.numberPartitions ++
                "::smallint, chunk_time_interval => ".toList ++
                fmtInt (g.chunkTimeNanoseconds.tdiv 1000) ++
                ", create_default_indexes=>FALSE)".toList),
              .close .bench]⟩) := by
  constructor
  · have h := readDataHeader_of_lines d0 "tags,hostname,region".toList
      "cpu,usage_user,usage_system".toList [] [] (by decide) (by decide) (by decide)
      (by decide)
    have e1 : strings.TrimSpace "tags,hostname,region".toList =
        "tags,hostname,region".toList := by decide
    have e2 : strings.TrimSpace "cpu,usage_user,usage_system".toList =
        "cpu,usage_user,usage_system".toList := by decide
    rw [e1, e2] at h
    exact h
  · have hvalid : validSpec g g.fieldIndex := by
      intro t ht
      rw [hf, Split_of_not_mem _ _ hc] at ht
      left
      simpa using ht
    obtain ⟨st, hst⟩ := loop_total g "cpu".toList
      ((if g.inTableTag then ["hostname".toList] else []) ++
        ["usage_user".toList, "usage_system".toList]) 0 ⟨[], [], 0⟩ hvalid
    obtain ⟨hdef, hidx⟩ := loop_plan g "cpu".toList "hostname".toList
      ["usage_user".toList, "usage_system".toList] st hst
    have hs1 : strings.Split (strings.TrimSpace "tags,hostname,region".toList) ',' =
        ["tags".toList, "hostname".toList, "region".toList] := by decide
    have hs2 : strings.Split (strings.TrimSpace "cpu,usage_user,usage_system".toList) ',' =
        ["cpu".toList, "usage_user".toList, "usage_system".toList] := by decide
    rcases CreateDB_cases g acceptAll
        { d0 with tags := "tags,hostname,region".toList,
                  cols := "cpu,usage_user,usage_system".toList } dbName emptyWorld with
      ⟨h1, _⟩ | ⟨_, h2, _⟩ | ⟨_, _, h3, _⟩ | ⟨_, _, _, e⟩
    · cases h1
    · cases h2
    · cases h3
    · rw [e]
      rcases CreateDB_body_cases g acceptAll
          { d0 with tags := "tags,hostname,region".toList,
                    cols := "cpu,usage_user,usage_system".toList }
          ⟨emptyWorld.tableCols, emptyWorld.trace ++ [.connect .admin,
            .exec .admin ("CREATE DATABASE ".toList ++ dbName), .close .admin,
            .connect .bench]⟩
        with ⟨marker, rest, s1, s2, _⟩ | ⟨tn, _, hdb, _⟩ | ⟨s1, _, _⟩ |
          ⟨pf, tagRest, ht, fields, msg, s1, s2, _, hl, _⟩ |
          ⟨pf, tagRest, ht, fields, st', s1, s2, _, hl, hb⟩
      · rw [hs1] at s1
        simp only [List.cons.injEq] at s1
        exact absurd s1.1.symm s2
      · cases hdb
      · rw [hs1] at s1
        simp at s1
      · rw [hs1] at s1
        rw [hs2] at s2
        simp only [List.cons.injEq, true_and] at s1 s2
        obtain ⟨rfl, rfl⟩ := s1
        obtain ⟨rfl, rfl⟩ := s2
        rw [hst] at hl
        cases hl
      · rw [hs1] at s1
        rw [hs2] at s2
        simp only [List.cons.injEq, true_and] at s1 s2
        obtain ⟨rfl, rfl⟩ := s1
        obtain ⟨rfl, rfl⟩ := s2
        rw [hst] at hl
        cases hl
        rw [hb, mustExecAll_acceptAll, deferClose_eq _ _ _ (by simp)]
        have hidx' : st.indexes =
            ["CREATE INDEX ON cpu (time DESC, usage_user)".toList,
              "CREATE INDEX ON cpu (time DESC, usage_system)".toList] := by
          rw [hidx, hk, hf]
          simp [indexStmts_single g _ _ htv hc]
        have hdef' : st.fieldDef =
            ["usage_user DOUBLE PRECISION".toList, "usage_system DOUBLE PRECISION".toList] := by
          rw [hdef, hin]
          simp
        simp [plannedStmts, hidx', hdef', hypertableStmts, hu, createTableStmt,
          createHypertableStmt, strings.Join, emptyWorld, mapSet]

/-- The witness of C13: the scenario with the constants `TIME-VALUE` and `VALUE-TIME`,
the database name `benchmark`, and the table-level flags of the example. -/
theorem endToEnd_scenario_witness :
    readDataHeader ⟨[], [], []⟩
        "tags,hostname,region\ncpu,usage_user,usage_system\n\n".toList =
        .ok ({ (⟨[], [], []⟩ : dbCreator) with
                tags := "tags,hostname,region".toList,
                cols := "cpu,usage_user,usage_system".toList }, []) ∧
      CreateDB scenarioGlobals acceptAll
          { (⟨[], [], []⟩ : dbCreator) with
            tags := "tags,hostname,region".toList,
            cols := "cpu,usage_user,usage_system".toList } "benchmark".toList emptyWorld =
        (.returned none,
          ⟨[("cpu".toList, ["usage_user".toList, "usage_system".toList]),
              ("tags".toList, ["hostname".toList, "region".toList])],
            [.connect .admin, .exec .admin ("CREATE DATABASE ".toList ++ "benchmark".toList),
              .close .admin, .connect .bench,
              .createTagsTable ["hostname".toList, "region".toList],
              .exec .bench ("CREATE TABLE cpu (time timestamptz, tags_id integer, " ++
                "usage_user DOUBLE PRECISION,usage_system DOUBLE PRECISION)").toList] ++
            (tableIndexStmts scenarioGlobals "cpu".toList).map (Event.exec .bench) ++
            [.exec .bench "CREATE INDEX ON cpu (time DESC, usage_user)".toList,
              .exec .bench "CREATE INDEX ON cpu (time DESC, usage_system)".toList,
              .exec .bench "CREATE EXTENSION IF NOT EXISTS timescaledb CASCADE".toList,
              .exec .bench ("SELECT create_hypertable(\x27cpu\x27::regclass, ".toList ++
                ("\x27time\x27::name, partitioning_column => \x27tags_id\x27::name, " ++
                  "number_partitions => ").toList ++ fmtInt scenarioGlobals.numberPartitions ++
                "::smallint, chunk_time_interval => ".toList ++
                fmtInt (scenarioGlobals.chunkTimeNanoseconds.tdiv 1000) ++
                ", create_default_indexes=>FALSE)".toList),
              .close .bench]⟩) :=
  endToEnd_scenario scenarioGlobals ⟨[], [], []⟩ "benchmark".toList rfl rfl rfl rfl
    (by decide) (by decide)

/-! ## The offset of the in-table tag -/

/-- With a `fieldIndexCount` below the largest `int`, the limit moved up by one and one
position taken off selects the same measured fields as the limit itself. -/
theorem selection_offset (g : Globals) (fields : List Str)
    (h1 : -2 ^ 63 ≤ g.fieldIndexCount) (h2 : g.fieldIndexCount + 1 < 2 ^ 63) :
    (if g.fieldIndexCount = -1 then fields
        else fields.take ((wrapInt (g.fieldIndexCount + 1)).toNat - 1)).filter
          (fun f => f ≠ []) =
      (if g.fieldIndexCount = -1 then fields
        else fields.take (wrapInt g.fieldIndexCount).toNat).filter (fun f => f ≠ []) := by
  by_cases hk : g.fieldIndexCount = -1
  · simp [hk]
  · simp only [hk, if_false]
    rw [wrapInt_of_range _ (by omega) (by omega), wrapInt_of_range _ h1 (by omega)]
    have e : (g.fieldIndexCount + 1).toNat - 1 = g.fieldIndexCount.toNat := by omega
    rw [e]

/-- C19, at the input where the code fails: with `fieldIndexCount` the largest `int`, the
sum `fieldIndexCount+extraCols` of the run with the tag in the table wraps around, and
that run issues no index statement, where the run without the tag in the table issues the
index on `usage`. -/
theorem CreateDB_offset_overflow :
    CreateDB
        { exampleGlobals with
          inTableTag := true, fieldIndex := "TIME-VALUE".toList, fieldIndexCount := maxInt,
          partitionIndex := false, timeIndex := false, useHypertable := false }
        acceptAll ⟨"tags,hostname".toList, "cpu,usage".toList, []⟩ "benchmark".toList
        emptyWorld =
      (.returned none,
        ⟨[("cpu".toList, ["usage".toList]), ("tags".toList, ["hostname".toList])],
          [.connect .admin, .exec .admin "CREATE DATABASE benchmark".toList, .close .admin,
            .connect .bench, .createTagsTable ["hostname".toList],
            .exec .bench ("CREATE TABLE cpu (time timestamptz, tags_id integer, " ++
              "hostname TEXT,usage DOUBLE PRECISION)").toList,
            .close .bench]⟩) ∧
      CreateDB
        { exampleGlobals with
          inTableTag := false, fieldIndex := "TIME-VALUE".toList, fieldIndexCount := maxInt,
          partitionIndex := false, timeIndex := false, useHypertable := false }
        acceptAll ⟨"tags,hostname".toList, "cpu,usage".toList, []⟩ "benchmark".toList
        emptyWorld =
      (.returned none,
        ⟨[("cpu".toList, ["usage".toList]), ("tags".toList, ["hostname".toList])],
          [.connect .admin, .exec .admin "CREATE DATABASE benchmark".toList, .close .admin,
            .connect .bench, .createTagsTable ["hostname".toList],
            .exec .bench ("CREATE TABLE cpu (time timestamptz, tags_id integer, " ++
              "usage DOUBLE PRECISION)").toList,
            .exec .bench "CREATE INDEX ON cpu (time DESC, usage)".toList,
            .close .bench]⟩) := by
  decide

theorem loop_measured_ok (g : Globals) (ht : Str) (l : List Str) (idx : Nat)
    (st : LoopState) (hphase : g.inTableTag = false ∨ 1 ≤ idx)
    (hsel : (if g.fieldIndexCount = -1 then l
        else l.take ((wrapInt (g.fieldIndexCount + st.extraCols)).toNat - idx)).filter
          (fun f => f ≠ []) = []) :
    ∃ st', CreateDB.loop g ht idx l st = .ok st' := by
  induction l generalizing idx st with
  | nil => exact ⟨st, rfl⟩
  | cons field rest ih =>
    have hin : (g.inTableTag && idx == 0) = false := by
      rcases hphase with hp | hp
      · simp [hp]
      · have : idx ≠ 0 := by omega
        simp [this]
    unfold CreateDB.loop
    by_cases hf : field = []
    · subst hf
      simp only [List.length_nil, if_true]
      apply ih (idx + 1) st (Or.inr (by omega))
      by_cases hk : g.fieldIndexCount = -1
      · simpa [hk] using hsel
      · simp only [hk, if_false] at hsel ⊢
        rw [take_filter_cons_nil] at hsel
        have e : (wrapInt (g.fieldIndexCount + st.extraCols)).toNat - (idx + 1) =
            (wrapInt (g.fieldIndexCount + st.extraCols)).toNat - idx - 1 := by omega
        rw [e]
        exact hsel
    · have hlen : ¬ field.length = 0 := fun hl => hf (List.length_eq_zero.1 hl)
      simp only [hlen, if_false, hin, Bool.false_eq_true]
      by_cases hc : g.fieldIndexCount = -1 ∨
          (idx : Int) < wrapInt (g.fieldIndexCount + st.extraCols)
      · exfalso
        by_cases hk : g.fieldIndexCount = -1
        · simp [hk, hf] at hsel
        · have hlt : (idx : Int) < wrapInt (g.fieldIndexCount + st.extraCols) := by
            rcases hc with hc | hc
            · exact absurd hc hk
            · exact hc
          obtain ⟨m, hm⟩ : ∃ m, (wrapInt (g.fieldIndexCount + st.extraCols)).toNat - idx =
              m + 1 := ⟨(wrapInt (g.fieldIndexCount + st.extraCols)).toNat - idx - 1, by omega⟩
          simp [hk, hm, hf] at hsel
      · rw [if_neg hc]
        apply ih (idx + 1) _ (Or.inr (by omega))
        push_neg at hc
        have e1 : (wrapInt (g.fieldIndexCount + st.extraCols)).toNat - (idx + 1) = 0 := by
          omega
        simp [hc.1, e1]

theorem loop_ok_of_none_indexed (g : Globals) (ht pf : Str) (fields : List Str)
    (hsel : (if g.fieldIndexCount = -1 then fields
        else fields.take
          ((wrapInt (g.fieldIndexCount +
              (if g.inTableTag = true ∧ pf ≠ [] then 1 else 0))).toNat -
            (if g.inTableTag = true then 1 else 0))).filter (fun f => f ≠ []) = []) :
    ∃ st, CreateDB.loop g ht 0 ((if g.inTableTag then [pf] else []) ++ fields)
      ⟨[], [], 0⟩ = .ok st := by
  cases hin : g.inTableTag with
  | false =>
    rw [hin] at hsel
    simp only [Bool.false_eq_true, if_false, List.nil_append, false_and] at hsel ⊢
    exact loop_measured_ok g ht fields 0 _ (Or.inl hin) (by simpa using hsel)
  | true =>
    rw [hin] at hsel
    simp only [if_true, List.singleton_append, true_and] at hsel ⊢
    unfold CreateDB.loop
    by_cases hpf : pf = []
    · subst hpf
      simp only [List.length_nil, if_true]
      simp only [ne_eq, not_true_eq_false, if_false] at hsel
      exact loop_measured_ok g ht fields 1 _ (Or.inr (le_refl 1)) (by simpa using hsel)
    · have hlen : ¬ pf.length = 0 := fun hl => hpf (List.length_eq_zero.1 hl)
      simp only [ne_eq, hpf, not_false_eq_true, if_true] at hsel
      simp only [hlen, if_false, hin, Bool.true_and, beq_self_eq_true, if_true,
        getCreateIndexOnFieldCmds_nil, List.append_nil, ite_self]
      exact loop_measured_ok g ht fields 1 _ (Or.inr (le_refl 1)) (by simpa using hsel)

/-- The loop of `CreateDB` ends in `fatal` exactly when `fieldIndex` has an unknown
token and the loop finds a non-empty measured field at a position below
`fieldIndexCount+extraCols` (any non-empty measured field with `fieldIndexCount = -1`). -/
theorem loop_error_iff (g : Globals) (ht pf : Str) (fields : List Str) :
    (∃ msg, CreateDB.loop g ht 0 ((if g.inTableTag then [pf] else []) ++ fields)
        ⟨[], [], 0⟩ = .error msg) ↔
      (∃ t ∈ strings.Split g.fieldIndex ',',
          t ≠ [] ∧ t ≠ g.timeValueIdx ∧ t ≠ g.valueTimeIdx) ∧
        (if g.fieldIndexCount = -1 then fields
        else fields.take
          ((wrapInt (g.fieldIndexCount +
              (if g.inTableTag = true ∧ pf ≠ [] then 1 else 0))).toNat -
            (if g.inTableTag = true then 1 else 0))).filter (fun f => f ≠ []) ≠ [] := by
  constructor
  · rintro ⟨msg, hm⟩
    constructor
    · rcases validSpec_or_bad g g.fieldIndex with hv | hb
      · obtain ⟨st, hst⟩ := loop_total g ht ((if g.inTableTag then [pf] else []) ++ fields)
          0 ⟨[], [], 0⟩ hv
        rw [hst] at hm
        cases hm
      · exact hb
    · intro hsel
      obtain ⟨st, hst⟩ := loop_ok_of_none_indexed g ht pf fields hsel
      rw [hst] at hm
      cases hm
  · rintro ⟨hb, hsel⟩
    exact loop_fatal g ht pf fields hb hsel

/-- Below the largest `int`, the offset makes up for the tag in the table: for a
non-empty first tag name the loop of `CreateDB` ends in `fatal` with the tag in the table
exactly when it does without, and otherwise collects the same index statements. -/
theorem loop_offset (g : Globals) (ht pf : Str) (fields : List Str) (hpf : pf ≠ [])
    (h1 : -2 ^ 63 ≤ g.fieldIndexCount) (h2 : g.fieldIndexCount + 1 < 2 ^ 63) :
    ((∃ msg, CreateDB.loop { g with inTableTag := true } ht 0 ([pf] ++ fields)
          ⟨[], [], 0⟩ = .error msg) ↔
        ∃ msg, CreateDB.loop { g with inTableTag := false } ht 0 ([] ++ fields)
          ⟨[], [], 0⟩ = .error msg) ∧
      ∀ st st', CreateDB.loop { g with inTableTag := true } ht 0 ([pf] ++ fields)
          ⟨[], [], 0⟩ = .ok st →
        CreateDB.loop { g with inTableTag := false } ht 0 ([] ++ fields) ⟨[], [], 0⟩ =
          .ok st' →
        st.indexes = st'.indexes := by
  have hsel := selection_offset g fields h1 h2
  have e1 := loop_error_iff { g with inTableTag := true } ht pf fields
  have e2 := loop_error_iff { g with inTableTag := false } ht pf fields
  simp only [if_true, Bool.false_eq_true, if_false, List.singleton_append, List.nil_append,
    true_and, hpf, ne_eq, not_false_eq_true, false_and, add_zero, Nat.sub_zero] at e1 e2
  constructor
  · rw [List.singleton_append, List.nil_append, e1, e2, hsel]
  · intro st st' hs hs'
    have p1 := (loop_plan { g with inTableTag := true } ht pf fields st
      (by simpa using hs)).2
    have p2 := (loop_plan { g with inTableTag := false } ht pf fields st'
      (by simpa using hs')).2
    simp only [if_true, Bool.false_eq_true, if_false, true_and, hpf, ne_eq,
      not_false_eq_true, false_and, add_zero, Nat.sub_zero] at p1 p2
    exact p1.trans ((congrArg
      (fun l => List.flatMap l (fun f => indexStmts g ht f g.fieldIndex)) hsel).trans p2.symm)


/-! ## The registry of table columns -/

/-- The database `tagsTableOnce` follows the rule `refusesSecondTagsTable`. -/
theorem tagsTableOnce_refuses : refusesSecondTagsTable tagsTableOnce := by
  intro h tagNames fieldDef _
  simp [tagsTableOnce, createTableStmt, List.isPrefixOf]

/-- On the header `tags,host` / `tags,a`, whose table name is `tags`, the database
`tagsTableOnce` refuses the `CREATE TABLE` of line 114 and the run panics. -/
theorem CreateDB_tags_table_panics :
    CreateDB
        { exampleGlobals with
          inTableTag := false, fieldIndex := [], fieldIndexCount := 0,
          partitionIndex := false, timeIndex := false, useHypertable := false }
        tagsTableOnce ⟨"tags,host".toList, "tags,a".toList, []⟩ "benchmark".toList
        emptyWorld =
      (.panicked,
        ⟨[("tags".toList, ["a".toList])],
          [.connect .admin, .exec .admin "CREATE DATABASE benchmark".toList, .close .admin,
            .connect .bench, .createTagsTable ["host".toList],
            .exec .bench
              "CREATE TABLE tags (time timestamptz, tags_id integer, a DOUBLE PRECISION)".toList,
            .close .bench]⟩) := by
  decide

/-- C7: on a database that refuses to create the table `tags` a second time, when
`CreateDB`, started with an empty `tableCols`, returns nil, the header is well formed (the
tag line is `tags` and at least one tag name, the column line a table name and its
fields) and `tableCols` has exactly two entries: `tags` with the comma-split of the
trimmed tag line without its first token, and the table name with the comma-split of the
trimmed column line without its first token. -/
theorem CreateDB_registry (g : Globals) (db : Oracle) (d : dbCreator) (dbName : Str)
    (trace0 : List Event) (w : World)
    (h : CreateDB g db d dbName ⟨[], trace0⟩ = (.returned none, w))
    (hdb : refusesSecondTagsTable db) :
    ∃ pf tagRest ht fields,
      strings.Split (strings.TrimSpace d.tags) ',' = "tags".toList :: pf :: tagRest ∧
      strings.Split (strings.TrimSpace d.cols) ',' = ht :: fields ∧
      w.tableCols.length = 2 ∧
      w.tableCols.Perm
        [("tags".toList, (strings.Split (strings.TrimSpace d.tags) ',').tail),
          (ht, (strings.Split (strings.TrimSpace d.cols) ',').tail)] ∧
      mapGet w.tableCols "tags".toList = pf :: tagRest ∧
      mapGet w.tableCols ht = fields := by
  apply tableCols_two_entries g db d dbName trace0 w h
  obtain ⟨pf, tagRest, ht, fields, st, _, h2, _, _, htr⟩ :=
    CreateDB_returned_nil g db d dbName ⟨[], trace0⟩ w h
  obtain ⟨evs, hevs, hfs⟩ := CreateDB_failStop g db d dbName ⟨[], trace0⟩
  rw [h] at hevs hfs
  have hnp : ¬ ((Outcome.returned (none : Option Str)) = .panicked) := by
    intro hc
    cases hc
  have hev : evs =
      [.connect .admin, .exec .admin ("CREATE DATABASE ".toList ++ dbName), .close .admin,
          .connect .bench] ++ Event.createTagsTable (pf :: tagRest) ::
        (Event.exec .bench (createTableStmt ht st.fieldDef) ::
          ((tableIndexStmts g ht ++ st.indexes ++ hypertableStmts g ht).map
            (Event.exec .bench) ++ [.close .bench])) := by
    have e := hevs.symm.trans htr
    simp only [List.append_assoc] at e
    have e' := List.append_cancel_left e
    rw [e']
    simp
  have hacc : db (trace0 ++ [.connect .admin,
      .exec .admin ("CREATE DATABASE ".toList ++ dbName), .close .admin, .connect .bench])
      (.createTagsTable (pf :: tagRest)) = true := by
    cases hv : db (trace0 ++ [.connect .admin,
      .exec .admin ("CREATE DATABASE ".toList ++ dbName), .close .admin, .connect .bench])
      (.createTagsTable (pf :: tagRest)) with
    | true => rfl
    | false =>
      exact absurd (failStop_decompose db _ trace0 evs hfs _ _ _ hev
        (fun _ hc => Event.noConfusion hc) hv).1 hnp
  intro hhead
  rw [h2] at hhead
  simp only [List.head?_cons, Option.some.injEq] at hhead
  subst hhead
  have hrefused := hdb _ _ st.fieldDef hacc
  have hev2 : evs =
      ([.connect .admin, .exec .admin ("CREATE DATABASE ".toList ++ dbName), .close .admin,
          .connect .bench] ++ [Event.createTagsTable (pf :: tagRest)]) ++
        Event.exec .bench (createTableStmt "tags".toList st.fieldDef) ::
          ((tableIndexStmts g "tags".toList ++ st.indexes ++
            hypertableStmts g "tags".toList).map (Event.exec .bench) ++ [.close .bench]) := by
    rw [hev]
    simp
  exact absurd (failStop_decompose db _ trace0 evs hfs _ _ _ hev2
    (fun _ hc => Event.noConfusion hc) (by rw [← List.append_assoc]; exact hrefused)).1 hnp

/-- The witness of C7: the example run, whose table is `cpu`, on the database
`tagsTableOnce`. -/
theorem CreateDB_registry_witness :
    CreateDB exampleGlobals tagsTableOnce exampleHeader "benchmark".toList ⟨[], []⟩ =
        (.returned none, exampleWorld) ∧
    refusesSecondTagsTable tagsTableOnce ∧
    ∃ pf tagRest ht fields,
      strings.Split (strings.TrimSpace exampleHeader.tags) ',' = "tags".toList :: pf :: tagRest ∧
      strings.Split (strings.TrimSpace exampleHeader.cols) ',' = ht :: fields ∧
      exampleWorld.tableCols.length = 2 ∧
      exampleWorld.tableCols.Perm
        [("tags".toList, (strings.Split (strings.TrimSpace exampleHeader.tags) ',').tail),
          (ht, (strings.Split (strings.TrimSpace exampleHeader.cols) ',').tail)] ∧
      mapGet exampleWorld.tableCols "tags".toList = pf :: tagRest ∧
      mapGet exampleWorld.tableCols ht = fields :=
  ⟨Prod.ext (by decide) rfl, tagsTableOnce_refuses,
    CreateDB_registry exampleGlobals tagsTableOnce exampleHeader "benchmark".toList []
      exampleWorld (Prod.ext (by decide) rfl) tagsTableOnce_refuses⟩

end Tsbs
